import Mathlib

/-!
# BME280 driver

A shallow embedding of the BME280 driver (`bme280_driver.cpp`), its register map
(`bme280_registers.hpp`) and the raw-to-physical conversion (`bme280_conversion.cpp`).

Conventions of the embedding:

* a C++ `unsigned char` is a `Byte` (`Fin 256`);
* signed machine integers are `Int`, every arithmetic result being wrapped to its
  width by `int32_t` / `int64_t` (two's complement), so the definitions are total
  and agree with the C++ code wherever no intermediate overflows;
* `>>` on a signed integer is `shr`, the arithmetic shift `Int.shiftRight` (rounding
  toward minus infinity);
* integer division is fallible: `sdiv64` yields `none` for a zero divisor;
* a `float` result is modelled by the exact rational quotient of the integer result
  by the scaling constant; the rounding of the floating-point type is not modelled;
* the bus is an oracle answering each read from the transactions issued so far, and
  the driver threads the log of transactions through every operation.
-/

namespace jungles

/-- A C++ `unsigned char`. -/
abbrev Byte := Fin 256

/-! ## Machine integers -/

/-- Conversion to `int8_t` (two's-complement wrap to 8 bits). -/
def int8_t (x : Int) : Int := (x + 128) % 256 - 128

/-- Conversion to `int16_t` (two's-complement wrap to 16 bits). -/
def int16_t (x : Int) : Int := (x + 32768) % 65536 - 32768

/-- Conversion to `int32_t` (two's-complement wrap to 32 bits). -/
def int32_t (x : Int) : Int := (x + 2147483648) % 4294967296 - 2147483648

/-- Conversion to `int64_t` (two's-complement wrap to 64 bits). -/
def int64_t (x : Int) : Int :=
  (x + 9223372036854775808) % 18446744073709551616 - 9223372036854775808

/-- Addition of two `int32_t`. -/
def add32 (a b : Int) : Int := int32_t (a + b)

/-- Subtraction of two `int32_t`. -/
def sub32 (a b : Int) : Int := int32_t (a - b)

/-- Multiplication of two `int32_t`. -/
def mul32 (a b : Int) : Int := int32_t (a * b)

/-- Left shift of an `int32_t`. -/
def shl32 (a : Int) (n : Nat) : Int := int32_t (a * 2 ^ n)

/-- Addition of two `int64_t`. -/
def add64 (a b : Int) : Int := int64_t (a + b)

/-- Subtraction of two `int64_t`. -/
def sub64 (a b : Int) : Int := int64_t (a - b)

/-- Multiplication of two `int64_t`. -/
def mul64 (a b : Int) : Int := int64_t (a * b)

/-- Left shift of an `int64_t`. -/
def shl64 (a : Int) (n : Nat) : Int := int64_t (a * 2 ^ n)

/-- Right shift of a signed integer by `n` bits: arithmetic, rounding toward minus
infinity. -/
def shr (a : Int) (n : Nat) : Int := Int.shiftRight a n

/-- Division of two `int64_t`: truncating toward zero, undefined for a zero divisor. -/
def sdiv64 (a b : Int) : Option Int :=
  if b = 0 then none else some (int64_t (Int.tdiv a b))

/-! ## Register map (`bme280_registers.hpp`) -/

namespace BME280

/-- The device address on the bus. -/
def address : Byte := 0xEC

/-- The enumeration `RegisterAddress`. -/
inductive RegisterAddress where
  | callibration_first_part_beg
  | id
  | reset
  | callibration_second_part_beg
  | control_humidity
  | status
  | control_measurement
  | config
  | pressure_msb
  | pressure_lsb
  | pressure_xlsb
  | temperature_msb
  | temperature_lsb
  | temperature_xlsb
  | humidity_msb
  | humidity_lsb
  | data_beg
deriving DecidableEq

end BME280

/-- The underlying value of a `RegisterAddress` enumerator. -/
def to_u_type : BME280.RegisterAddress → Byte
  | .callibration_first_part_beg => 0x88
  | .id => 0xD0
  | .reset => 0xE0
  | .callibration_second_part_beg => 0xE1
  | .control_humidity => 0xF2
  | .status => 0xF3
  | .control_measurement => 0xF4
  | .config => 0xF5
  | .pressure_msb => 0xF7
  | .pressure_lsb => 0xF8
  | .pressure_xlsb => 0xF9
  | .temperature_msb => 0xFA
  | .temperature_lsb => 0xFB
  | .temperature_xlsb => 0xFC
  | .humidity_msb => 0xFD
  | .humidity_lsb => 0xFE
  | .data_beg => 0xF7

namespace BME280

/-- The chip identity byte, `RegisterValues::id`. -/
def RegisterValues.id : Byte := 0x60

/-- Humidity oversampling 8, `ControlHumidity::oversampling_8`. -/
def ControlHumidity.oversampling_8 : Byte := 4

/-- Temperature oversampling 8. -/
def ControlMeasurement.temperature_oversampling_8 : Byte := 0b10000000

/-- Pressure oversampling 8. -/
def ControlMeasurement.pressure_oversampling_8 : Byte := 0b00010000

/-- Sleep mode. -/
def ControlMeasurement.sleep_mode : Byte := 0

/-- Forced mode. -/
def ControlMeasurement.forced_mode : Byte := 0b00000001

/-- Normal mode. -/
def ControlMeasurement.normal_mode : Byte := 0b00000011

/-- The "measuring" bit of the status register. -/
def Status.measuring : Byte := 0b00001000

/-- The "image update" bit of the status register. -/
def Status.im_update : Byte := 0b00000001

/-! ## Memory-mapped structures -/

/-- Byte `i` of a mapped region as an unsigned value; a region that the bus filled
only partly keeps the zero of its value-initialisation. -/
def region_u8 (region : List Byte) (i : Nat) : Int := ((region.getD i 0).val : Int)

/-- The `uint16_t` stored little-endian at offset `i` of a mapped region. -/
def region_u16 (region : List Byte) (i : Nat) : Int :=
  region_u8 region i + 256 * region_u8 region (i + 1)

/-- The `int16_t` stored little-endian at offset `i` of a mapped region. -/
def region_i16 (region : List Byte) (i : Nat) : Int := int16_t (region_u16 region i)

/-- The union `CallibrationData` (`bme280_conversion.hpp`): every field holds the
value of its C++ type (`uint16_t`, `int16_t`, `uint8_t`, `int8_t`) as an integer. -/
structure CallibrationData where
  dig_T1 : Int
  dig_T2 : Int
  dig_T3 : Int
  dig_P1 : Int
  dig_P2 : Int
  dig_P3 : Int
  dig_P4 : Int
  dig_P5 : Int
  dig_P6 : Int
  dig_P7 : Int
  dig_P8 : Int
  dig_P9 : Int
  r1 : Int
  dig_H1 : Int
  dig_H2 : Int
  dig_H3 : Int
  dig_H4 : Int
  dig_H5 : Int
  dig_H6 : Int
deriving DecidableEq

/-- A value-initialised `CallibrationData` whose `mapped_region` (26 bytes, packed,
little-endian host) received the bytes of `region`; the fields behind the mapped
region stay zero. -/
def CallibrationData.of_mapped_region (region : List Byte) : CallibrationData :=
  { dig_T1 := region_u16 region 0
    dig_T2 := region_i16 region 2
    dig_T3 := region_i16 region 4
    dig_P1 := region_u16 region 6
    dig_P2 := region_i16 region 8
    dig_P3 := region_i16 region 10
    dig_P4 := region_i16 region 12
    dig_P5 := region_i16 region 14
    dig_P6 := region_i16 region 16
    dig_P7 := region_i16 region 18
    dig_P8 := region_i16 region 20
    dig_P9 := region_i16 region 22
    r1 := region_u8 region 24
    dig_H1 := region_u8 region 25
    dig_H2 := 0
    dig_H3 := 0
    dig_H4 := 0
    dig_H5 := 0
    dig_H6 := 0 }

/-- The union `CallibrationDataSecondPart` (`bme280_registers.hpp`). -/
structure CallibrationDataSecondPart where
  dig_H2 : Int
  dig_H3 : Nat
  dig_H4_msb : Nat
  dig_H4_lsb_H5_lsb : Nat
  dig_H5_msb : Nat
  dig_H6 : Nat
deriving DecidableEq

/-- A value-initialised `CallibrationDataSecondPart` whose `mapped_region` (7 bytes)
received the bytes of `region`. -/
def CallibrationDataSecondPart.of_mapped_region (region : List Byte) :
    CallibrationDataSecondPart :=
  { dig_H2 := region_i16 region 0
    dig_H3 := (region.getD 2 0).val
    dig_H4_msb := (region.getD 3 0).val
    dig_H4_lsb_H5_lsb := (region.getD 4 0).val
    dig_H5_msb := (region.getD 5 0).val
    dig_H6 := (region.getD 6 0).val }

/-- The union `RawData` (`bme280_conversion.hpp`): eight `uint8_t` registers. -/
structure RawData where
  pressure_msb : Byte
  pressure_lsb : Byte
  pressure_xlsb : Byte
  temperature_msb : Byte
  temperature_lsb : Byte
  temperature_xlsb : Byte
  humidity_msb : Byte
  humidity_lsb : Byte
deriving DecidableEq

/-- A value-initialised `RawData` whose `mapped_region` (8 bytes) received the bytes
of `region`. -/
def RawData.of_mapped_region (region : List Byte) : RawData :=
  { pressure_msb := region.getD 0 0
    pressure_lsb := region.getD 1 0
    pressure_xlsb := region.getD 2 0
    temperature_msb := region.getD 3 0
    temperature_lsb := region.getD 4 0
    temperature_xlsb := region.getD 5 0
    humidity_msb := region.getD 6 0
    humidity_lsb := region.getD 7 0 }

end BME280

/-- The structure `BME280Measurement` (`bme280_measurement.hpp`); each `float` is
modelled by an exact rational. -/
structure BME280Measurement where
  temperature : ℚ
  pressure : ℚ
  humidity : ℚ
deriving DecidableEq

/-! ## Conversion (`bme280_conversion.cpp`) -/

namespace BME280

/-- The function `calculate_fine_temperature`. -/
def calculate_fine_temperature (temperature_raw : Int) (CallibrationData : CallibrationData) :
    Int :=
  let adc_T := temperature_raw
  let var1 :=
    shr (mul32 (sub32 (shr adc_T 3) (shl32 CallibrationData.dig_T1 1)) CallibrationData.dig_T2)
      11
  let var2 :=
    shr
      (mul32
        (shr
          (mul32 (sub32 (shr adc_T 4) CallibrationData.dig_T1)
            (sub32 (shr adc_T 4) CallibrationData.dig_T1))
          12)
        CallibrationData.dig_T3)
      14
  add32 var1 var2

/-- The integer `(t_fine * 5 + 128) >> 8` of `convert_temperature`, in hundredths of
a degree, before it is stored in the `float T`. -/
def convert_temperature.T (fine_temperature : Int) : Int :=
  let t_fine := fine_temperature
  shr (add32 (mul32 t_fine 5) 128) 8

/-- The function `convert_temperature`. -/
def convert_temperature (fine_temperature : Int) : ℚ :=
  (convert_temperature.T fine_temperature : ℚ) / 100

/-- The value of `var1` tested by `if (var1 == 0)` in `convert_pressure`. -/
def convert_pressure.var1 (fine_temperature : Int) (CallibrationData : CallibrationData) : Int :=
  let t_fine := fine_temperature
  let var1 := sub64 t_fine 128000
  let var1 :=
    add64 (shr (mul64 (mul64 var1 var1) CallibrationData.dig_P3) 8)
      (shl64 (mul64 var1 CallibrationData.dig_P2) 12)
  shr (mul64 (add64 (shl64 1 47) var1) CallibrationData.dig_P1) 33

/-- The value of `var2` at `if (var1 == 0)` in `convert_pressure`. -/
def convert_pressure.var2 (fine_temperature : Int) (CallibrationData : CallibrationData) : Int :=
  let t_fine := fine_temperature
  let var1 := sub64 t_fine 128000
  let var2 := mul64 (mul64 var1 var1) CallibrationData.dig_P6
  let var2 := add64 var2 (shl64 (mul64 var1 CallibrationData.dig_P5) 17)
  add64 var2 (shl64 CallibrationData.dig_P4 35)

/-- The final integer `p` of `convert_pressure` (pascals times 256), computed after
the test of `var1`; `none` when the division has a zero divisor. -/
def convert_pressure.p (adc_P var1 var2 : Int) (CallibrationData : CallibrationData) :
    Option Int :=
  let p := sub32 1048576 adc_P
  match sdiv64 (mul64 (sub64 (shl64 p 31) var2) 3125) var1 with
  | none => none
  | some p =>
    let var1 := shr (mul64 (mul64 CallibrationData.dig_P9 (shr p 13)) (shr p 13)) 25
    let var2 := shr (mul64 CallibrationData.dig_P8 p) 19
    some (add64 (shr (add64 (add64 p var1) var2) 8) (shl64 CallibrationData.dig_P7 4))

/-- The function `convert_pressure`. -/
def convert_pressure (pressure fine_temperature : Int) (CallibrationData : CallibrationData) :
    Option ℚ :=
  let adc_P := pressure
  let t_fine := fine_temperature
  let var1 := convert_pressure.var1 t_fine CallibrationData
  let var2 := convert_pressure.var2 t_fine CallibrationData
  if var1 = 0 then some 0
  else (convert_pressure.p adc_P var1 var2 CallibrationData).map fun p => (p : ℚ) / 256

/-- The clamped `v_x1_u32r` of `convert_humidity`, before the final shift. -/
def convert_humidity.v_x1_u32r (humidity fine_temperature : Int)
    (CallibrationData : CallibrationData) : Int :=
  let adc_H := humidity
  let t_fine := fine_temperature
  let v_x1_u32r := sub32 t_fine 76800
  let v_x1_u32r :=
    mul32
      (shr
        (add32
          (sub32 (sub32 (shl32 adc_H 14) (shl32 CallibrationData.dig_H4 20))
            (mul32 CallibrationData.dig_H5 v_x1_u32r))
          16384)
        15)
      (shr
        (add32
          (mul32
            (add32
              (shr
                (mul32 (shr (mul32 v_x1_u32r CallibrationData.dig_H6) 10)
                  (add32 (shr (mul32 v_x1_u32r CallibrationData.dig_H3) 11) 32768))
                10)
              2097152)
            CallibrationData.dig_H2)
          8192)
        14)
  let v_x1_u32r :=
    sub32 v_x1_u32r
      (shr
        (mul32 (shr (mul32 (shr v_x1_u32r 15) (shr v_x1_u32r 15)) 7) CallibrationData.dig_H1)
        4)
  let v_x1_u32r := if v_x1_u32r < 0 then 0 else v_x1_u32r
  if v_x1_u32r > 419430400 then 419430400 else v_x1_u32r

/-- The function `convert_humidity`. -/
def convert_humidity (humidity fine_temperature : Int) (CallibrationData : CallibrationData) :
    ℚ :=
  let h := shr (convert_humidity.v_x1_u32r humidity fine_temperature CallibrationData) 12
  (h : ℚ) / 1024

/-- The raw temperature count assembled by `to_real_values`. -/
def temperature_raw (regs : RawData) : Int :=
  (((regs.temperature_msb.val <<< 12) ||| (regs.temperature_lsb.val <<< 4)
    ||| (regs.temperature_xlsb.val >>> 4) : Nat) : Int)

/-- The raw pressure count assembled by `to_real_values`. -/
def pressure_raw (regs : RawData) : Int :=
  (((regs.pressure_msb.val <<< 12) ||| (regs.pressure_lsb.val <<< 4)
    ||| (regs.pressure_xlsb.val >>> 4) : Nat) : Int)

/-- The raw humidity count assembled by `to_real_values`. -/
def humidity_raw (regs : RawData) : Int :=
  (((regs.humidity_msb.val <<< 8) ||| regs.humidity_lsb.val : Nat) : Int)

/-- The function `to_real_values`; `none` stands for a division by zero. -/
def to_real_values (callib_data : CallibrationData) (regs : RawData) :
    Option BME280Measurement :=
  let t_fine := calculate_fine_temperature (temperature_raw regs) callib_data
  let temperature := convert_temperature t_fine
  match convert_pressure (pressure_raw regs) t_fine callib_data with
  | none => none
  | some pressure =>
    let humidity := convert_humidity (humidity_raw regs) t_fine callib_data
    some { temperature := temperature, pressure := pressure, humidity := humidity }

end BME280

/-! ## The bus (`i2c_master.hpp`) and the driver's collaborators -/

/-- One interaction of the driver with its collaborators, with what it returned. -/
inductive Transaction where
  | read (device_address register_address : Byte) (num_bytes : Nat) (bytes : List Byte)
  | read_byte (device_address register_address : Byte) (byte : Byte)
  | write_byte (device_address register_address : Byte) (byte : Byte)
  | delay (milliseconds : Nat)
deriving DecidableEq

/-- The transactions issued so far, oldest first. -/
abbrev Log := List Transaction

/-- The interface `I2CMaster`: what a read returns, given the transactions issued so
far. The driver never calls `write`, and `write_byte` returns nothing. -/
structure I2CMaster where
  read : Log → Byte → Byte → Nat → List Byte
  read_byte : Log → Byte → Byte → Byte

/-- Conversion to `unsigned char`. -/
def unsigned_char (n : Nat) : Byte := ⟨n % 256, Nat.mod_lt n (by decide)⟩

/-- The member `bme280_i2c_io.read`: a burst read from the device at `BME280::address`. -/
def bme280_i2c_io.read (i2c : I2CMaster) (register_address : Byte) (num_bytes : Nat)
    (log : Log) : List Byte × Log :=
  let bytes := i2c.read log BME280.address register_address num_bytes
  (bytes, log ++ [Transaction.read BME280.address register_address num_bytes bytes])

/-- The member `bme280_i2c_io.read_byte`. -/
def bme280_i2c_io.read_byte (i2c : I2CMaster) (register_address : Byte) (log : Log) :
    Byte × Log :=
  let byte := i2c.read_byte log BME280.address register_address
  (byte, log ++ [Transaction.read_byte BME280.address register_address byte])

/-- The member `bme280_i2c_io.write_byte`. -/
def bme280_i2c_io.write_byte (register_address : Byte) (byte : Byte) (log : Log) : Log :=
  log ++ [Transaction.write_byte BME280.address register_address byte]

/-- The member `millisecond_delayer`, an external capability: the call is recorded. -/
def millisecond_delayer (milliseconds : Nat) (log : Log) : Log :=
  log ++ [Transaction.delay milliseconds]

/-- Modelled from the spec: the loop of `jungles::generic::poller::poll`, declared in
`jungles_os_helpers/generic_implementations/poller.hpp`, which is not among the
sources. Following the spec's polling policy, the predicate is probed at most
`polls` times, the delayer is called with the fixed interval between two probes, and
the result is `true` as soon as a probe succeeds and `false` once the budget is
used up. -/
def poller.poll_loop (PollInterval : Nat) (delayer : Nat → Log → Log)
    (predicate : Log → Bool × Log) : Nat → Log → Bool × Log
  | 0, log => (false, log)
  | polls + 1, log =>
    let probe := predicate log
    if probe.1 then (true, probe.2)
    else if polls = 0 then (false, probe.2)
    else poller.poll_loop PollInterval delayer predicate polls (delayer PollInterval probe.2)

/-- Modelled from the spec: the method `poller<PollInterval, Timeout>::poll`, the
number of probes being `Timeout / PollInterval`. -/
def poller.poll (PollInterval Timeout : Nat) (delayer : Nat → Log → Log)
    (predicate : Log → Bool × Log) (log : Log) : Bool × Log :=
  poller.poll_loop PollInterval delayer predicate (Timeout / PollInterval) log

/-! ## The driver (`bme280_driver.cpp`) -/

/-- The exception type `BME280Driver::Error`. -/
structure Error where
  message : String
deriving DecidableEq

/-- How a call of the driver ends: it returns a value, throws an `Error`, or its
behaviour is undefined (a division by zero). -/
inductive Outcome (α : Type) where
  | returned (value : α)
  | thrown (error : Error)
  | undefined

/-- The class `BME280Driver`: the bus it talks to and the calibration it holds. -/
structure BME280Driver where
  i2c : I2CMaster
  callibration_data : BME280.CallibrationData

/-- The method `BME280Driver::read_from_device`; the bytes are copied into a mapped
region by the caller. -/
def read_from_device (i2c : I2CMaster) (register_address : Byte) (length : Nat) (log : Log) :
    List Byte × Log :=
  bme280_i2c_io.read i2c register_address length log

/-- The method `BME280Driver::wait_device_accessible`. -/
def wait_device_accessible (i2c : I2CMaster) (log : Log) : Outcome Unit × Log :=
  let polled :=
    poller.poll 10 1000 millisecond_delayer
      (fun log =>
        let device_id := bme280_i2c_io.read_byte i2c (to_u_type .id) log
        (decide (device_id.1 = BME280.RegisterValues.id), device_id.2))
      log
  let is_no_timeout := polled.1
  if !is_no_timeout then (Outcome.thrown (Error.mk "BME280 inaccessible"), polled.2)
  else (Outcome.returned (), polled.2)

/-- The method `BME280Driver::get_callibration_data`. -/
def get_callibration_data (i2c : I2CMaster) (log : Log) :
    Outcome BME280.CallibrationData × Log :=
  let waited := wait_device_accessible i2c log
  match waited.1 with
  | .thrown error => (Outcome.thrown error, waited.2)
  | .undefined => (Outcome.undefined, waited.2)
  | .returned _ =>
    let first := read_from_device i2c (to_u_type .callibration_first_part_beg) 26 waited.2
    let callib_data := BME280.CallibrationData.of_mapped_region first.1
    let second := read_from_device i2c (to_u_type .callibration_second_part_beg) 7 first.2
    let second_part := BME280.CallibrationDataSecondPart.of_mapped_region second.1
    (Outcome.returned
      { callib_data with
        dig_H2 := second_part.dig_H2
        dig_H3 := second_part.dig_H3
        dig_H4 :=
          int16_t (((second_part.dig_H4_msb <<< 4) |||
            (second_part.dig_H4_lsb_H5_lsb &&& 0x0F) : Nat) : Int)
        dig_H5 :=
          int16_t (((second_part.dig_H5_msb <<< 4) |||
            (second_part.dig_H4_lsb_H5_lsb >>> 4) : Nat) : Int)
        dig_H6 := int8_t second_part.dig_H6 },
      second.2)

/-- The method `BME280Driver::configure_sensor`. -/
def configure_sensor (log : Log) : Log :=
  let log :=
    bme280_i2c_io.write_byte (to_u_type .control_humidity) BME280.ControlHumidity.oversampling_8 log
  bme280_i2c_io.write_byte (to_u_type .control_measurement)
    (unsigned_char
      (BME280.ControlMeasurement.temperature_oversampling_8.val |||
        BME280.ControlMeasurement.pressure_oversampling_8.val))
    log

/-- The constructor `BME280Driver::BME280Driver` (named `construct` as a class and its
constructor cannot share a name here). -/
def BME280Driver.construct (i2c : I2CMaster) (log : Log) : Outcome BME280Driver × Log :=
  let callibration_data := get_callibration_data i2c log
  match callibration_data.1 with
  | .thrown error => (Outcome.thrown error, callibration_data.2)
  | .undefined => (Outcome.undefined, callibration_data.2)
  | .returned callibration_data_value =>
    (Outcome.returned { i2c := i2c, callibration_data := callibration_data_value },
      configure_sensor callibration_data.2)

/-- The method `BME280Driver::start_one_shot_measurement`. -/
def start_one_shot_measurement (i2c : I2CMaster) (log : Log) : Log :=
  let control_measurement_register_address := to_u_type .control_measurement
  let current_config := bme280_i2c_io.read_byte i2c control_measurement_register_address log
  let new_config_with_only_measurement_control_updated_bit :=
    current_config.1.val ||| BME280.ControlMeasurement.forced_mode.val
  bme280_i2c_io.write_byte control_measurement_register_address
    (unsigned_char new_config_with_only_measurement_control_updated_bit) current_config.2

/-- The method `BME280Driver::wait_measurement_finished`. -/
def wait_measurement_finished (i2c : I2CMaster) (log : Log) : Outcome Unit × Log :=
  let polled :=
    poller.poll 1 100 millisecond_delayer
      (fun log =>
        let status_register_content := bme280_i2c_io.read_byte i2c (to_u_type .status) log
        (decide (status_register_content.1.val &&& BME280.Status.measuring.val = 0),
          status_register_content.2))
      log
  let is_no_timeout := polled.1
  if !is_no_timeout then
    (Outcome.thrown (Error.mk "Error waiting for BME280 measurement finished"), polled.2)
  else (Outcome.returned (), polled.2)

/-- The method `BME280Driver::get_raw_data`. -/
def get_raw_data (i2c : I2CMaster) (log : Log) : BME280.RawData × Log :=
  let raw_data_size := 8
  let raw_data := bme280_i2c_io.read i2c (to_u_type .data_beg) raw_data_size log
  (BME280.RawData.of_mapped_region raw_data.1, raw_data.2)

/-- The method `BME280Driver::read`. -/
def BME280Driver.read (driver : BME280Driver) (log : Log) : Outcome BME280Measurement × Log :=
  let log := start_one_shot_measurement driver.i2c log
  let waited := wait_measurement_finished driver.i2c log
  match waited.1 with
  | .thrown error => (Outcome.thrown error, waited.2)
  | .undefined => (Outcome.undefined, waited.2)
  | .returned _ =>
    let raw_data := get_raw_data driver.i2c waited.2
    match BME280.to_real_values driver.callibration_data raw_data.1 with
    | none => (Outcome.undefined, raw_data.2)
    | some result =>
      (Outcome.returned
        { temperature := result.temperature
          pressure := result.pressure
          humidity := result.humidity },
        raw_data.2)

/-! ## Vocabulary of the properties -/

/-- Whether a transaction is a read (`read` or `read_byte`) at the register address. -/
def Transaction.is_read_at (address : Byte) : Transaction → Bool
  | .read _ register_address _ _ => decide (register_address = address)
  | .read_byte _ register_address _ => decide (register_address = address)
  | .write_byte _ _ _ => false
  | .delay _ => false

/-- Whether a transaction is a write at the register address. -/
def Transaction.is_write_at (address : Byte) : Transaction → Bool
  | .write_byte _ register_address _ => decide (register_address = address)
  | .read _ _ _ _ => false
  | .read_byte _ _ _ => false
  | .delay _ => false

/-- The calibration that `get_callibration_data` assembles from the bytes `first` of
the block read at 0x88 and the bytes `second` of the block read at 0xE1. -/
def callibration_of_blocks (first second : List Byte) : BME280.CallibrationData :=
  let second_part := BME280.CallibrationDataSecondPart.of_mapped_region second
  { BME280.CallibrationData.of_mapped_region first with
    dig_H2 := second_part.dig_H2
    dig_H3 := second_part.dig_H3
    dig_H4 :=
      int16_t (((second_part.dig_H4_msb <<< 4) |||
        (second_part.dig_H4_lsb_H5_lsb &&& 0x0F) : Nat) : Int)
    dig_H5 :=
      int16_t (((second_part.dig_H5_msb <<< 4) |||
        (second_part.dig_H4_lsb_H5_lsb >>> 4) : Nat) : Int)
    dig_H6 := int8_t second_part.dig_H6 }

/-- The signed 16-bit two's-complement value of the little-endian byte pair
`(low, high)`. -/
def signed16 (low high : Int) : Int :=
  if low + 256 * high < 32768 then low + 256 * high else low + 256 * high - 65536

/-- The value lies in the range of `int32_t`. -/
def in_int32 (x : Int) : Prop := -2147483648 ≤ x ∧ x ≤ 2147483647

/-- The manufacturer's reference formula for the fine temperature as the
specification words it, over unbounded integers. -/
def reference_t_fine (adc_T dig_T1 dig_T2 dig_T3 : Int) : Int :=
  shr ((shr adc_T 3 - dig_T1 * 2) * dig_T2) 11 +
    shr (shr ((shr adc_T 4 - dig_T1) * (shr adc_T 4 - dig_T1)) 12 * dig_T3) 14

/-- No 32-bit intermediate of the temperature computation overflows for the raw
count `adc_T`: each intermediate of `calculate_fine_temperature` and of
`convert_temperature`, taken in unbounded integers, lies in the range of `int32_t`. -/
def temperature_no_overflow (adc_T : Int) (c : BME280.CallibrationData) : Prop :=
  in_int32 (c.dig_T1 * 2) ∧
  in_int32 (shr adc_T 3 - c.dig_T1 * 2) ∧
  in_int32 ((shr adc_T 3 - c.dig_T1 * 2) * c.dig_T2) ∧
  in_int32 (shr adc_T 4 - c.dig_T1) ∧
  in_int32 ((shr adc_T 4 - c.dig_T1) * (shr adc_T 4 - c.dig_T1)) ∧
  in_int32 (shr ((shr adc_T 4 - c.dig_T1) * (shr adc_T 4 - c.dig_T1)) 12 * c.dig_T3) ∧
  in_int32 (reference_t_fine adc_T c.dig_T1 c.dig_T2 c.dig_T3) ∧
  in_int32 (reference_t_fine adc_T c.dig_T1 c.dig_T2 c.dig_T3 * 5) ∧
  in_int32 (reference_t_fine adc_T c.dig_T1 c.dig_T2 c.dig_T3 * 5 + 128)

/-- Whether a transaction goes over the bus; a call of the delay capability does not. -/
def Transaction.is_bus : Transaction → Bool
  | .read _ _ _ _ => true
  | .read_byte _ _ _ => true
  | .write_byte _ _ _ => true
  | .delay _ => false

/-- The bus transactions of a trace, in the order they were issued. -/
def bus_transactions (trace : Log) : Log := trace.filter Transaction.is_bus

/-- The duration a transaction asks of the delay capability, in milliseconds. -/
def Transaction.delay_ms : Transaction → Nat
  | .delay milliseconds => milliseconds
  | .read _ _ _ _ => 0
  | .read_byte _ _ _ => 0
  | .write_byte _ _ _ => 0

/-- The total delay requested in a trace, in milliseconds. -/
def total_delay (trace : Log) : Nat := (trace.map Transaction.delay_ms).sum

/-- The trace of a poll whose probes of the register returned `bytes`, in this order:
one `read_byte` per probe, and one delay of the poll interval between two probes. -/
def poll_trace (PollInterval : Nat) (register_address : Byte) : List Byte → Log
  | [] => []
  | [byte] => [Transaction.read_byte BME280.address register_address byte]
  | byte :: next :: rest =>
    Transaction.read_byte BME280.address register_address byte ::
      Transaction.delay PollInterval :: poll_trace PollInterval register_address (next :: rest)

/-- The number of reads (`read` or `read_byte`) at the register address in a trace. -/
def reads_at (register_address : Byte) (trace : Log) : Nat :=
  (trace.filter (Transaction.is_read_at register_address)).length

/-- The value lies in the range of `int64_t`. -/
def in_int64 (x : Int) : Prop := -9223372036854775808 ≤ x ∧ x ≤ 9223372036854775807

/-- The unclamped humidity value `v_x1_u32r` of the manufacturer's formula over
unbounded integers. -/
def reference_humidity_unclamped (adc_H t_fine : Int) (c : BME280.CallibrationData) : Int :=
  shr (adc_H * 2 ^ 14 - c.dig_H4 * 2 ^ 20 - c.dig_H5 * (t_fine - 76800) + 16384) 15 *
      shr ((shr (shr ((t_fine - 76800) * c.dig_H6) 10 *
        (shr ((t_fine - 76800) * c.dig_H3) 11 + 32768)) 10 + 2097152) * c.dig_H2 + 8192) 14 -
    shr (shr (shr (shr (adc_H * 2 ^ 14 - c.dig_H4 * 2 ^ 20 - c.dig_H5 * (t_fine - 76800)
          + 16384) 15 *
        shr ((shr (shr ((t_fine - 76800) * c.dig_H6) 10 *
          (shr ((t_fine - 76800) * c.dig_H3) 11 + 32768)) 10 + 2097152) * c.dig_H2 + 8192)
          14) 15 *
      shr (shr (adc_H * 2 ^ 14 - c.dig_H4 * 2 ^ 20 - c.dig_H5 * (t_fine - 76800) + 16384) 15 *
        shr ((shr (shr ((t_fine - 76800) * c.dig_H6) 10 *
          (shr ((t_fine - 76800) * c.dig_H3) 11 + 32768)) 10 + 2097152) * c.dig_H2 + 8192)
          14) 15) 7 * c.dig_H1) 4

/-- The humidity value of the manufacturer's formula over unbounded integers, clamped
to [0, 419430400]. -/
def reference_humidity (adc_H t_fine : Int) (c : BME280.CallibrationData) : Int :=
  if (if reference_humidity_unclamped adc_H t_fine c < 0 then 0
      else reference_humidity_unclamped adc_H t_fine c) > 419430400 then 419430400
  else if reference_humidity_unclamped adc_H t_fine c < 0 then 0
  else reference_humidity_unclamped adc_H t_fine c

/-- No 32-bit intermediate of the humidity computation overflows: each intermediate of
`convert_humidity`, taken in unbounded integers, lies in the range of `int32_t`. -/
def humidity_no_overflow (adc_H t_fine : Int) (c : BME280.CallibrationData) : Prop :=
  in_int32 (t_fine - 76800) ∧
  in_int32 (adc_H * 2 ^ 14) ∧
  in_int32 (c.dig_H4 * 2 ^ 20) ∧
  in_int32 (adc_H * 2 ^ 14 - c.dig_H4 * 2 ^ 20) ∧
  in_int32 (c.dig_H5 * (t_fine - 76800)) ∧
  in_int32 (adc_H * 2 ^ 14 - c.dig_H4 * 2 ^ 20 - c.dig_H5 * (t_fine - 76800)) ∧
  in_int32 (adc_H * 2 ^ 14 - c.dig_H4 * 2 ^ 20 - c.dig_H5 * (t_fine - 76800) + 16384) ∧
  in_int32 ((t_fine - 76800) * c.dig_H6) ∧
  in_int32 ((t_fine - 76800) * c.dig_H3) ∧
  in_int32 (shr ((t_fine - 76800) * c.dig_H3) 11 + 32768) ∧
  in_int32 (shr ((t_fine - 76800) * c.dig_H6) 10 *
    (shr ((t_fine - 76800) * c.dig_H3) 11 + 32768)) ∧
  in_int32 (shr (shr ((t_fine - 76800) * c.dig_H6) 10 *
    (shr ((t_fine - 76800) * c.dig_H3) 11 + 32768)) 10 + 2097152) ∧
  in_int32 ((shr (shr ((t_fine - 76800) * c.dig_H6) 10 *
    (shr ((t_fine - 76800) * c.dig_H3) 11 + 32768)) 10 + 2097152) * c.dig_H2) ∧
  in_int32 ((shr (shr ((t_fine - 76800) * c.dig_H6) 10 *
    (shr ((t_fine - 76800) * c.dig_H3) 11 + 32768)) 10 + 2097152) * c.dig_H2 + 8192) ∧
  in_int32 (shr (adc_H * 2 ^ 14 - c.dig_H4 * 2 ^ 20 - c.dig_H5 * (t_fine - 76800) + 16384) 15 *
    shr ((shr (shr ((t_fine - 76800) * c.dig_H6) 10 *
      (shr ((t_fine - 76800) * c.dig_H3) 11 + 32768)) 10 + 2097152) * c.dig_H2 + 8192) 14) ∧
  in_int32 (shr (shr (adc_H * 2 ^ 14 - c.dig_H4 * 2 ^ 20 - c.dig_H5 * (t_fine - 76800)
        + 16384) 15 *
      shr ((shr (shr ((t_fine - 76800) * c.dig_H6) 10 *
        (shr ((t_fine - 76800) * c.dig_H3) 11 + 32768)) 10 + 2097152) * c.dig_H2 + 8192)
        14) 15 *
    shr (shr (adc_H * 2 ^ 14 - c.dig_H4 * 2 ^ 20 - c.dig_H5 * (t_fine - 76800) + 16384) 15 *
      shr ((shr (shr ((t_fine - 76800) * c.dig_H6) 10 *
        (shr ((t_fine - 76800) * c.dig_H3) 11 + 32768)) 10 + 2097152) * c.dig_H2 + 8192)
        14) 15) ∧
  in_int32 (shr (shr (shr (adc_H * 2 ^ 14 - c.dig_H4 * 2 ^ 20 - c.dig_H5 * (t_fine - 76800)
        + 16384) 15 *
      shr ((shr (shr ((t_fine - 76800) * c.dig_H6) 10 *
        (shr ((t_fine - 76800) * c.dig_H3) 11 + 32768)) 10 + 2097152) * c.dig_H2 + 8192)
        14) 15 *
    shr (shr (adc_H * 2 ^ 14 - c.dig_H4 * 2 ^ 20 - c.dig_H5 * (t_fine - 76800) + 16384) 15 *
      shr ((shr (shr ((t_fine - 76800) * c.dig_H6) 10 *
        (shr ((t_fine - 76800) * c.dig_H3) 11 + 32768)) 10 + 2097152) * c.dig_H2 + 8192)
        14) 15) 7 * c.dig_H1) ∧
  in_int32 (reference_humidity_unclamped adc_H t_fine c)

/-- The denominator `var1` of the manufacturer's pressure formula over unbounded
integers. -/
def reference_pressure_var1 (t_fine : Int) (c : BME280.CallibrationData) : Int :=
  shr ((2 ^ 47 + (shr ((t_fine - 128000) * (t_fine - 128000) * c.dig_P3) 8 +
    (t_fine - 128000) * c.dig_P2 * 2 ^ 12)) * c.dig_P1) 33

/-- The term `var2` of the manufacturer's pressure formula over unbounded integers. -/
def reference_pressure_var2 (t_fine : Int) (c : BME280.CallibrationData) : Int :=
  (t_fine - 128000) * (t_fine - 128000) * c.dig_P6 + (t_fine - 128000) * c.dig_P5 * 2 ^ 17 +
    c.dig_P4 * 2 ^ 35

/-- The quotient of the manufacturer's pressure formula over unbounded integers,
truncated toward zero. -/
def reference_pressure_quotient (adc_P t_fine : Int) (c : BME280.CallibrationData) : Int :=
  Int.tdiv (((1048576 - adc_P) * 2 ^ 31 - reference_pressure_var2 t_fine c) * 3125)
    (reference_pressure_var1 t_fine c)

/-- The final `p` (pascals times 256) of the manufacturer's pressure formula over
unbounded integers. -/
def reference_pressure_p (adc_P t_fine : Int) (c : BME280.CallibrationData) : Int :=
  shr (reference_pressure_quotient adc_P t_fine c +
      shr (c.dig_P9 * shr (reference_pressure_quotient adc_P t_fine c) 13 *
        shr (reference_pressure_quotient adc_P t_fine c) 13) 25 +
      shr (c.dig_P8 * reference_pressure_quotient adc_P t_fine c) 19) 8 +
    c.dig_P7 * 2 ^ 4

/-- No intermediate of the pressure computation overflows: each 64-bit intermediate of
`convert_pressure` (and the 32-bit difference `1048576 - adc_P`), taken in unbounded
integers, lies in the range of its type; those after the test of `var1` are computed
only when `var1` is non-zero. -/
def pressure_no_overflow (adc_P t_fine : Int) (c : BME280.CallibrationData) : Prop :=
  in_int64 (t_fine - 128000) ∧
  in_int64 ((t_fine - 128000) * (t_fine - 128000)) ∧
  in_int64 ((t_fine - 128000) * (t_fine - 128000) * c.dig_P6) ∧
  in_int64 ((t_fine - 128000) * c.dig_P5) ∧
  in_int64 ((t_fine - 128000) * c.dig_P5 * 2 ^ 17) ∧
  in_int64 ((t_fine - 128000) * (t_fine - 128000) * c.dig_P6 +
    (t_fine - 128000) * c.dig_P5 * 2 ^ 17) ∧
  in_int64 (c.dig_P4 * 2 ^ 35) ∧
  in_int64 (reference_pressure_var2 t_fine c) ∧
  in_int64 ((t_fine - 128000) * (t_fine - 128000) * c.dig_P3) ∧
  in_int64 ((t_fine - 128000) * c.dig_P2) ∧
  in_int64 ((t_fine - 128000) * c.dig_P2 * 2 ^ 12) ∧
  in_int64 (shr ((t_fine - 128000) * (t_fine - 128000) * c.dig_P3) 8 +
    (t_fine - 128000) * c.dig_P2 * 2 ^ 12) ∧
  in_int64 (2 ^ 47 + (shr ((t_fine - 128000) * (t_fine - 128000) * c.dig_P3) 8 +
    (t_fine - 128000) * c.dig_P2 * 2 ^ 12)) ∧
  in_int64 ((2 ^ 47 + (shr ((t_fine - 128000) * (t_fine - 128000) * c.dig_P3) 8 +
    (t_fine - 128000) * c.dig_P2 * 2 ^ 12)) * c.dig_P1) ∧
  (reference_pressure_var1 t_fine c ≠ 0 →
    in_int32 (1048576 - adc_P) ∧
    in_int64 ((1048576 - adc_P) * 2 ^ 31) ∧
    in_int64 ((1048576 - adc_P) * 2 ^ 31 - reference_pressure_var2 t_fine c) ∧
    in_int64 (((1048576 - adc_P) * 2 ^ 31 - reference_pressure_var2 t_fine c) * 3125) ∧
    in_int64 (reference_pressure_quotient adc_P t_fine c) ∧
    in_int64 (c.dig_P9 * shr (reference_pressure_quotient adc_P t_fine c) 13) ∧
    in_int64 (c.dig_P9 * shr (reference_pressure_quotient adc_P t_fine c) 13 *
      shr (reference_pressure_quotient adc_P t_fine c) 13) ∧
    in_int64 (c.dig_P8 * reference_pressure_quotient adc_P t_fine c) ∧
    in_int64 (reference_pressure_quotient adc_P t_fine c +
      shr (c.dig_P9 * shr (reference_pressure_quotient adc_P t_fine c) 13 *
        shr (reference_pressure_quotient adc_P t_fine c) 13) 25) ∧
    in_int64 (reference_pressure_quotient adc_P t_fine c +
      shr (c.dig_P9 * shr (reference_pressure_quotient adc_P t_fine c) 13 *
        shr (reference_pressure_quotient adc_P t_fine c) 13) 25 +
      shr (c.dig_P8 * reference_pressure_quotient adc_P t_fine c) 19) ∧
    in_int64 (c.dig_P7 * 2 ^ 4) ∧
    in_int64 (reference_pressure_p adc_P t_fine c))

/-- The reading of the manufacturer's formulas over unbounded integers. -/
def reference_to_real_values (c : BME280.CallibrationData) (regs : BME280.RawData) :
    BME280Measurement :=
  { temperature :=
      ((shr (reference_t_fine (BME280.temperature_raw regs) c.dig_T1 c.dig_T2 c.dig_T3 * 5
        + 128) 8 : Int) : ℚ) / 100
    pressure :=
      if reference_pressure_var1
          (reference_t_fine (BME280.temperature_raw regs) c.dig_T1 c.dig_T2 c.dig_T3) c = 0
      then 0
      else
        ((reference_pressure_p (BME280.pressure_raw regs)
          (reference_t_fine (BME280.temperature_raw regs) c.dig_T1 c.dig_T2 c.dig_T3) c : Int) :
            ℚ) / 256
    humidity :=
      ((shr (reference_humidity (BME280.humidity_raw regs)
        (reference_t_fine (BME280.temperature_raw regs) c.dig_T1 c.dig_T2 c.dig_T3) c) 12 :
          Int) : ℚ) / 1024 }

/-- No intermediate of `to_real_values` overflows for the calibration and the raw
sample: every signed 32-bit intermediate of the fine-temperature and humidity
computations and every signed 64-bit intermediate of the pressure computation, taken in
unbounded integers, lies in the range of its type. -/
def no_overflow (c : BME280.CallibrationData) (regs : BME280.RawData) : Prop :=
  temperature_no_overflow (BME280.temperature_raw regs) c ∧
  humidity_no_overflow (BME280.humidity_raw regs)
    (reference_t_fine (BME280.temperature_raw regs) c.dig_T1 c.dig_T2 c.dig_T3) c ∧
  pressure_no_overflow (BME280.pressure_raw regs)
    (reference_t_fine (BME280.temperature_raw regs) c.dig_T1 c.dig_T2 c.dig_T3) c

/-! ## Test fixtures (`test_conversion.cpp`) -/

/-- The bus double `I2CMasterMock` of the tests. -/
def I2CMasterMock (callibration_data_first_block callibration_data_second_block
    raw_measurement_data : List Byte) : I2CMaster :=
  { read := fun _ _ register_address _ =>
      if register_address = 0x88 then callibration_data_first_block
      else if register_address = 0xE1 then callibration_data_second_block
      else if register_address = 0xF7 then raw_measurement_data
      else []
    read_byte := fun _ _ register_address => if register_address = 0xD0 then 0x60 else 0 }

/-- The bus of the section "Positive test with room-like conditions". -/
def scenario1_bus : I2CMaster :=
  I2CMasterMock
    [0x32, 0x70, 0xd0, 0x68, 0x32, 0x00, 0x3a, 0x8e, 0x1b, 0xd6, 0xd0, 0x0b, 0x15,
      0x24, 0x64, 0xff, 0xf9, 0xff, 0x0c, 0x30, 0x20, 0xd1, 0x88, 0x13, 0x00, 0x4b]
    [0x4c, 0x01, 0x00, 0x19, 0x20, 0x03, 0x1e]
    [0x4e, 0xba, 0xc0, 0x7f, 0xe3, 0x00, 0x8e, 0x1a]

/-- The bus of the section "Positive test with room-like conditions with data from
Internet". -/
def scenario2_bus : I2CMaster :=
  I2CMasterMock
    [0xe6, 0x6e, 0xcf, 0x66, 0x32, 0x00, 0xfb, 0x90, 0x57, 0xd5, 0xd0, 0x0b, 0xea,
      0x1a, 0x7b, 0xff, 0xf9, 0xff, 0xac, 0x26, 0x0a, 0xd8, 0xbd, 0x10, 0x00, 0x4b]
    [0x66, 0x01, 0x00, 0x14, 0x0a, 0x00, 0x1e]
    [0x51, 0xe9, 0x05, 0x7f, 0x92, 0x0b, 0x74, 0x15]

/-- A bus without the chip (section 8 of the specification): every byte read is 0, so
the chip-ID register never holds the identity byte. -/
def absent_device_bus : I2CMaster :=
  { read := fun _ _ _ _ => []
    read_byte := fun _ _ _ => 0 }

/-- A bus whose chip never finishes measuring (section 8 of the specification): every
byte read is 0xFF, so the "measuring" bit of the status register stays set. -/
def busy_device_bus : I2CMaster :=
  { read := fun _ _ _ _ => []
    read_byte := fun _ _ _ => 0xFF }

/-- The calibration the driver holds in scenario 1. -/
def scenario1_callibration : BME280.CallibrationData :=
  { dig_T1 := 28722, dig_T2 := 26832, dig_T3 := 50, dig_P1 := 36410, dig_P2 := -10725,
    dig_P3 := 3024, dig_P4 := 9237, dig_P5 := -156, dig_P6 := -7, dig_P7 := 12300,
    dig_P8 := -12000, dig_P9 := 5000, r1 := 0, dig_H1 := 75, dig_H2 := 332, dig_H3 := 0,
    dig_H4 := 400, dig_H5 := 50, dig_H6 := 30 }

/-- The calibration the driver holds in scenario 2. -/
def scenario2_callibration : BME280.CallibrationData :=
  { dig_T1 := 28390, dig_T2 := 26319, dig_T3 := 50, dig_P1 := 37115, dig_P2 := -10921,
    dig_P3 := 3024, dig_P4 := 6890, dig_P5 := -133, dig_P6 := -7, dig_P7 := 9900,
    dig_P8 := -10230, dig_P9 := 4285, r1 := 0, dig_H1 := 75, dig_H2 := 358, dig_H3 := 0,
    dig_H4 := 330, dig_H5 := 0, dig_H6 := 30 }

/-- A bus over the chip of scenario 1 as the driver configured it: the
measurement-control register reads 0x90, and the status register reads 0x01, the
"image update" bit set and the "measuring" bit clear. -/
def im_update_bus : I2CMaster :=
  { read := scenario1_bus.read
    read_byte := fun _ _ register_address =>
      if register_address = 0xD0 then 0x60
      else if register_address = 0xF3 then 0x01
      else 0x90 }

/-- A bus over a chip like that of scenario 1, except that bytes 3 and 5 of the second
calibration block have their top bit set (0xFF and 0x83). -/
def high_nibble_bus : I2CMaster :=
  I2CMasterMock
    [0x32, 0x70, 0xd0, 0x68, 0x32, 0x00, 0x3a, 0x8e, 0x1b, 0xd6, 0xd0, 0x0b, 0x15,
      0x24, 0x64, 0xff, 0xf9, 0xff, 0x0c, 0x30, 0x20, 0xd1, 0x88, 0x13, 0x00, 0x4b]
    [0x4c, 0x01, 0x00, 0xff, 0x20, 0x83, 0x1e]
    [0x4e, 0xba, 0xc0, 0x7f, 0xe3, 0x00, 0x8e, 0x1a]

/-- A bus over a chip left in normal mode: the measurement-control register reads
0x93, oversampling 8 for temperature and pressure and mode bits 11. -/
def normal_mode_bus : I2CMaster :=
  { read := fun _ _ _ _ => []
    read_byte := fun _ _ register_address => if register_address = 0xF4 then 0x93 else 0 }

/-! ## Machine-integer lemmas -/

theorem int8_t_of_byte (x : Int) (h0 : 0 ≤ x) (h1 : x < 256) :
    int8_t x = if x < 128 then x else x - 256 := by
  unfold int8_t; split <;> omega

theorem int16_t_of_u16 (x : Int) (h0 : 0 ≤ x) (h1 : x < 65536) :
    int16_t x = if x < 32768 then x else x - 65536 := by
  unfold int16_t; split <;> omega

theorem int16_t_of_small (x : Int) (h0 : 0 ≤ x) (h1 : x < 32768) : int16_t x = x := by
  unfold int16_t; omega

theorem int32_t_of_in_int32 (x : Int) (h : in_int32 x) : int32_t x = x := by
  unfold in_int32 at h; unfold int32_t; omega

theorem int32_t_in_int32 (x : Int) : in_int32 (int32_t x) := by
  unfold in_int32 int32_t; omega

theorem shr_eq_div (a : Int) (n : Nat) : shr a n = a / 2 ^ n := by
  show a >>> n = a / 2 ^ n
  rw [Int.shiftRight_eq_div_pow]
  push_cast
  rfl

theorem region_u8_bounds (region : List Byte) (i : Nat) :
    0 ≤ BME280.region_u8 region i ∧ BME280.region_u8 region i < 256 := by
  unfold BME280.region_u8
  have h := (region.getD i 0).isLt
  omega

theorem region_u16_bounds (region : List Byte) (i : Nat) :
    0 ≤ BME280.region_u16 region i ∧ BME280.region_u16 region i < 65536 := by
  unfold BME280.region_u16
  have h0 := region_u8_bounds region i
  have h1 := region_u8_bounds region (i + 1)
  omega

theorem region_i16_eq (region : List Byte) (i : Nat) :
    BME280.region_i16 region i =
      if BME280.region_u16 region i < 32768 then BME280.region_u16 region i
      else BME280.region_u16 region i - 65536 := by
  unfold BME280.region_i16
  exact int16_t_of_u16 _ (region_u16_bounds region i).1 (region_u16_bounds region i).2

/-! ## The poll loop and the two waits -/

theorem poll_loop_trace (PollInterval : Nat) (register_address : Byte) (test : Byte → Bool)
    (predicate : Log → Bool × Log)
    (hpredicate : ∀ log, ∃ byte, predicate log =
      (test byte, log ++ [Transaction.read_byte BME280.address register_address byte]))
    (polls : Nat) (log : Log) :
    ∃ trace,
      (poller.poll_loop PollInterval millisecond_delayer predicate polls log).2 = log ++ trace ∧
      (∀ t ∈ trace, (∃ byte, t = Transaction.read_byte BME280.address register_address byte) ∨
        t = Transaction.delay PollInterval) ∧
      ((poller.poll_loop PollInterval millisecond_delayer predicate polls log).1 = true ↔
        ∃ byte, Transaction.read_byte BME280.address register_address byte ∈ trace ∧
          test byte = true) := by
  induction polls generalizing log with
  | zero => exact ⟨[], by simp [poller.poll_loop], by simp, by simp [poller.poll_loop]⟩
  | succ n ih =>
    obtain ⟨byte, hbyte⟩ := hpredicate log
    by_cases htest : test byte = true
    · refine ⟨[Transaction.read_byte BME280.address register_address byte], ?_, ?_, ?_⟩
      · simp [poller.poll_loop, hbyte, htest]
      · intro t ht
        exact Or.inl ⟨byte, by simpa using ht⟩
      · simp [poller.poll_loop, hbyte, htest]
    · by_cases hn : n = 0
      · refine ⟨[Transaction.read_byte BME280.address register_address byte], ?_, ?_, ?_⟩
        · simp [poller.poll_loop, hbyte, htest, hn]
        · intro t ht
          exact Or.inl ⟨byte, by simpa using ht⟩
        · simp only [poller.poll_loop, hbyte, htest, hn]
          simp
          simpa using htest
      · obtain ⟨trace, h1, h2, h3⟩ :=
          ih (millisecond_delayer PollInterval
            (log ++ [Transaction.read_byte BME280.address register_address byte]))
        refine ⟨Transaction.read_byte BME280.address register_address byte ::
          Transaction.delay PollInterval :: trace, ?_, ?_, ?_⟩
        · simp only [poller.poll_loop, hbyte, htest, hn]
          simp only [Bool.false_eq_true, if_false]
          rw [h1]
          simp [millisecond_delayer]
        · intro t ht
          simp only [List.mem_cons] at ht
          rcases ht with ht | ht | ht
          · exact Or.inl ⟨byte, ht⟩
          · exact Or.inr ht
          · exact h2 t ht
        · simp only [poller.poll_loop, hbyte, htest, hn]
          simp only [Bool.false_eq_true, if_false]
          rw [h3]
          constructor
          · rintro ⟨b, hb, hbt⟩
            exact ⟨b, by simp [hb], hbt⟩
          · rintro ⟨b, hb, hbt⟩
            simp only [List.mem_cons] at hb
            rcases hb with hb | hb | hb
            · injection hb with _ _ hb
              rw [hb] at hbt
              exact absurd hbt htest
            · cases hb
            · exact ⟨b, hb, hbt⟩

theorem wait_device_accessible_trace (i2c : I2CMaster) (log : Log) :
    ∃ trace,
      (wait_device_accessible i2c log).2 = log ++ trace ∧
      (∀ t ∈ trace, (∃ byte, t = Transaction.read_byte BME280.address 0xD0 byte) ∨
        t = Transaction.delay 10) ∧
      (((wait_device_accessible i2c log).1 = Outcome.returned () ∧
          Transaction.read_byte BME280.address 0xD0 0x60 ∈ trace) ∨
        ((wait_device_accessible i2c log).1 = Outcome.thrown (Error.mk "BME280 inaccessible") ∧
          ∀ byte, Transaction.read_byte BME280.address 0xD0 byte ∈ trace → byte ≠ 0x60)) := by
  obtain ⟨trace, h1, h2, h3⟩ :=
    poll_loop_trace 10 0xD0 (fun byte => decide (byte = 0x60))
      (fun log =>
        let device_id := bme280_i2c_io.read_byte i2c (to_u_type .id) log
        (decide (device_id.1 = BME280.RegisterValues.id), device_id.2))
      (fun log => ⟨i2c.read_byte log BME280.address 0xD0, rfl⟩) (1000 / 10) log
  refine ⟨trace, ?_, h2, ?_⟩
  · rw [← h1]
    simp only [wait_device_accessible, poller.poll]
    split <;> rfl
  by_cases hpoll : (poller.poll_loop 10 millisecond_delayer
      (fun log =>
        let device_id := bme280_i2c_io.read_byte i2c (to_u_type .id) log
        (decide (device_id.1 = BME280.RegisterValues.id), device_id.2))
      (1000 / 10) log).1 = true
  · left
    obtain ⟨byte, hmem, hbyte⟩ := h3.mp hpoll
    have hb : byte = 0x60 := by simpa using hbyte
    rw [hb] at hmem
    exact ⟨by simp [wait_device_accessible, poller.poll, hpoll], hmem⟩
  · right
    refine ⟨by simp [wait_device_accessible, poller.poll, hpoll], ?_⟩
    intro byte hmem hbyte
    exact hpoll (h3.mpr ⟨byte, hmem, by simp [hbyte]⟩)

theorem wait_measurement_finished_trace (i2c : I2CMaster) (log : Log) :
    ∃ trace,
      (wait_measurement_finished i2c log).2 = log ++ trace ∧
      (∀ t ∈ trace, (∃ byte, t = Transaction.read_byte BME280.address 0xF3 byte) ∨
        t = Transaction.delay 1) ∧
      (((wait_measurement_finished i2c log).1 = Outcome.returned () ∧
          ∃ byte, Transaction.read_byte BME280.address 0xF3 byte ∈ trace ∧
            byte.val &&& 0x08 = 0) ∨
        ((wait_measurement_finished i2c log).1 =
            Outcome.thrown (Error.mk "Error waiting for BME280 measurement finished") ∧
          ∀ byte, Transaction.read_byte BME280.address 0xF3 byte ∈ trace →
            byte.val &&& 0x08 ≠ 0)) := by
  obtain ⟨trace, h1, h2, h3⟩ :=
    poll_loop_trace 1 0xF3 (fun byte => decide (byte.val &&& 0x08 = 0))
      (fun log =>
        let status_register_content := bme280_i2c_io.read_byte i2c (to_u_type .status) log
        (decide (status_register_content.1.val &&& BME280.Status.measuring.val = 0),
          status_register_content.2))
      (fun log => ⟨i2c.read_byte log BME280.address 0xF3, rfl⟩) (100 / 1) log
  refine ⟨trace, ?_, h2, ?_⟩
  · rw [← h1]
    simp only [wait_measurement_finished, poller.poll]
    split <;> rfl
  by_cases hpoll : (poller.poll_loop 1 millisecond_delayer
      (fun log =>
        let status_register_content := bme280_i2c_io.read_byte i2c (to_u_type .status) log
        (decide (status_register_content.1.val &&& BME280.Status.measuring.val = 0),
          status_register_content.2))
      (100 / 1) log).1 = true
  · left
    obtain ⟨byte, hmem, hbyte⟩ := h3.mp hpoll
    exact ⟨by simp [wait_measurement_finished, poller.poll, hpoll],
      byte, hmem, by simpa using hbyte⟩
  · right
    refine ⟨by simp [wait_measurement_finished, poller.poll, hpoll], ?_⟩
    intro byte hmem hbyte
    exact hpoll (h3.mpr ⟨byte, hmem, by simp [hbyte]⟩)

/-! ## Construction -/

theorem get_callibration_data_cases (i2c : I2CMaster) (log : Log) :
    ∃ polls,
      (∀ t ∈ polls, (∃ byte, t = Transaction.read_byte BME280.address 0xD0 byte) ∨
        t = Transaction.delay 10) ∧
      ((get_callibration_data i2c log =
            (Outcome.thrown (Error.mk "BME280 inaccessible"), log ++ polls) ∧
          ∀ byte, Transaction.read_byte BME280.address 0xD0 byte ∈ polls → byte ≠ 0x60) ∨
        (∃ first second,
          get_callibration_data i2c log =
            (Outcome.returned (callibration_of_blocks first second),
              log ++ polls ++ [Transaction.read BME280.address 0x88 26 first,
                Transaction.read BME280.address 0xE1 7 second]) ∧
          Transaction.read_byte BME280.address 0xD0 0x60 ∈ polls)) := by
  obtain ⟨polls, h1, h2, h3⟩ := wait_device_accessible_trace i2c log
  refine ⟨polls, h2, ?_⟩
  rcases h3 with ⟨hret, hmem⟩ | ⟨hthrown, hall⟩
  · right
    refine ⟨i2c.read (log ++ polls) BME280.address 0x88 26,
      i2c.read (log ++ polls ++ [Transaction.read BME280.address 0x88 26
        (i2c.read (log ++ polls) BME280.address 0x88 26)]) BME280.address 0xE1 7, ?_, hmem⟩
    simp only [get_callibration_data, hret, h1, read_from_device, bme280_i2c_io.read,
      callibration_of_blocks, to_u_type]
    simp
  · left
    refine ⟨?_, hall⟩
    simp only [get_callibration_data, hthrown, h1]

theorem get_callibration_data_returned (i2c : I2CMaster) (log trace : Log)
    (c : BME280.CallibrationData)
    (hreturned : get_callibration_data i2c log = (Outcome.returned c, log ++ trace)) :
    ∃ polls first second,
      (∀ t ∈ polls, (∃ byte, t = Transaction.read_byte BME280.address 0xD0 byte) ∨
        t = Transaction.delay 10) ∧
      Transaction.read_byte BME280.address 0xD0 0x60 ∈ polls ∧
      trace = polls ++ [Transaction.read BME280.address 0x88 26 first,
        Transaction.read BME280.address 0xE1 7 second] ∧
      c = callibration_of_blocks first second := by
  obtain ⟨polls, hpolls, hcases⟩ := get_callibration_data_cases i2c log
  rcases hcases with ⟨hthrown, _⟩ | ⟨first, second, hret, hmem⟩
  · rw [hthrown] at hreturned
    cases hreturned
  · rw [hret] at hreturned
    injection hreturned with hc hlog
    injection hc with hc
    refine ⟨polls, first, second, hpolls, hmem, ?_, hc.symm⟩
    rw [List.append_assoc] at hlog
    exact (List.append_cancel_left hlog).symm

theorem callibration_read_of_mem (polls : Log) (first second : List Byte)
    (hpolls : ∀ t ∈ polls, (∃ byte, t = Transaction.read_byte BME280.address 0xD0 byte) ∨
      t = Transaction.delay 10)
    (register_address : Byte) (num_bytes : Nat) (bytes : List Byte)
    (hmem : Transaction.read BME280.address register_address num_bytes bytes ∈
      polls ++ [Transaction.read BME280.address 0x88 26 first,
        Transaction.read BME280.address 0xE1 7 second]) :
    (register_address = 0x88 ∧ bytes = first) ∨ (register_address = 0xE1 ∧ bytes = second) := by
  rw [List.mem_append] at hmem
  rcases hmem with hmem | hmem
  · rcases hpolls _ hmem with ⟨byte, hbyte⟩ | hdelay
    · cases hbyte
    · cases hdelay
  · simp only [List.mem_cons, List.mem_singleton] at hmem
    rcases hmem with hmem | hmem | hmem
    · injection hmem with _ h2 _ h4
      exact Or.inl ⟨h2, h4⟩
    · injection hmem with _ h2 _ h4
      exact Or.inr ⟨h2, h4⟩
    · cases hmem

/-- C3: whenever `get_callibration_data` returns a calibration and the block it read
at 0xE1 was the seven bytes `b0 .. b6`, then `dig_H2` is the signed 16-bit
little-endian value of `(b0, b1)`, `dig_H3 = b2`, `dig_H4 = (b3 << 4) | (b4 & 0x0F)`,
`dig_H5 = (b5 << 4) | (b4 >> 4)` and `dig_H6` is `b6` read as a signed 8-bit value; in
particular the block `4c 01 00 19 20 03 1e` gives 0x14c, 0, 0x190, 0x32, 0x1e and the
block `66 01 00 14 0a 00 1e` gives 358, 0, 330, 0, 30. -/
theorem second_callibration_block_decode (i2c : I2CMaster) (log trace : Log)
    (c : BME280.CallibrationData) (b0 b1 b2 b3 b4 b5 b6 : Byte)
    (hreturned : get_callibration_data i2c log = (Outcome.returned c, log ++ trace))
    (hread : Transaction.read BME280.address 0xE1 7 [b0, b1, b2, b3, b4, b5, b6] ∈ trace) :
    (c.dig_H2 =
        (if (b0.val : Int) + 256 * (b1.val : Int) < 32768 then
          (b0.val : Int) + 256 * (b1.val : Int)
        else (b0.val : Int) + 256 * (b1.val : Int) - 65536) ∧
      c.dig_H3 = (b2.val : Int) ∧
      c.dig_H4 = (((b3.val <<< 4) ||| (b4.val &&& 0x0F) : Nat) : Int) ∧
      c.dig_H5 = (((b5.val <<< 4) ||| (b4.val >>> 4) : Nat) : Int) ∧
      c.dig_H6 = (if (b6.val : Int) < 128 then (b6.val : Int) else (b6.val : Int) - 256)) ∧
    ([b0, b1, b2, b3, b4, b5, b6] = [0x4c, 0x01, 0x00, 0x19, 0x20, 0x03, 0x1e] →
      c.dig_H2 = 0x14c ∧ c.dig_H3 = 0 ∧ c.dig_H4 = 0x190 ∧ c.dig_H5 = 0x32 ∧
        c.dig_H6 = 0x1e) ∧
    ([b0, b1, b2, b3, b4, b5, b6] = [0x66, 0x01, 0x00, 0x14, 0x0a, 0x00, 0x1e] →
      c.dig_H2 = 358 ∧ c.dig_H3 = 0 ∧ c.dig_H4 = 330 ∧ c.dig_H5 = 0 ∧ c.dig_H6 = 30) := by
  obtain ⟨polls, first, second, hpolls, _, htrace, hc⟩ :=
    get_callibration_data_returned i2c log trace c hreturned
  rw [htrace] at hread
  have hsecond : second = [b0, b1, b2, b3, b4, b5, b6] := by
    rcases callibration_read_of_mem polls first second hpolls _ _ _ hread with ⟨h, _⟩ | ⟨_, h⟩
    · exact absurd h (by decide)
    · exact h.symm
  subst hsecond
  subst hc
  refine ⟨⟨?_, ?_, ?_, ?_, ?_⟩, ?_, ?_⟩
  · simp only [callibration_of_blocks, BME280.CallibrationDataSecondPart.of_mapped_region,
      region_i16_eq]
    rfl
  · rfl
  · have h3 := b3.isLt
    have hlt : (b3.val <<< 4) ||| (b4.val &&& 0x0F) < 2 ^ 12 := by
      apply Nat.or_lt_two_pow
      · rw [Nat.shiftLeft_eq]; omega
      · exact lt_of_le_of_lt Nat.and_le_right (by decide)
    show int16_t (((b3.val <<< 4) ||| (b4.val &&& 0x0F) : Nat) : Int) = _
    exact int16_t_of_small _ (by omega) (by omega)
  · have h5 := b5.isLt
    have h4 := b4.isLt
    have hlt : (b5.val <<< 4) ||| (b4.val >>> 4) < 2 ^ 12 := by
      apply Nat.or_lt_two_pow
      · rw [Nat.shiftLeft_eq]; omega
      · rw [Nat.shiftRight_eq_div_pow]; omega
    show int16_t (((b5.val <<< 4) ||| (b4.val >>> 4) : Nat) : Int) = _
    exact int16_t_of_small _ (by omega) (by omega)
  · have h6 := b6.isLt
    show int8_t ((b6.val : Nat) : Int) = _
    exact int8_t_of_byte _ (by omega) (by omega)
  · intro h
    injection h with e0 h
    injection h with e1 h
    injection h with e2 h
    injection h with e3 h
    injection h with e4 h
    injection h with e5 h
    injection h with e6 h
    subst e0 e1 e2 e3 e4 e5 e6
    exact ⟨rfl, rfl, rfl, rfl, rfl⟩
  · intro h
    injection h with e0 h
    injection h with e1 h
    injection h with e2 h
    injection h with e3 h
    injection h with e4 h
    injection h with e5 h
    injection h with e6 h
    subst e0 e1 e2 e3 e4 e5 e6
    exact ⟨rfl, rfl, rfl, rfl, rfl⟩

/-- The second-block decode at the bus of scenario 1. -/
theorem second_callibration_block_decode_witness :
    get_callibration_data scenario1_bus [] =
        (Outcome.returned scenario1_callibration,
          [] ++ [Transaction.read_byte 0xEC 0xD0 0x60,
            Transaction.read 0xEC 0x88 26
              [0x32, 0x70, 0xd0, 0x68, 0x32, 0x00, 0x3a, 0x8e, 0x1b, 0xd6, 0xd0, 0x0b, 0x15,
                0x24, 0x64, 0xff, 0xf9, 0xff, 0x0c, 0x30, 0x20, 0xd1, 0x88, 0x13, 0x00, 0x4b],
            Transaction.read 0xEC 0xE1 7 [0x4c, 0x01, 0x00, 0x19, 0x20, 0x03, 0x1e]]) ∧
      scenario1_callibration.dig_H2 = 0x14c ∧ scenario1_callibration.dig_H3 = 0 ∧
      scenario1_callibration.dig_H4 = 0x190 ∧ scenario1_callibration.dig_H5 = 0x32 ∧
      scenario1_callibration.dig_H6 = 0x1e :=
  ⟨rfl,
    (second_callibration_block_decode scenario1_bus []
      [Transaction.read_byte 0xEC 0xD0 0x60,
        Transaction.read 0xEC 0x88 26
          [0x32, 0x70, 0xd0, 0x68, 0x32, 0x00, 0x3a, 0x8e, 0x1b, 0xd6, 0xd0, 0x0b, 0x15,
            0x24, 0x64, 0xff, 0xf9, 0xff, 0x0c, 0x30, 0x20, 0xd1, 0x88, 0x13, 0x00, 0x4b],
        Transaction.read 0xEC 0xE1 7 [0x4c, 0x01, 0x00, 0x19, 0x20, 0x03, 0x1e]]
      scenario1_callibration 0x4c 0x01 0x00 0x19 0x20 0x03 0x1e rfl (by decide)).2.1 rfl⟩

theorem region_u8_set_ne (block : List Byte) (i j : Nat) (byte : Byte) (h : i ≠ j) :
    BME280.region_u8 (block.set i byte) j = BME280.region_u8 block j := by
  unfold BME280.region_u8
  rw [List.getD_eq_getElem?_getD, List.getD_eq_getElem?_getD, List.getElem?_set_ne h]

/-- C4: whenever `get_callibration_data` returns a calibration and the block it read
at 0x88 was the 26 bytes `block` (byte `i` being `region_u8 block i`), then `dig_T1`
and `dig_P1` are the unsigned 16-bit little-endian values at offsets 0 and 6,
`dig_T2`, `dig_T3`, `dig_P2 .. dig_P9` the signed 16-bit two's-complement
little-endian values at offsets 2, 4, 8, 10, ..., 22, and `dig_H1` is byte 25; byte 24
only reaches the unused field `r1`, so that any other value in its place yields the
same compensation values; and the block of scenario 2 gives the values listed. -/
theorem first_callibration_block_decode (i2c : I2CMaster) (log trace : Log)
    (c : BME280.CallibrationData) (block : List Byte)
    (hlength : block.length = 26)
    (hreturned : get_callibration_data i2c log = (Outcome.returned c, log ++ trace))
    (hread : Transaction.read BME280.address 0x88 26 block ∈ trace) :
    (c.dig_T1 = BME280.region_u8 block 0 + 256 * BME280.region_u8 block 1 ∧
      c.dig_P1 = BME280.region_u8 block 6 + 256 * BME280.region_u8 block 7 ∧
      (0 ≤ c.dig_T1 ∧ c.dig_T1 < 65536) ∧ (0 ≤ c.dig_P1 ∧ c.dig_P1 < 65536) ∧
      c.dig_T2 = signed16 (BME280.region_u8 block 2) (BME280.region_u8 block 3) ∧
      c.dig_T3 = signed16 (BME280.region_u8 block 4) (BME280.region_u8 block 5) ∧
      c.dig_P2 = signed16 (BME280.region_u8 block 8) (BME280.region_u8 block 9) ∧
      c.dig_P3 = signed16 (BME280.region_u8 block 10) (BME280.region_u8 block 11) ∧
      c.dig_P4 = signed16 (BME280.region_u8 block 12) (BME280.region_u8 block 13) ∧
      c.dig_P5 = signed16 (BME280.region_u8 block 14) (BME280.region_u8 block 15) ∧
      c.dig_P6 = signed16 (BME280.region_u8 block 16) (BME280.region_u8 block 17) ∧
      c.dig_P7 = signed16 (BME280.region_u8 block 18) (BME280.region_u8 block 19) ∧
      c.dig_P8 = signed16 (BME280.region_u8 block 20) (BME280.region_u8 block 21) ∧
      c.dig_P9 = signed16 (BME280.region_u8 block 22) (BME280.region_u8 block 23) ∧
      c.dig_H1 = BME280.region_u8 block 25) ∧
    (∃ second, c = callibration_of_blocks block second ∧
      ∀ byte, { callibration_of_blocks (block.set 24 byte) second with r1 := 0 } =
        { c with r1 := 0 }) ∧
    (block =
        [0xe6, 0x6e, 0xcf, 0x66, 0x32, 0x00, 0xfb, 0x90, 0x57, 0xd5, 0xd0, 0x0b, 0xea,
          0x1a, 0x7b, 0xff, 0xf9, 0xff, 0xac, 0x26, 0x0a, 0xd8, 0xbd, 0x10, 0x00, 0x4b] →
      c.dig_T1 = 28390 ∧ c.dig_T2 = 26319 ∧ c.dig_T3 = 50 ∧ c.dig_P1 = 37115 ∧
        c.dig_P2 = -10921 ∧ c.dig_P3 = 3024 ∧ c.dig_P4 = 6890 ∧ c.dig_P5 = -133 ∧
        c.dig_P6 = -7 ∧ c.dig_P7 = 9900 ∧ c.dig_P8 = -10230 ∧ c.dig_P9 = 4285 ∧
        c.dig_H1 = 75) := by
  obtain ⟨polls, first, second, hpolls, _, htrace, hc⟩ :=
    get_callibration_data_returned i2c log trace c hreturned
  rw [htrace] at hread
  have hfirst : first = block := by
    rcases callibration_read_of_mem polls first second hpolls _ _ _ hread with ⟨_, h⟩ | ⟨h, _⟩
    · exact h.symm
    · exact absurd h (by decide)
  subst hfirst
  subst hc
  have hT1 := region_u16_bounds first 0
  have hP1 := region_u16_bounds first 6
  refine ⟨⟨rfl, rfl, hT1, hP1, ?_, ?_, ?_, ?_, ?_, ?_, ?_, ?_, ?_, ?_, rfl⟩, ⟨second, rfl, ?_⟩, ?_⟩
  · exact region_i16_eq first 2
  · exact region_i16_eq first 4
  · exact region_i16_eq first 8
  · exact region_i16_eq first 10
  · exact region_i16_eq first 12
  · exact region_i16_eq first 14
  · exact region_i16_eq first 16
  · exact region_i16_eq first 18
  · exact region_i16_eq first 20
  · exact region_i16_eq first 22
  · intro byte
    simp only [callibration_of_blocks, BME280.CallibrationData.of_mapped_region,
      BME280.region_i16, BME280.region_u16]
    simp [region_u8_set_ne]
  · intro h
    subst h
    exact ⟨rfl, rfl, rfl, rfl, rfl, rfl, rfl, rfl, rfl, rfl, rfl, rfl, rfl⟩

/-- The first-block decode at the bus of scenario 2. -/
theorem first_callibration_block_decode_witness :
    get_callibration_data scenario2_bus [] =
        (Outcome.returned scenario2_callibration,
          [] ++ [Transaction.read_byte 0xEC 0xD0 0x60,
            Transaction.read 0xEC 0x88 26
              [0xe6, 0x6e, 0xcf, 0x66, 0x32, 0x00, 0xfb, 0x90, 0x57, 0xd5, 0xd0, 0x0b, 0xea,
                0x1a, 0x7b, 0xff, 0xf9, 0xff, 0xac, 0x26, 0x0a, 0xd8, 0xbd, 0x10, 0x00, 0x4b],
            Transaction.read 0xEC 0xE1 7 [0x66, 0x01, 0x00, 0x14, 0x0a, 0x00, 0x1e]]) ∧
      scenario2_callibration.dig_T1 = 28390 ∧ scenario2_callibration.dig_T2 = 26319 ∧
      scenario2_callibration.dig_T3 = 50 ∧ scenario2_callibration.dig_P1 = 37115 ∧
      scenario2_callibration.dig_P2 = -10921 ∧ scenario2_callibration.dig_P3 = 3024 ∧
      scenario2_callibration.dig_P4 = 6890 ∧ scenario2_callibration.dig_P5 = -133 ∧
      scenario2_callibration.dig_P6 = -7 ∧ scenario2_callibration.dig_P7 = 9900 ∧
      scenario2_callibration.dig_P8 = -10230 ∧ scenario2_callibration.dig_P9 = 4285 ∧
      scenario2_callibration.dig_H1 = 75 :=
  ⟨rfl,
    (first_callibration_block_decode scenario2_bus []
      [Transaction.read_byte 0xEC 0xD0 0x60,
        Transaction.read 0xEC 0x88 26
          [0xe6, 0x6e, 0xcf, 0x66, 0x32, 0x00, 0xfb, 0x90, 0x57, 0xd5, 0xd0, 0x0b, 0xea,
            0x1a, 0x7b, 0xff, 0xf9, 0xff, 0xac, 0x26, 0x0a, 0xd8, 0xbd, 0x10, 0x00, 0x4b],
        Transaction.read 0xEC 0xE1 7 [0x66, 0x01, 0x00, 0x14, 0x0a, 0x00, 0x1e]]
      scenario2_callibration
      [0xe6, 0x6e, 0xcf, 0x66, 0x32, 0x00, 0xfb, 0x90, 0x57, 0xd5, 0xd0, 0x0b, 0xea,
        0x1a, 0x7b, 0xff, 0xf9, 0xff, 0xac, 0x26, 0x0a, 0xd8, 0xbd, 0x10, 0x00, 0x4b]
      rfl rfl (by decide)).2.2 rfl⟩

/-! ## The two test scenarios -/

/-- C1: scenario 1. Over any bus that answers the first calibration block at 0x88,
the second block at 0xE1, chip id 0x60, status 0 and the raw sample at 0xF7, the
construction succeeds and `read()` returns a temperature within 1% of 20.56, a pressure
within 2% of 98456.1875 and a humidity within 1% of 54.42, the values being the exact
quotients of the integer results by 100, 256 and 1024. -/
theorem scenario1_read (i2c : I2CMaster) (log : Log)
    (hid : ∀ log, i2c.read_byte log BME280.address 0xD0 = 0x60)
    (hfirst : ∀ log, i2c.read log BME280.address 0x88 26 =
      [0x32, 0x70, 0xd0, 0x68, 0x32, 0x00, 0x3a, 0x8e, 0x1b, 0xd6, 0xd0, 0x0b, 0x15,
        0x24, 0x64, 0xff, 0xf9, 0xff, 0x0c, 0x30, 0x20, 0xd1, 0x88, 0x13, 0x00, 0x4b])
    (hsecond : ∀ log, i2c.read log BME280.address 0xE1 7 =
      [0x4c, 0x01, 0x00, 0x19, 0x20, 0x03, 0x1e])
    (hstatus : ∀ log, i2c.read_byte log BME280.address 0xF3 = 0)
    (hraw : ∀ log, i2c.read log BME280.address 0xF7 8 =
      [0x4e, 0xba, 0xc0, 0x7f, 0xe3, 0x00, 0x8e, 0x1a]) :
    ∃ driver log1 measurement log2,
      BME280Driver.construct i2c log = (Outcome.returned driver, log1) ∧
      driver.read log1 = (Outcome.returned measurement, log2) ∧
      |measurement.temperature - 20.56| ≤ 0.01 * 20.56 ∧
      |measurement.pressure - 98456.1875| ≤ 0.02 * 98456.1875 ∧
      |measurement.humidity - 54.42| ≤ 0.01 * 54.42 := by
  have hdevice : wait_device_accessible i2c log =
      (Outcome.returned (), log ++ [Transaction.read_byte BME280.address 0xD0 0x60]) := by
    simp [wait_device_accessible, poller.poll, poller.poll_loop, bme280_i2c_io.read_byte,
      to_u_type, hid, BME280.RegisterValues.id]
  have hcal : get_callibration_data i2c log =
      (Outcome.returned scenario1_callibration,
        log ++ [Transaction.read_byte BME280.address 0xD0 0x60] ++
          [Transaction.read BME280.address 0x88 26
            [0x32, 0x70, 0xd0, 0x68, 0x32, 0x00, 0x3a, 0x8e, 0x1b, 0xd6, 0xd0, 0x0b, 0x15,
        0x24, 0x64, 0xff, 0xf9, 0xff, 0x0c, 0x30, 0x20, 0xd1, 0x88, 0x13, 0x00, 0x4b]] ++
          [Transaction.read BME280.address 0xE1 7 [0x4c, 0x01, 0x00, 0x19, 0x20, 0x03, 0x1e]]) := by
    simp only [get_callibration_data, hdevice, read_from_device, bme280_i2c_io.read, to_u_type,
      hfirst, hsecond]
    rfl
  have hmeasured : ∀ l, wait_measurement_finished i2c l =
      (Outcome.returned (), l ++ [Transaction.read_byte BME280.address 0xF3 0]) := by
    intro l
    simp [wait_measurement_finished, poller.poll, poller.poll_loop, bme280_i2c_io.read_byte,
      to_u_type, hstatus]
  have hconv : BME280.to_real_values scenario1_callibration
      (BME280.RawData.of_mapped_region [0x4e, 0xba, 0xc0, 0x7f, 0xe3, 0x00, 0x8e, 0x1a]) =
        some ⟨((2056 : Int) : ℚ) / 100, ((25204784 : Int) : ℚ) / 256,
          ((55730 : Int) : ℚ) / 1024⟩ := by
    rfl
  have hconstruct : BME280Driver.construct i2c log =
      (Outcome.returned ⟨i2c, scenario1_callibration⟩,
        configure_sensor (get_callibration_data i2c log).2) := by
    simp only [BME280Driver.construct, hcal]
  have hread : ∀ l, BME280Driver.read ⟨i2c, scenario1_callibration⟩ l =
      (Outcome.returned
        ⟨((2056 : Int) : ℚ) / 100, ((25204784 : Int) : ℚ) / 256, ((55730 : Int) : ℚ) / 1024⟩,
        (get_raw_data i2c (wait_measurement_finished i2c
          (start_one_shot_measurement i2c l)).2).2) := by
    intro l
    simp only [BME280Driver.read, hmeasured, get_raw_data, bme280_i2c_io.read, to_u_type,
      hraw, hconv]
  exact ⟨_, _, _, _, hconstruct, hread _, by norm_num [abs_le], by norm_num [abs_le],
    by norm_num [abs_le]⟩

/-- Scenario 1 over the bus double of the tests. -/
theorem scenario1_read_witness :
    ∃ driver log1 measurement log2,
      BME280Driver.construct scenario1_bus [] = (Outcome.returned driver, log1) ∧
      driver.read log1 = (Outcome.returned measurement, log2) ∧
      |measurement.temperature - 20.56| ≤ 0.01 * 20.56 ∧
      |measurement.pressure - 98456.1875| ≤ 0.02 * 98456.1875 ∧
      |measurement.humidity - 54.42| ≤ 0.01 * 54.42 :=
  scenario1_read scenario1_bus [] (fun _ => rfl) (fun _ => rfl) (fun _ => rfl) (fun _ => rfl)
    (fun _ => rfl)

/-- C2: scenario 2. Over any bus that answers the first calibration block at 0x88,
the second block at 0xE1, chip id 0x60, status 0 and the raw sample at 0xF7, the
construction succeeds and `read()` returns a temperature within 1% of 21.43, a pressure
within 2% of 100819.0 and a humidity within 1% of 47.33, the values being the exact
quotients of the integer results by 100, 256 and 1024. -/
theorem scenario2_read (i2c : I2CMaster) (log : Log)
    (hid : ∀ log, i2c.read_byte log BME280.address 0xD0 = 0x60)
    (hfirst : ∀ log, i2c.read log BME280.address 0x88 26 =
      [0xe6, 0x6e, 0xcf, 0x66, 0x32, 0x00, 0xfb, 0x90, 0x57, 0xd5, 0xd0, 0x0b, 0xea,
        0x1a, 0x7b, 0xff, 0xf9, 0xff, 0xac, 0x26, 0x0a, 0xd8, 0xbd, 0x10, 0x00, 0x4b])
    (hsecond : ∀ log, i2c.read log BME280.address 0xE1 7 =
      [0x66, 0x01, 0x00, 0x14, 0x0a, 0x00, 0x1e])
    (hstatus : ∀ log, i2c.read_byte log BME280.address 0xF3 = 0)
    (hraw : ∀ log, i2c.read log BME280.address 0xF7 8 =
      [0x51, 0xe9, 0x05, 0x7f, 0x92, 0x0b, 0x74, 0x15]) :
    ∃ driver log1 measurement log2,
      BME280Driver.construct i2c log = (Outcome.returned driver, log1) ∧
      driver.read log1 = (Outcome.returned measurement, log2) ∧
      |measurement.temperature - 21.43| ≤ 0.01 * 21.43 ∧
      |measurement.pressure - 100819.0| ≤ 0.02 * 100819.0 ∧
      |measurement.humidity - 47.33| ≤ 0.01 * 47.33 := by
  have hdevice : wait_device_accessible i2c log =
      (Outcome.returned (), log ++ [Transaction.read_byte BME280.address 0xD0 0x60]) := by
    simp [wait_device_accessible, poller.poll, poller.poll_loop, bme280_i2c_io.read_byte,
      to_u_type, hid, BME280.RegisterValues.id]
  have hcal : get_callibration_data i2c log =
      (Outcome.returned scenario2_callibration,
        log ++ [Transaction.read_byte BME280.address 0xD0 0x60] ++
          [Transaction.read BME280.address 0x88 26
            [0xe6, 0x6e, 0xcf, 0x66, 0x32, 0x00, 0xfb, 0x90, 0x57, 0xd5, 0xd0, 0x0b, 0xea,
        0x1a, 0x7b, 0xff, 0xf9, 0xff, 0xac, 0x26, 0x0a, 0xd8, 0xbd, 0x10, 0x00, 0x4b]] ++
          [Transaction.read BME280.address 0xE1 7 [0x66, 0x01, 0x00, 0x14, 0x0a, 0x00, 0x1e]]) := by
    simp only [get_callibration_data, hdevice, read_from_device, bme280_i2c_io.read, to_u_type,
      hfirst, hsecond]
    rfl
  have hmeasured : ∀ l, wait_measurement_finished i2c l =
      (Outcome.returned (), l ++ [Transaction.read_byte BME280.address 0xF3 0]) := by
    intro l
    simp [wait_measurement_finished, poller.poll, poller.poll_loop, bme280_i2c_io.read_byte,
      to_u_type, hstatus]
  have hconv : BME280.to_real_values scenario2_callibration
      (BME280.RawData.of_mapped_region [0x51, 0xe9, 0x05, 0x7f, 0x92, 0x0b, 0x74, 0x15]) =
        some ⟨((2143 : Int) : ℚ) / 100, ((25809811 : Int) : ℚ) / 256,
          ((48469 : Int) : ℚ) / 1024⟩ := by
    rfl
  have hconstruct : BME280Driver.construct i2c log =
      (Outcome.returned ⟨i2c, scenario2_callibration⟩,
        configure_sensor (get_callibration_data i2c log).2) := by
    simp only [BME280Driver.construct, hcal]
  have hread : ∀ l, BME280Driver.read ⟨i2c, scenario2_callibration⟩ l =
      (Outcome.returned
        ⟨((2143 : Int) : ℚ) / 100, ((25809811 : Int) : ℚ) / 256, ((48469 : Int) : ℚ) / 1024⟩,
        (get_raw_data i2c (wait_measurement_finished i2c
          (start_one_shot_measurement i2c l)).2).2) := by
    intro l
    simp only [BME280Driver.read, hmeasured, get_raw_data, bme280_i2c_io.read, to_u_type,
      hraw, hconv]
  exact ⟨_, _, _, _, hconstruct, hread _, by norm_num [abs_le], by norm_num [abs_le],
    by norm_num [abs_le]⟩

/-- Scenario 2 over the bus double of the tests. -/
theorem scenario2_read_witness :
    ∃ driver log1 measurement log2,
      BME280Driver.construct scenario2_bus [] = (Outcome.returned driver, log1) ∧
      driver.read log1 = (Outcome.returned measurement, log2) ∧
      |measurement.temperature - 21.43| ≤ 0.01 * 21.43 ∧
      |measurement.pressure - 100819.0| ≤ 0.02 * 100819.0 ∧
      |measurement.humidity - 47.33| ≤ 0.01 * 47.33 :=
  scenario2_read scenario2_bus [] (fun _ => rfl) (fun _ => rfl) (fun _ => rfl) (fun _ => rfl)
    (fun _ => rfl)

/-! ## Conversion -/

theorem convert_pressure_p_some (adc_P var1 var2 : Int) (c : BME280.CallibrationData)
    (hvar1 : var1 ≠ 0) : ∃ p, BME280.convert_pressure.p adc_P var1 var2 c = some p := by
  simp [BME280.convert_pressure.p, sdiv64, hvar1]

theorem convert_pressure_some (pressure fine_temperature : Int) (c : BME280.CallibrationData) :
    ∃ q, BME280.convert_pressure pressure fine_temperature c = some q := by
  by_cases hvar1 : BME280.convert_pressure.var1 fine_temperature c = 0
  · exact ⟨0, by simp [BME280.convert_pressure, hvar1]⟩
  · obtain ⟨p, hp⟩ := convert_pressure_p_some pressure _
      (BME280.convert_pressure.var2 fine_temperature c) c hvar1
    exact ⟨(p : ℚ) / 256, by simp [BME280.convert_pressure, hvar1, hp]⟩

theorem to_real_values_some (c : BME280.CallibrationData) (regs : BME280.RawData) :
    ∃ pressure,
      BME280.convert_pressure (BME280.pressure_raw regs)
        (BME280.calculate_fine_temperature (BME280.temperature_raw regs) c) c = some pressure ∧
      BME280.to_real_values c regs =
        some
          { temperature :=
              BME280.convert_temperature
                (BME280.calculate_fine_temperature (BME280.temperature_raw regs) c)
            pressure := pressure
            humidity :=
              BME280.convert_humidity (BME280.humidity_raw regs)
                (BME280.calculate_fine_temperature (BME280.temperature_raw regs) c) c } := by
  obtain ⟨q, hq⟩ := convert_pressure_some (BME280.pressure_raw regs)
    (BME280.calculate_fine_temperature (BME280.temperature_raw regs) c) c
  refine ⟨q, hq, ?_⟩
  unfold BME280.to_real_values
  simp only []
  rw [hq]

/-- C5: when `dig_P1 = 0` the denominator `var1` of the pressure computation is zero,
and whenever that `var1` is zero `to_real_values` returns a reading whose pressure is
exactly 0; the division is not performed there, as with a zero `var1` it would have
no value. -/
theorem zero_denominator_sentinel (c : BME280.CallibrationData) (regs : BME280.RawData) :
    (c.dig_P1 = 0 →
      BME280.convert_pressure.var1
        (BME280.calculate_fine_temperature (BME280.temperature_raw regs) c) c = 0) ∧
    (BME280.convert_pressure.var1
        (BME280.calculate_fine_temperature (BME280.temperature_raw regs) c) c = 0 →
      ∃ measurement, BME280.to_real_values c regs = some measurement ∧
        measurement.pressure = 0) ∧
    (c.dig_P1 = 0 →
      ∃ measurement, BME280.to_real_values c regs = some measurement ∧
        measurement.pressure = 0) ∧
    (∀ adc_P var2, BME280.convert_pressure.p adc_P 0 var2 c = none) := by
  have hzero : c.dig_P1 = 0 →
      BME280.convert_pressure.var1
        (BME280.calculate_fine_temperature (BME280.temperature_raw regs) c) c = 0 := by
    intro h
    simp [BME280.convert_pressure.var1, h, mul64, int64_t, shr_eq_div]
  have hsentinel : BME280.convert_pressure.var1
        (BME280.calculate_fine_temperature (BME280.temperature_raw regs) c) c = 0 →
      ∃ measurement, BME280.to_real_values c regs = some measurement ∧
        measurement.pressure = 0 := by
    intro h
    obtain ⟨pressure, hpressure, hm⟩ := to_real_values_some c regs
    have hzero : BME280.convert_pressure (BME280.pressure_raw regs)
        (BME280.calculate_fine_temperature (BME280.temperature_raw regs) c) c = some 0 := by
      unfold BME280.convert_pressure
      simp only [h, if_true]
    have hp : pressure = 0 := by
      rw [hzero] at hpressure
      exact (Option.some.inj hpressure).symm
    exact ⟨_, hm, hp⟩
  exact ⟨hzero, hsentinel, fun h => hsentinel (hzero h), fun adc_P var2 => by
    simp [BME280.convert_pressure.p, sdiv64]⟩

/-- The sentinel at the calibration of scenario 1 with `dig_P1` set to zero. -/
theorem zero_denominator_sentinel_witness :
    ∃ measurement,
      BME280.to_real_values { scenario1_callibration with dig_P1 := 0 }
        (BME280.RawData.of_mapped_region [0x4e, 0xba, 0xc0, 0x7f, 0xe3, 0x00, 0x8e, 0x1a]) =
          some measurement ∧
      measurement.pressure = 0 :=
  (zero_denominator_sentinel { scenario1_callibration with dig_P1 := 0 }
    (BME280.RawData.of_mapped_region [0x4e, 0xba, 0xc0, 0x7f, 0xe3, 0x00, 0x8e, 0x1a])).2.2.1 rfl

theorem v_x1_u32r_clamped (humidity fine_temperature : Int) (c : BME280.CallibrationData) :
    0 ≤ BME280.convert_humidity.v_x1_u32r humidity fine_temperature c ∧
      BME280.convert_humidity.v_x1_u32r humidity fine_temperature c ≤ 419430400 := by
  unfold BME280.convert_humidity.v_x1_u32r
  simp only
  split <;> split <;> omega

/-- C6: for every calibration and every raw sample `to_real_values` returns a reading
whose humidity lies in [0, 100]: it is the fixed-point value `v_x1_u32r`, clamped to
[0, 419430400], shifted right by 12 and divided by 1024. -/
theorem humidity_range (c : BME280.CallibrationData) (regs : BME280.RawData) :
    ∃ measurement, BME280.to_real_values c regs = some measurement ∧
      0 ≤ measurement.humidity ∧ measurement.humidity ≤ 100 ∧
      0 ≤ BME280.convert_humidity.v_x1_u32r (BME280.humidity_raw regs)
        (BME280.calculate_fine_temperature (BME280.temperature_raw regs) c) c ∧
      BME280.convert_humidity.v_x1_u32r (BME280.humidity_raw regs)
        (BME280.calculate_fine_temperature (BME280.temperature_raw regs) c) c ≤ 419430400 ∧
      measurement.humidity =
        ((shr (BME280.convert_humidity.v_x1_u32r (BME280.humidity_raw regs)
          (BME280.calculate_fine_temperature (BME280.temperature_raw regs) c) c) 12 : Int) :
            ℚ) / 1024 := by
  obtain ⟨pressure, _, hm⟩ := to_real_values_some c regs
  obtain ⟨hlow, hhigh⟩ := v_x1_u32r_clamped (BME280.humidity_raw regs)
    (BME280.calculate_fine_temperature (BME280.temperature_raw regs) c) c
  refine ⟨_, hm, ?_, ?_, hlow, hhigh, rfl⟩
  · show 0 ≤ BME280.convert_humidity _ _ _
    unfold BME280.convert_humidity
    have h : (0 : Int) ≤ shr (BME280.convert_humidity.v_x1_u32r (BME280.humidity_raw regs)
        (BME280.calculate_fine_temperature (BME280.temperature_raw regs) c) c) 12 := by
      rw [shr_eq_div]
      omega
    have hq : (0 : ℚ) ≤ ((shr (BME280.convert_humidity.v_x1_u32r (BME280.humidity_raw regs)
        (BME280.calculate_fine_temperature (BME280.temperature_raw regs) c) c) 12 : Int) :
          ℚ) := by exact_mod_cast h
    exact div_nonneg hq (by norm_num)
  · show BME280.convert_humidity _ _ _ ≤ 100
    unfold BME280.convert_humidity
    have h : shr (BME280.convert_humidity.v_x1_u32r (BME280.humidity_raw regs)
        (BME280.calculate_fine_temperature (BME280.temperature_raw regs) c) c) 12 ≤
          102400 := by
      rw [shr_eq_div]
      omega
    have hq : ((shr (BME280.convert_humidity.v_x1_u32r (BME280.humidity_raw regs)
        (BME280.calculate_fine_temperature (BME280.temperature_raw regs) c) c) 12 : Int) :
          ℚ) ≤ 102400 := by exact_mod_cast h
    rw [div_le_iff₀ (by norm_num)]
    linarith

theorem calculate_fine_temperature_eq_reference (adc_T : Int) (c : BME280.CallibrationData)
    (hno : temperature_no_overflow adc_T c) :
    BME280.calculate_fine_temperature adc_T c =
        reference_t_fine adc_T c.dig_T1 c.dig_T2 c.dig_T3 ∧
      BME280.convert_temperature.T (reference_t_fine adc_T c.dig_T1 c.dig_T2 c.dig_T3) =
        shr (reference_t_fine adc_T c.dig_T1 c.dig_T2 c.dig_T3 * 5 + 128) 8 := by
  obtain ⟨h1, h2, h3, h4, h5, h6, h7, h8, h9⟩ := hno
  constructor
  · unfold reference_t_fine at h7 ⊢
    unfold BME280.calculate_fine_temperature
    simp only [mul32, sub32, shl32, add32, pow_one]
    rw [int32_t_of_in_int32 _ h1, int32_t_of_in_int32 _ h2, int32_t_of_in_int32 _ h3,
      int32_t_of_in_int32 _ h4, int32_t_of_in_int32 _ h5, int32_t_of_in_int32 _ h6,
      int32_t_of_in_int32 _ h7]
  · unfold BME280.convert_temperature.T
    simp only [mul32, add32]
    rw [int32_t_of_in_int32 _ h8, int32_t_of_in_int32 _ h9]

/-- C7: for every calibration and raw sample whose temperature count makes no 32-bit
intermediate overflow, `to_real_values` returns a reading whose temperature is
`((t_fine * 5 + 128) >> 8) / 100`, where `t_fine` is the manufacturer's reference
formula `reference_t_fine` with arithmetic right shifts; `calculate_fine_temperature`
computes that `t_fine`, and the same `t_fine` is what the pressure and the humidity of
the reading are computed from. -/
theorem temperature_reference_formula (c : BME280.CallibrationData) (regs : BME280.RawData)
    (hno : temperature_no_overflow (BME280.temperature_raw regs) c) :
    ∃ measurement, BME280.to_real_values c regs = some measurement ∧
      BME280.calculate_fine_temperature (BME280.temperature_raw regs) c =
        reference_t_fine (BME280.temperature_raw regs) c.dig_T1 c.dig_T2 c.dig_T3 ∧
      measurement.temperature =
        ((shr (reference_t_fine (BME280.temperature_raw regs) c.dig_T1 c.dig_T2 c.dig_T3 * 5
          + 128) 8 : Int) : ℚ) / 100 ∧
      BME280.convert_pressure (BME280.pressure_raw regs)
        (reference_t_fine (BME280.temperature_raw regs) c.dig_T1 c.dig_T2 c.dig_T3) c =
          some measurement.pressure ∧
      measurement.humidity =
        BME280.convert_humidity (BME280.humidity_raw regs)
          (reference_t_fine (BME280.temperature_raw regs) c.dig_T1 c.dig_T2 c.dig_T3) c := by
  obtain ⟨hfine, hT⟩ := calculate_fine_temperature_eq_reference _ c hno
  obtain ⟨pressure, hpressure, hm⟩ := to_real_values_some c regs
  rw [hfine] at hm hpressure
  refine ⟨_, hm, hfine, ?_, hpressure, rfl⟩
  show BME280.convert_temperature _ = _
  unfold BME280.convert_temperature
  rw [hT]

/-- The reference formula at scenario 1: raw count 523824 gives `t_fine = 105269` and
20.56 degrees. -/
theorem temperature_reference_formula_witness :
    ∃ measurement,
      BME280.to_real_values scenario1_callibration
          (BME280.RawData.of_mapped_region [0x4e, 0xba, 0xc0, 0x7f, 0xe3, 0x00, 0x8e, 0x1a]) =
        some measurement ∧
      reference_t_fine 523824 28722 26832 50 = 105269 ∧
      measurement.temperature = ((2056 : Int) : ℚ) / 100 := by
  obtain ⟨measurement, hm, _, htemperature, _⟩ :=
    temperature_reference_formula scenario1_callibration
      (BME280.RawData.of_mapped_region [0x4e, 0xba, 0xc0, 0x7f, 0xe3, 0x00, 0x8e, 0x1a])
      (by unfold temperature_no_overflow in_int32; decide)
  exact ⟨measurement, hm, by decide, htemperature⟩

/-! ## The one-shot trigger -/

theorem or_forced_mode_keeps_upper_bits (n : Nat) (h : n < 256) :
    ((n ||| 1) % 256) &&& 0xFC = n &&& 0xFC := by
  have h1 : n ||| 1 < 2 ^ 8 := Nat.or_lt_two_pow (by omega) (by norm_num)
  rw [Nat.mod_eq_of_lt (by omega), Nat.and_comm, Nat.and_or_distrib_left, Nat.and_comm 0xFC n]
  have h2 : 0xFC &&& 1 = 0 := by decide
  rw [h2, Nat.or_zero]

theorem start_one_shot_measurement_trace (i2c : I2CMaster) (log : Log) :
    start_one_shot_measurement i2c log =
      log ++ [Transaction.read_byte BME280.address 0xF4 (i2c.read_byte log BME280.address 0xF4),
        Transaction.write_byte BME280.address 0xF4
          (unsigned_char ((i2c.read_byte log BME280.address 0xF4).val ||| 1))] := by
  simp [start_one_shot_measurement, bme280_i2c_io.read_byte, bme280_i2c_io.write_byte,
    to_u_type, BME280.ControlMeasurement.forced_mode]

/-- C8: `start_one_shot_measurement` issues exactly a read of the measurement-control
register 0xF4, returning some byte `c`, followed by a write to 0xF4 of a byte `w` with
`(w & 0xFC) = (c & 0xFC)`: no bit outside the two-bit mode field is altered. -/
theorem one_shot_preserves_oversampling (i2c : I2CMaster) (log : Log) :
    ∃ c w,
      c = i2c.read_byte log BME280.address 0xF4 ∧
      start_one_shot_measurement i2c log =
        log ++ [Transaction.read_byte BME280.address 0xF4 c,
          Transaction.write_byte BME280.address 0xF4 w] ∧
      w.val &&& 0xFC = c.val &&& 0xFC := by
  refine ⟨i2c.read_byte log BME280.address 0xF4,
    unsigned_char ((i2c.read_byte log BME280.address 0xF4).val ||| 1), rfl,
    start_one_shot_measurement_trace i2c log, ?_⟩
  exact or_forced_mode_keeps_upper_bits _ (i2c.read_byte log BME280.address 0xF4).isLt

/-! ## Failures -/

theorem poll_is_no_callibration_access (t : Transaction) (interval : Nat)
    (h : (∃ byte, t = Transaction.read_byte BME280.address 0xD0 byte) ∨
      t = Transaction.delay interval) :
    t.is_read_at 0x88 = false ∧ t.is_read_at 0xE1 = false ∧ t.is_write_at 0xF2 = false ∧
      t.is_write_at 0xF4 = false := by
  rcases h with ⟨byte, h⟩ | h <;> subst h <;> exact ⟨rfl, rfl, rfl, rfl⟩

theorem construct_cases (i2c : I2CMaster) (log : Log) :
    ∃ polls,
      (∀ t ∈ polls, (∃ byte, t = Transaction.read_byte BME280.address 0xD0 byte) ∨
        t = Transaction.delay 10) ∧
      ((BME280Driver.construct i2c log =
            (Outcome.thrown (Error.mk "BME280 inaccessible"), log ++ polls) ∧
          ∀ byte, Transaction.read_byte BME280.address 0xD0 byte ∈ polls → byte ≠ 0x60) ∨
        (∃ first second,
          BME280Driver.construct i2c log =
            (Outcome.returned
              { i2c := i2c, callibration_data := callibration_of_blocks first second },
              log ++ (polls ++ [Transaction.read BME280.address 0x88 26 first,
                Transaction.read BME280.address 0xE1 7 second,
                Transaction.write_byte BME280.address 0xF2 0x04,
                Transaction.write_byte BME280.address 0xF4 0x90])) ∧
          Transaction.read_byte BME280.address 0xD0 0x60 ∈ polls)) := by
  obtain ⟨polls, hpolls, hcases⟩ := get_callibration_data_cases i2c log
  refine ⟨polls, hpolls, ?_⟩
  rcases hcases with ⟨hthrown, hall⟩ | ⟨first, second, hret, hmem⟩
  · left
    exact ⟨by simp only [BME280Driver.construct, hthrown], hall⟩
  · right
    refine ⟨first, second, ?_, hmem⟩
    simp only [BME280Driver.construct, hret, configure_sensor, bme280_i2c_io.write_byte,
      to_u_type]
    simp
    exact ⟨rfl, rfl⟩

/-- C9: the transactions `trace` issued by the construction are such that, if every
probe of the chip-ID register 0xD0 in it returned a byte different from 0x60, the
construction throws "BME280 inaccessible" (no driver is returned) and `trace` holds no
read at 0x88 or 0xE1 and no write at 0xF2 or 0xF4; conversely every read at 0x88 or
0xE1 in `trace` comes after a probe of 0xD0 that returned exactly 0x60. -/
theorem device_inaccessible_is_atomic (i2c : I2CMaster) (log : Log) :
    ∃ trace, (BME280Driver.construct i2c log).2 = log ++ trace ∧
      ((∀ byte, Transaction.read_byte BME280.address 0xD0 byte ∈ trace → byte ≠ 0x60) →
        (BME280Driver.construct i2c log).1 =
            Outcome.thrown (Error.mk "BME280 inaccessible") ∧
          ∀ t ∈ trace, t.is_read_at 0x88 = false ∧ t.is_read_at 0xE1 = false ∧
            t.is_write_at 0xF2 = false ∧ t.is_write_at 0xF4 = false) ∧
      (∀ before t after, trace = before ++ t :: after →
        (t.is_read_at 0x88 = true ∨ t.is_read_at 0xE1 = true) →
          Transaction.read_byte BME280.address 0xD0 0x60 ∈ before) := by
  obtain ⟨polls, hpolls, hcases⟩ := construct_cases i2c log
  rcases hcases with ⟨hthrown, _⟩ | ⟨first, second, hret, hmem⟩
  · refine ⟨polls, by rw [hthrown], ?_, ?_⟩
    · intro _
      exact ⟨by rw [hthrown], fun t ht => poll_is_no_callibration_access t 10 (hpolls t ht)⟩
    · intro before t after hsplit hread
      have ht : t ∈ polls := by rw [hsplit]; simp
      have hno := poll_is_no_callibration_access t 10 (hpolls t ht)
      rcases hread with h | h
      · rw [hno.1] at h; cases h
      · rw [hno.2.1] at h; cases h
  · refine ⟨_, by rw [hret], ?_, ?_⟩
    · intro hall
      exact absurd rfl (hall 0x60 (by simp [hmem]))
    · intro before t after hsplit hread
      rcases List.append_eq_append_iff.mp hsplit with ⟨a, hbefore, _⟩ | ⟨a, hpolls_eq, hrest⟩
      · rw [hbefore]
        exact List.mem_append_left _ hmem
      · cases a with
        | nil =>
          rw [List.append_nil] at hpolls_eq
          rw [← hpolls_eq]
          exact hmem
        | cons x rest =>
          injection hrest with hx _
          have ht : t ∈ polls := by rw [hpolls_eq, hx]; simp
          have hno := poll_is_no_callibration_access t 10 (hpolls t ht)
          rcases hread with h | h
          · rw [hno.1] at h; cases h
          · rw [hno.2.1] at h; cases h

set_option maxRecDepth 100000 in
/-- The construction over a bus without the chip fails and touches neither the
calibration blocks nor the configuration registers. -/
theorem device_inaccessible_is_atomic_witness :
    (BME280Driver.construct absent_device_bus []).1 =
        Outcome.thrown (Error.mk "BME280 inaccessible") ∧
      ∀ t ∈ (BME280Driver.construct absent_device_bus []).2,
        t.is_read_at 0x88 = false ∧ t.is_read_at 0xE1 = false ∧
          t.is_write_at 0xF2 = false ∧ t.is_write_at 0xF4 = false := by
  obtain ⟨trace, htrace, hfail, _⟩ := device_inaccessible_is_atomic absent_device_bus []
  have hlog : (BME280Driver.construct absent_device_bus []).2 = trace := by
    rw [htrace, List.nil_append]
  have hprobes : ∀ t ∈ (BME280Driver.construct absent_device_bus []).2,
      t = Transaction.read_byte BME280.address 0xD0 0 ∨ t = Transaction.delay 10 := by
    decide
  rw [hlog] at hprobes ⊢
  refine hfail ?_
  intro byte hmem hbyte
  subst hbyte
  rcases hprobes _ hmem with h | h <;> cases h

theorem read_cases (driver : BME280Driver) (log : Log) :
    ∃ polls,
      (∀ t ∈ polls, (∃ byte, t = Transaction.read_byte BME280.address 0xF3 byte) ∨
        t = Transaction.delay 1) ∧
      ((driver.read log =
            (Outcome.thrown (Error.mk "Error waiting for BME280 measurement finished"),
              start_one_shot_measurement driver.i2c log ++ polls) ∧
          ∀ byte, Transaction.read_byte BME280.address 0xF3 byte ∈ polls →
            byte.val &&& 0x08 ≠ 0) ∨
        (∃ bytes measurement,
          BME280.to_real_values driver.callibration_data
            (BME280.RawData.of_mapped_region bytes) = some measurement ∧
          driver.read log =
            (Outcome.returned measurement,
              start_one_shot_measurement driver.i2c log ++ polls ++
                [Transaction.read BME280.address 0xF7 8 bytes]) ∧
          ∃ byte, Transaction.read_byte BME280.address 0xF3 byte ∈ polls ∧
            byte.val &&& 0x08 = 0)) := by
  obtain ⟨polls, h1, h2, h3⟩ :=
    wait_measurement_finished_trace driver.i2c (start_one_shot_measurement driver.i2c log)
  refine ⟨polls, h2, ?_⟩
  rcases h3 with ⟨hret, hclear⟩ | ⟨hthrown, hall⟩
  · right
    obtain ⟨pressure, _, hm⟩ := to_real_values_some driver.callibration_data
      (BME280.RawData.of_mapped_region
        (driver.i2c.read (start_one_shot_measurement driver.i2c log ++ polls)
          BME280.address 0xF7 8))
    refine ⟨_, _, hm, ?_, hclear⟩
    simp only [BME280Driver.read, hret, h1, get_raw_data, bme280_i2c_io.read, to_u_type, hm]
  · left
    refine ⟨?_, hall⟩
    simp only [BME280Driver.read, hthrown, h1]

/-- C10: the transactions `trace` issued by `read()` are such that, if every probe of
the status register 0xF3 in it has the measuring bit 0x08 set, `read()` throws "Error
waiting for BME280 measurement finished" (no reading is returned) and `trace` holds no
read at the raw-data block 0xF7. -/
theorem measurement_timeout (driver : BME280Driver) (log : Log) :
    ∃ trace, (driver.read log).2 = log ++ trace ∧
      ((∀ byte, Transaction.read_byte BME280.address 0xF3 byte ∈ trace →
          byte.val &&& 0x08 ≠ 0) →
        (driver.read log).1 =
            Outcome.thrown (Error.mk "Error waiting for BME280 measurement finished") ∧
          ∀ t ∈ trace, t.is_read_at 0xF7 = false) := by
  obtain ⟨polls, hpolls, hcases⟩ := read_cases driver log
  rw [start_one_shot_measurement_trace] at hcases
  rcases hcases with ⟨hthrown, _⟩ | ⟨bytes, measurement, _, hret, byte, hmem, hclear⟩
  · refine ⟨_, by rw [hthrown, List.append_assoc], ?_⟩
    intro _
    refine ⟨by rw [hthrown], ?_⟩
    intro t ht
    simp only [List.mem_append, List.mem_cons, List.mem_singleton, List.not_mem_nil,
      or_false] at ht
    rcases ht with (ht | ht) | ht
    · subst ht; rfl
    · subst ht; rfl
    · rcases hpolls t ht with ⟨b, hb⟩ | hb <;> subst hb <;> rfl
  · refine ⟨_, by rw [hret, List.append_assoc, List.append_assoc], ?_⟩
    intro hall
    exact absurd hclear (hall byte (by simp [hmem]))

set_option maxRecDepth 100000 in
/-- A `read()` over a bus whose chip never finishes measuring fails without reading
the raw-data block. -/
theorem measurement_timeout_witness :
    (BME280Driver.read ⟨busy_device_bus, scenario1_callibration⟩ []).1 =
        Outcome.thrown (Error.mk "Error waiting for BME280 measurement finished") ∧
      ∀ t ∈ (BME280Driver.read ⟨busy_device_bus, scenario1_callibration⟩ []).2,
        t.is_read_at 0xF7 = false := by
  obtain ⟨trace, htrace, hfail⟩ :=
    measurement_timeout ⟨busy_device_bus, scenario1_callibration⟩ []
  have hlog : (BME280Driver.read ⟨busy_device_bus, scenario1_callibration⟩ []).2 = trace := by
    rw [htrace, List.nil_append]
  have hprobes : ∀ t ∈ (BME280Driver.read ⟨busy_device_bus, scenario1_callibration⟩ []).2,
      t.is_read_at 0xF3 = true → t = Transaction.read_byte BME280.address 0xF3 0xFF := by
    decide
  rw [hlog] at hprobes ⊢
  refine hfail ?_
  intro byte hmem hbyte
  have h := hprobes _ hmem rfl
  injection h with _ _ h
  subst h
  exact absurd hbyte (by decide)

/-! ## The shape of a poll -/

theorem poll_trace_cons (PollInterval : Nat) (register_address : Byte) (byte : Byte)
    (bytes : List Byte) (hne : bytes ≠ []) :
    poll_trace PollInterval register_address (byte :: bytes) =
      Transaction.read_byte BME280.address register_address byte ::
        Transaction.delay PollInterval :: poll_trace PollInterval register_address bytes := by
  cases bytes with
  | nil => exact absurd rfl hne
  | cons next rest => rfl

theorem poll_loop_shape (PollInterval : Nat) (register_address : Byte) (test : Byte → Bool)
    (predicate : Log → Bool × Log)
    (hpredicate : ∀ log, ∃ byte, predicate log =
      (test byte, log ++ [Transaction.read_byte BME280.address register_address byte]))
    (polls : Nat) (log : Log) :
    ∃ bytes,
      (poller.poll_loop PollInterval millisecond_delayer predicate polls log).2 =
        log ++ poll_trace PollInterval register_address bytes ∧
      bytes.length ≤ polls ∧
      (((poller.poll_loop PollInterval millisecond_delayer predicate polls log).1 = true ∧
          ∃ earlier last, bytes = earlier ++ [last] ∧ test last = true ∧
            ∀ byte ∈ earlier, test byte = false) ∨
        ((poller.poll_loop PollInterval millisecond_delayer predicate polls log).1 = false ∧
          bytes.length = polls ∧ ∀ byte ∈ bytes, test byte = false)) := by
  induction polls generalizing log with
  | zero =>
    exact ⟨[], by simp [poller.poll_loop, poll_trace], by simp,
      Or.inr ⟨by simp [poller.poll_loop], rfl, by simp⟩⟩
  | succ n ih =>
    obtain ⟨byte, hbyte⟩ := hpredicate log
    by_cases htest : test byte = true
    · refine ⟨[byte], ?_, by simp, Or.inl ⟨?_, [], byte, rfl, htest, by simp⟩⟩
      · simp [poller.poll_loop, hbyte, htest, poll_trace]
      · simp [poller.poll_loop, hbyte, htest]
    · have hfalse : test byte = false := by simpa using htest
      by_cases hn : n = 0
      · refine ⟨[byte], ?_, by simp, Or.inr ⟨?_, by simp [hn], by simpa using hfalse⟩⟩
        · simp [poller.poll_loop, hbyte, hfalse, hn, poll_trace]
        · simp [poller.poll_loop, hbyte, hfalse, hn]
      · obtain ⟨bytes, h1, h2, h3⟩ :=
          ih (millisecond_delayer PollInterval
            (log ++ [Transaction.read_byte BME280.address register_address byte]))
        have hne : bytes ≠ [] := by
          rcases h3 with ⟨_, earlier, last, hb, _⟩ | ⟨_, hlen, _⟩
          · rw [hb]; simp
          · intro hb
            rw [hb] at hlen
            exact hn hlen.symm
        have hloop : poller.poll_loop PollInterval millisecond_delayer predicate (n + 1) log =
            poller.poll_loop PollInterval millisecond_delayer predicate n
              (millisecond_delayer PollInterval
                (log ++ [Transaction.read_byte BME280.address register_address byte])) := by
          simp [poller.poll_loop, hbyte, hfalse, hn]
        rw [hloop]
        refine ⟨byte :: bytes, ?_, by simp; omega, ?_⟩
        · rw [h1, poll_trace_cons _ _ _ _ hne]
          simp [millisecond_delayer]
        · rcases h3 with ⟨hres, earlier, last, hb, hlast, hearlier⟩ | ⟨hres, hlen, hall⟩
          · refine Or.inl ⟨hres, byte :: earlier, last, by rw [hb]; rfl, hlast, ?_⟩
            intro b hb'
            rcases List.mem_cons.mp hb' with h | h
            · rw [h]; exact hfalse
            · exact hearlier b h
          · refine Or.inr ⟨hres, by simp [hlen], ?_⟩
            intro b hb'
            rcases List.mem_cons.mp hb' with h | h
            · rw [h]; exact hfalse
            · exact hall b h

theorem bus_transactions_poll_trace (PollInterval : Nat) (register_address : Byte)
    (bytes : List Byte) :
    bus_transactions (poll_trace PollInterval register_address bytes) =
      bytes.map (Transaction.read_byte BME280.address register_address) := by
  induction bytes with
  | nil => rfl
  | cons byte rest ih =>
    cases rest with
    | nil => rfl
    | cons next rest =>
      rw [poll_trace_cons _ _ _ _ (by simp)]
      simp only [bus_transactions, List.map_cons] at ih ⊢
      simp only [List.filter, Transaction.is_bus]
      rw [ih]

theorem total_delay_poll_trace (PollInterval : Nat) (register_address : Byte)
    (bytes : List Byte) :
    total_delay (poll_trace PollInterval register_address bytes) =
      PollInterval * (bytes.length - 1) := by
  induction bytes with
  | nil => rfl
  | cons byte rest ih =>
    cases rest with
    | nil => simp [poll_trace, total_delay, Transaction.delay_ms]
    | cons next rest =>
      rw [poll_trace_cons _ _ _ _ (by simp)]
      simp only [total_delay, List.map_cons, List.sum_cons, Transaction.delay_ms] at ih ⊢
      rw [ih]
      simp only [List.length_cons, Nat.add_sub_cancel]
      ring

theorem mem_poll_trace (PollInterval : Nat) (register_address : Byte) (bytes : List Byte)
    (t : Transaction) (ht : t ∈ poll_trace PollInterval register_address bytes) :
    (∃ byte, byte ∈ bytes ∧ t = Transaction.read_byte BME280.address register_address byte) ∨
      t = Transaction.delay PollInterval := by
  induction bytes with
  | nil => simp [poll_trace] at ht
  | cons byte rest ih =>
    cases rest with
    | nil =>
      simp only [poll_trace, List.mem_singleton] at ht
      exact Or.inl ⟨byte, by simp, ht⟩
    | cons next rest =>
      rw [poll_trace_cons _ _ _ _ (by simp)] at ht
      simp only [List.mem_cons] at ht ih
      rcases ht with h | h | h
      · exact Or.inl ⟨byte, by simp, h⟩
      · exact Or.inr h
      · rcases ih h with ⟨b, hb, hb'⟩ | hd
        · exact Or.inl ⟨b, by simp only [List.mem_cons]; right; exact hb, hb'⟩
        · exact Or.inr hd

theorem wait_device_accessible_shape (i2c : I2CMaster) (log : Log) :
    ∃ bytes,
      (wait_device_accessible i2c log).2 = log ++ poll_trace 10 0xD0 bytes ∧
      bytes.length ≤ 1000 / 10 ∧
      (((wait_device_accessible i2c log).1 = Outcome.returned () ∧
          ∃ earlier, bytes = earlier ++ [0x60] ∧ ∀ byte ∈ earlier, byte ≠ 0x60) ∨
        ((wait_device_accessible i2c log).1 = Outcome.thrown (Error.mk "BME280 inaccessible") ∧
          bytes.length = 1000 / 10 ∧ ∀ byte ∈ bytes, byte ≠ 0x60)) := by
  obtain ⟨bytes, h1, h2, h3⟩ :=
    poll_loop_shape 10 0xD0 (fun byte => decide (byte = 0x60))
      (fun log =>
        let device_id := bme280_i2c_io.read_byte i2c (to_u_type .id) log
        (decide (device_id.1 = BME280.RegisterValues.id), device_id.2))
      (fun log => ⟨i2c.read_byte log BME280.address 0xD0, rfl⟩) (1000 / 10) log
  refine ⟨bytes, ?_, h2, ?_⟩
  · rw [← h1]
    simp only [wait_device_accessible, poller.poll]
    split <;> rfl
  · rcases h3 with ⟨hres, earlier, last, hb, hlast, hearlier⟩ | ⟨hres, hlen, hall⟩
    · left
      have hl : last = 0x60 := by simpa using hlast
      subst hl
      exact ⟨by simp [wait_device_accessible, poller.poll, hres], earlier, hb,
        fun b hb' => by simpa using hearlier b hb'⟩
    · right
      exact ⟨by simp [wait_device_accessible, poller.poll, hres], hlen,
        fun b hb' => by simpa using hall b hb'⟩

theorem wait_measurement_finished_shape (i2c : I2CMaster) (log : Log) :
    ∃ bytes,
      (wait_measurement_finished i2c log).2 = log ++ poll_trace 1 0xF3 bytes ∧
      bytes.length ≤ 100 / 1 ∧
      (((wait_measurement_finished i2c log).1 = Outcome.returned () ∧
          ∃ earlier last, bytes = earlier ++ [last] ∧ last.val &&& 0x08 = 0 ∧
            ∀ byte ∈ earlier, byte.val &&& 0x08 ≠ 0) ∨
        ((wait_measurement_finished i2c log).1 =
            Outcome.thrown (Error.mk "Error waiting for BME280 measurement finished") ∧
          bytes.length = 100 / 1 ∧ ∀ byte ∈ bytes, byte.val &&& 0x08 ≠ 0)) := by
  obtain ⟨bytes, h1, h2, h3⟩ :=
    poll_loop_shape 1 0xF3 (fun byte => decide (byte.val &&& 0x08 = 0))
      (fun log =>
        let status_register_content := bme280_i2c_io.read_byte i2c (to_u_type .status) log
        (decide (status_register_content.1.val &&& BME280.Status.measuring.val = 0),
          status_register_content.2))
      (fun log => ⟨i2c.read_byte log BME280.address 0xF3, rfl⟩) (100 / 1) log
  refine ⟨bytes, ?_, h2, ?_⟩
  · rw [← h1]
    simp only [wait_measurement_finished, poller.poll]
    split <;> rfl
  · rcases h3 with ⟨hres, earlier, last, hb, hlast, hearlier⟩ | ⟨hres, hlen, hall⟩
    · left
      exact ⟨by simp [wait_measurement_finished, poller.poll, hres], earlier, last, hb,
        by simpa using hlast, fun b hb' => by simpa using hearlier b hb'⟩
    · right
      exact ⟨by simp [wait_measurement_finished, poller.poll, hres], hlen,
        fun b hb' => by simpa using hall b hb'⟩

theorem construct_shape (i2c : I2CMaster) (log : Log) :
    ∃ bytes,
      bytes.length ≤ 1000 / 10 ∧
      ((BME280Driver.construct i2c log =
            (Outcome.thrown (Error.mk "BME280 inaccessible"),
              log ++ poll_trace 10 0xD0 bytes) ∧
          bytes.length = 1000 / 10 ∧ ∀ byte ∈ bytes, byte ≠ 0x60) ∨
        (∃ earlier first second,
          bytes = earlier ++ [0x60] ∧ (∀ byte ∈ earlier, byte ≠ 0x60) ∧
          BME280Driver.construct i2c log =
            (Outcome.returned
              { i2c := i2c, callibration_data := callibration_of_blocks first second },
              log ++ (poll_trace 10 0xD0 bytes ++
                [Transaction.read BME280.address 0x88 26 first,
                  Transaction.read BME280.address 0xE1 7 second,
                  Transaction.write_byte BME280.address 0xF2 0x04,
                  Transaction.write_byte BME280.address 0xF4 0x90])))) := by
  obtain ⟨bytes, h1, h2, h3⟩ := wait_device_accessible_shape i2c log
  refine ⟨bytes, h2, ?_⟩
  rcases h3 with ⟨hret, earlier, hb, hearlier⟩ | ⟨hthrown, hlen, hall⟩
  · right
    refine ⟨earlier, i2c.read (log ++ poll_trace 10 0xD0 bytes) BME280.address 0x88 26,
      i2c.read (log ++ poll_trace 10 0xD0 bytes ++ [Transaction.read BME280.address 0x88 26
        (i2c.read (log ++ poll_trace 10 0xD0 bytes) BME280.address 0x88 26)])
        BME280.address 0xE1 7, hb, hearlier, ?_⟩
    simp only [BME280Driver.construct, get_callibration_data, hret, h1, read_from_device,
      bme280_i2c_io.read, callibration_of_blocks, to_u_type, configure_sensor,
      bme280_i2c_io.write_byte]
    simp
    exact ⟨rfl, rfl⟩
  · left
    refine ⟨?_, hlen, hall⟩
    simp only [BME280Driver.construct, get_callibration_data, hthrown, h1]

theorem read_shape (driver : BME280Driver) (log : Log) :
    ∃ bytes,
      bytes.length ≤ 100 / 1 ∧
      ((driver.read log =
            (Outcome.thrown (Error.mk "Error waiting for BME280 measurement finished"),
              log ++ ([Transaction.read_byte BME280.address 0xF4
                  (driver.i2c.read_byte log BME280.address 0xF4),
                Transaction.write_byte BME280.address 0xF4
                  (unsigned_char ((driver.i2c.read_byte log BME280.address 0xF4).val ||| 1))] ++
                poll_trace 1 0xF3 bytes)) ∧
          bytes.length = 100 / 1 ∧ ∀ byte ∈ bytes, byte.val &&& 0x08 ≠ 0) ∨
        (∃ earlier last raw measurement,
          bytes = earlier ++ [last] ∧ last.val &&& 0x08 = 0 ∧
          (∀ byte ∈ earlier, byte.val &&& 0x08 ≠ 0) ∧
          BME280.to_real_values driver.callibration_data
            (BME280.RawData.of_mapped_region raw) = some measurement ∧
          driver.read log =
            (Outcome.returned measurement,
              log ++ ([Transaction.read_byte BME280.address 0xF4
                  (driver.i2c.read_byte log BME280.address 0xF4),
                Transaction.write_byte BME280.address 0xF4
                  (unsigned_char ((driver.i2c.read_byte log BME280.address 0xF4).val ||| 1))] ++
                poll_trace 1 0xF3 bytes ++
                [Transaction.read BME280.address 0xF7 8 raw])))) := by
  obtain ⟨bytes, h1, h2, h3⟩ :=
    wait_measurement_finished_shape driver.i2c (start_one_shot_measurement driver.i2c log)
  refine ⟨bytes, h2, ?_⟩
  rcases h3 with ⟨hret, earlier, last, hb, hlast, hearlier⟩ | ⟨hthrown, hlen, hall⟩
  · right
    obtain ⟨pressure, _, hm⟩ := to_real_values_some driver.callibration_data
      (BME280.RawData.of_mapped_region
        (driver.i2c.read (start_one_shot_measurement driver.i2c log ++ poll_trace 1 0xF3 bytes)
          BME280.address 0xF7 8))
    refine ⟨earlier, last, _, _, hb, hlast, hearlier, hm, ?_⟩
    simp only [BME280Driver.read, hret, h1, get_raw_data, bme280_i2c_io.read, to_u_type, hm]
    rw [start_one_shot_measurement_trace]
    simp
  · left
    refine ⟨?_, hlen, hall⟩
    simp only [BME280Driver.read, hthrown, h1]
    rw [start_one_shot_measurement_trace]
    simp

theorem reads_at_poll_trace (PollInterval : Nat) (register_address : Byte)
    (bytes : List Byte) :
    reads_at register_address (poll_trace PollInterval register_address bytes) =
      bytes.length := by
  induction bytes with
  | nil => rfl
  | cons byte rest ih =>
    cases rest with
    | nil => simp [reads_at, poll_trace, Transaction.is_read_at]
    | cons next rest =>
      rw [poll_trace_cons _ _ _ _ (by simp)]
      simp only [reads_at] at ih ⊢
      simp only [List.filter, Transaction.is_read_at, decide_True, List.length_cons]
      rw [ih]
      simp

theorem delay_of_mem_poll_trace (PollInterval : Nat) (register_address : Byte)
    (bytes : List Byte) (milliseconds : Nat)
    (h : Transaction.delay milliseconds ∈ poll_trace PollInterval register_address bytes) :
    milliseconds = PollInterval := by
  rcases mem_poll_trace _ _ _ _ h with ⟨b, _, hb⟩ | hd
  · cases hb
  · injection hd

theorem total_delay_append (a b : Log) : total_delay (a ++ b) = total_delay a + total_delay b := by
  simp [total_delay]

theorem reads_at_append (register_address : Byte) (a b : Log) :
    reads_at register_address (a ++ b) = reads_at register_address a + reads_at register_address b := by
  simp [reads_at]

/-! ## Sequences of transactions -/

/-- C12: on every successful construction the trace is the poll of the chip-ID
register, whose last probe is the only one that returned 0x60, followed by exactly a
read of 26 bytes at 0x88, a read of 7 bytes at 0xE1, a write of 0x04 (humidity
oversampling 8) to 0xF2 and a write of 0x90 (temperature oversampling 8 | pressure
oversampling 8, mode bits 00) to 0xF4; the bus transactions are these, in this order. -/
theorem construction_sequence (i2c : I2CMaster) (log log' : Log) (driver : BME280Driver)
    (hconstructed : BME280Driver.construct i2c log = (Outcome.returned driver, log')) :
    ∃ earlier first second,
      (∀ byte ∈ earlier, byte ≠ 0x60) ∧
      log' = log ++ (poll_trace 10 0xD0 (earlier ++ [0x60]) ++
        [Transaction.read BME280.address 0x88 26 first,
          Transaction.read BME280.address 0xE1 7 second,
          Transaction.write_byte BME280.address 0xF2 0x04,
          Transaction.write_byte BME280.address 0xF4 0x90]) ∧
      bus_transactions (poll_trace 10 0xD0 (earlier ++ [0x60]) ++
        [Transaction.read BME280.address 0x88 26 first,
          Transaction.read BME280.address 0xE1 7 second,
          Transaction.write_byte BME280.address 0xF2 0x04,
          Transaction.write_byte BME280.address 0xF4 0x90]) =
        earlier.map (Transaction.read_byte BME280.address 0xD0) ++
          [Transaction.read_byte BME280.address 0xD0 0x60,
            Transaction.read BME280.address 0x88 26 first,
            Transaction.read BME280.address 0xE1 7 second,
            Transaction.write_byte BME280.address 0xF2 0x04,
            Transaction.write_byte BME280.address 0xF4 0x90] ∧
      (0x04 : Byte) = BME280.ControlHumidity.oversampling_8 ∧
      (0x90 : Byte).val = BME280.ControlMeasurement.temperature_oversampling_8.val |||
        BME280.ControlMeasurement.pressure_oversampling_8.val ∧
      (0x90 : Byte).val &&& 0b11 = 0 := by
  obtain ⟨bytes, _, hcases⟩ := construct_shape i2c log
  rcases hcases with ⟨hthrown, _, _⟩ | ⟨earlier, first, second, hb, hearlier, hret⟩
  · rw [hthrown] at hconstructed
    cases hconstructed
  · rw [hret] at hconstructed
    injection hconstructed with _ hlog
    subst hb
    refine ⟨earlier, first, second, hearlier, hlog.symm, ?_, rfl, rfl, rfl⟩
    simp only [bus_transactions, List.filter_append]
    have h := bus_transactions_poll_trace 10 0xD0 (earlier ++ [0x60])
    simp only [bus_transactions] at h
    rw [h]
    simp [List.filter, Transaction.is_bus]

/-- The construction over the bus double of scenario 1: one probe, then the four
transactions. -/
theorem construction_sequence_witness :
    ∃ earlier first second,
      (∀ byte ∈ earlier, byte ≠ 0x60) ∧
      [Transaction.read_byte 0xEC 0xD0 0x60,
          Transaction.read 0xEC 0x88 26
            [0x32, 0x70, 0xd0, 0x68, 0x32, 0x00, 0x3a, 0x8e, 0x1b, 0xd6, 0xd0, 0x0b, 0x15,
              0x24, 0x64, 0xff, 0xf9, 0xff, 0x0c, 0x30, 0x20, 0xd1, 0x88, 0x13, 0x00, 0x4b],
          Transaction.read 0xEC 0xE1 7 [0x4c, 0x01, 0x00, 0x19, 0x20, 0x03, 0x1e],
          Transaction.write_byte 0xEC 0xF2 0x04, Transaction.write_byte 0xEC 0xF4 0x90] =
        [] ++ (poll_trace 10 0xD0 (earlier ++ [0x60]) ++
          [Transaction.read BME280.address 0x88 26 first,
            Transaction.read BME280.address 0xE1 7 second,
            Transaction.write_byte BME280.address 0xF2 0x04,
            Transaction.write_byte BME280.address 0xF4 0x90]) := by
  obtain ⟨earlier, first, second, h1, h2, _⟩ :=
    construction_sequence scenario1_bus []
      [Transaction.read_byte 0xEC 0xD0 0x60,
        Transaction.read 0xEC 0x88 26
          [0x32, 0x70, 0xd0, 0x68, 0x32, 0x00, 0x3a, 0x8e, 0x1b, 0xd6, 0xd0, 0x0b, 0x15,
            0x24, 0x64, 0xff, 0xf9, 0xff, 0x0c, 0x30, 0x20, 0xd1, 0x88, 0x13, 0x00, 0x4b],
        Transaction.read 0xEC 0xE1 7 [0x4c, 0x01, 0x00, 0x19, 0x20, 0x03, 0x1e],
        Transaction.write_byte 0xEC 0xF2 0x04, Transaction.write_byte 0xEC 0xF4 0x90]
      ⟨scenario1_bus, scenario1_callibration⟩ rfl
  exact ⟨earlier, first, second, h1, h2⟩

/-- C18: a `read()` that returns a reading has issued, in this order and with
nothing else on the bus, one byte read of 0xF4, one byte write to 0xF4, one or more byte
reads of the status register 0xF3 of which the last has bit 0x08 clear (whatever its
other bits) and every earlier one has bit 0x08 set, then one read of 8 bytes at 0xF7;
and the reading is `to_real_values` of the calibration the driver holds and of the
bytes of that last read. -/
theorem successful_read_order (driver : BME280Driver) (log log' : Log)
    (measurement : BME280Measurement)
    (hreturned : driver.read log = (Outcome.returned measurement, log')) :
    ∃ c w earlier last raw,
      log' = log ++ ([Transaction.read_byte BME280.address 0xF4 c,
          Transaction.write_byte BME280.address 0xF4 w] ++
        poll_trace 1 0xF3 (earlier ++ [last]) ++
        [Transaction.read BME280.address 0xF7 8 raw]) ∧
      bus_transactions ([Transaction.read_byte BME280.address 0xF4 c,
          Transaction.write_byte BME280.address 0xF4 w] ++
        poll_trace 1 0xF3 (earlier ++ [last]) ++
        [Transaction.read BME280.address 0xF7 8 raw]) =
        [Transaction.read_byte BME280.address 0xF4 c,
          Transaction.write_byte BME280.address 0xF4 w] ++
        earlier.map (Transaction.read_byte BME280.address 0xF3) ++
        [Transaction.read_byte BME280.address 0xF3 last,
          Transaction.read BME280.address 0xF7 8 raw] ∧
      last.val &&& 0x08 = 0 ∧
      (∀ byte ∈ earlier, byte.val &&& 0x08 ≠ 0) ∧
      BME280.to_real_values driver.callibration_data (BME280.RawData.of_mapped_region raw) =
        some measurement := by
  obtain ⟨bytes, _, hcases⟩ := read_shape driver log
  rcases hcases with ⟨hthrown, _, _⟩ | ⟨earlier, last, raw, m, hb, hlast, hearlier, hm, hret⟩
  · rw [hthrown] at hreturned
    cases hreturned
  · rw [hret] at hreturned
    injection hreturned with hout hlog
    injection hout with hout
    subst hb hout
    refine ⟨_, _, earlier, last, raw, hlog.symm, ?_, hlast, hearlier, hm⟩
    simp only [bus_transactions, List.filter_append]
    have h := bus_transactions_poll_trace 1 0xF3 (earlier ++ [last])
    simp only [bus_transactions] at h
    rw [h]
    simp [List.filter, Transaction.is_bus]

/-- A `read()` over a chip whose status register reads 0x01 (image update set,
measuring clear) and whose control register reads 0x90. -/
theorem successful_read_order_witness :
    ∃ c w earlier last raw,
      [Transaction.read_byte 0xEC 0xF4 0x90, Transaction.write_byte 0xEC 0xF4 0x91,
          Transaction.read_byte 0xEC 0xF3 0x01,
          Transaction.read 0xEC 0xF7 8 [0x4e, 0xba, 0xc0, 0x7f, 0xe3, 0x00, 0x8e, 0x1a]] =
        [] ++ ([Transaction.read_byte BME280.address 0xF4 c,
            Transaction.write_byte BME280.address 0xF4 w] ++
          poll_trace 1 0xF3 (earlier ++ [last]) ++
          [Transaction.read BME280.address 0xF7 8 raw]) ∧
      BME280.to_real_values scenario1_callibration (BME280.RawData.of_mapped_region raw) =
        some ⟨((2056 : Int) : ℚ) / 100, ((25204784 : Int) : ℚ) / 256,
          ((55730 : Int) : ℚ) / 1024⟩ := by
  obtain ⟨c, w, earlier, last, raw, h1, _, _, _, h5⟩ :=
    successful_read_order ⟨im_update_bus, scenario1_callibration⟩ []
      [Transaction.read_byte 0xEC 0xF4 0x90, Transaction.write_byte 0xEC 0xF4 0x91,
        Transaction.read_byte 0xEC 0xF3 0x01,
        Transaction.read 0xEC 0xF7 8 [0x4e, 0xba, 0xc0, 0x7f, 0xe3, 0x00, 0x8e, 0x1a]]
      ⟨((2056 : Int) : ℚ) / 100, ((25204784 : Int) : ℚ) / 256, ((55730 : Int) : ℚ) / 1024⟩
      rfl
  exact ⟨c, w, earlier, last, raw, h1, h5⟩

theorem read_trace_is_no_callibration_access (c w : Byte) (bytes : List Byte) (rest : Log)
    (hrest : rest = [] ∨ ∃ raw, rest = [Transaction.read BME280.address 0xF7 8 raw])
    (t : Transaction)
    (ht : t ∈ [Transaction.read_byte BME280.address 0xF4 c,
      Transaction.write_byte BME280.address 0xF4 w] ++ poll_trace 1 0xF3 bytes ++ rest) :
    t.is_read_at 0x88 = false ∧ t.is_read_at 0xE1 = false ∧ t.is_write_at 0x88 = false ∧
      t.is_write_at 0xE1 = false := by
  simp only [List.mem_append, List.mem_cons, List.mem_singleton, List.not_mem_nil,
    or_false] at ht
  rcases ht with ((ht | ht) | ht) | ht
  · subst ht; exact ⟨rfl, rfl, rfl, rfl⟩
  · subst ht; exact ⟨rfl, rfl, rfl, rfl⟩
  · rcases mem_poll_trace _ _ _ _ ht with ⟨b, _, hb⟩ | hd
    · subst hb; exact ⟨rfl, rfl, rfl, rfl⟩
    · subst hd; exact ⟨rfl, rfl, rfl, rfl⟩
  · rcases hrest with h | ⟨raw, h⟩
    · rw [h] at ht; cases ht
    · rw [h] at ht
      simp only [List.mem_singleton] at ht
      subst ht; exact ⟨rfl, rfl, rfl, rfl⟩

/-- C11: `read()` holds the driver, calibration included, as a value it never
updates; whether it returns or throws, the transactions it issues contain no read and
no write at the calibration blocks 0x88 and 0xE1, and a `read()` that follows either
throws the measurement-timeout error or returns `to_real_values` of the same
calibration constants and of the raw bytes it read at 0xF7. -/
theorem read_keeps_callibration (driver : BME280Driver) (log : Log) :
    ∃ trace, (driver.read log).2 = log ++ trace ∧
      (∀ t ∈ trace, t.is_read_at 0x88 = false ∧ t.is_read_at 0xE1 = false ∧
        t.is_write_at 0x88 = false ∧ t.is_write_at 0xE1 = false) ∧
      ((driver.read log).1 =
          Outcome.thrown (Error.mk "Error waiting for BME280 measurement finished") ∨
        ∃ measurement, (driver.read log).1 = Outcome.returned measurement) ∧
      ((driver.read (log ++ trace)).1 =
          Outcome.thrown (Error.mk "Error waiting for BME280 measurement finished") ∨
        ∃ before raw measurement,
          (driver.read (log ++ trace)).2 =
            before ++ [Transaction.read BME280.address 0xF7 8 raw] ∧
          BME280.to_real_values driver.callibration_data
            (BME280.RawData.of_mapped_region raw) = some measurement ∧
          (driver.read (log ++ trace)).1 = Outcome.returned measurement) := by
  have hlater : ∀ l : Log,
      (driver.read l).1 =
          Outcome.thrown (Error.mk "Error waiting for BME280 measurement finished") ∨
        ∃ before raw measurement,
          (driver.read l).2 = before ++ [Transaction.read BME280.address 0xF7 8 raw] ∧
          BME280.to_real_values driver.callibration_data
            (BME280.RawData.of_mapped_region raw) = some measurement ∧
          (driver.read l).1 = Outcome.returned measurement := by
    intro l
    obtain ⟨bytes, _, hcases⟩ := read_shape driver l
    rcases hcases with ⟨hthrown, _, _⟩ | ⟨earlier, last, raw, m, _, _, _, hm, hret⟩
    · left; rw [hthrown]
    · right
      refine ⟨l ++ ([Transaction.read_byte BME280.address 0xF4
            (driver.i2c.read_byte l BME280.address 0xF4),
          Transaction.write_byte BME280.address 0xF4
            (unsigned_char ((driver.i2c.read_byte l BME280.address 0xF4).val ||| 1))] ++
          poll_trace 1 0xF3 bytes), raw, m, ?_, hm, by rw [hret]⟩
      rw [hret]
      simp
  obtain ⟨bytes, _, hcases⟩ := read_shape driver log
  rcases hcases with ⟨hthrown, _, _⟩ | ⟨earlier, last, raw, m, _, _, _, hm, hret⟩
  · refine ⟨_, by rw [hthrown], ?_, Or.inl (by rw [hthrown]), hlater _⟩
    intro t ht
    exact read_trace_is_no_callibration_access _ _ bytes [] (Or.inl rfl) t (by simpa using ht)
  · refine ⟨_, by rw [hret], ?_, Or.inr ⟨m, by rw [hret]⟩, hlater _⟩
    intro t ht
    exact read_trace_is_no_callibration_access _ _ bytes _ (Or.inr ⟨raw, rfl⟩) t ht

/-! ## Bounded polling -/

theorem poll_trace_bounds (PollInterval Timeout : Nat) (register_address : Byte)
    (bytes : List Byte) (hlength : bytes.length ≤ Timeout / PollInterval) :
    reads_at register_address (poll_trace PollInterval register_address bytes) ≤
        Timeout / PollInterval ∧
      total_delay (poll_trace PollInterval register_address bytes) =
        PollInterval * (bytes.length - 1) ∧
      total_delay (poll_trace PollInterval register_address bytes) ≤ Timeout := by
  rw [reads_at_poll_trace, total_delay_poll_trace]
  refine ⟨hlength, rfl, ?_⟩
  calc PollInterval * (bytes.length - 1)
      ≤ PollInterval * (Timeout / PollInterval) :=
        Nat.mul_le_mul_left _ (le_trans (Nat.sub_le _ _) hlength)
    _ ≤ Timeout := Nat.mul_div_le _ _

/-- C16: a poll of the modelled poller with any interval and timeout probes at most
`Timeout / PollInterval` times, separates the probes by delays of the interval, and
requests a total delay of at most the timeout. The construction thus reads the chip-ID
register 0xD0 at most 1000/10 = 100 times with delays of 10 ms, at most 1000 ms in
total, and one `read()` reads the status register 0xF3 at most 100/1 = 100 times with
delays of 1 ms, at most 100 ms in total. -/
theorem bounded_polling (i2c : I2CMaster) (driver : BME280Driver) (log : Log) :
    (∀ (PollInterval Timeout : Nat) (register_address : Byte) (test : Byte → Bool)
        (predicate : Log → Bool × Log),
      (∀ log, ∃ byte, predicate log =
        (test byte, log ++ [Transaction.read_byte BME280.address register_address byte])) →
      ∃ bytes,
        (poller.poll PollInterval Timeout millisecond_delayer predicate log).2 =
          log ++ poll_trace PollInterval register_address bytes ∧
        bytes.length ≤ Timeout / PollInterval ∧
        reads_at register_address (poll_trace PollInterval register_address bytes) =
          bytes.length ∧
        total_delay (poll_trace PollInterval register_address bytes) ≤ Timeout) ∧
    (∃ trace, (BME280Driver.construct i2c log).2 = log ++ trace ∧
      reads_at 0xD0 trace ≤ 100 ∧
      (∀ milliseconds, Transaction.delay milliseconds ∈ trace → milliseconds = 10) ∧
      total_delay trace ≤ 1000 ∧
      ∃ bytes rest, trace = poll_trace 10 0xD0 bytes ++ rest ∧
        ∀ t ∈ rest, t.is_bus = true ∧ t.is_read_at 0xD0 = false) ∧
    (∃ trace, (driver.read log).2 = log ++ trace ∧
      reads_at 0xF3 trace ≤ 100 ∧
      (∀ milliseconds, Transaction.delay milliseconds ∈ trace → milliseconds = 1) ∧
      total_delay trace ≤ 100 ∧
      ∃ c w bytes rest,
        trace = [Transaction.read_byte BME280.address 0xF4 c,
          Transaction.write_byte BME280.address 0xF4 w] ++ poll_trace 1 0xF3 bytes ++ rest ∧
        ∀ t ∈ rest, t.is_bus = true ∧ t.is_read_at 0xF3 = false) := by
  refine ⟨?_, ?_, ?_⟩
  · intro PollInterval Timeout register_address test predicate hpredicate
    obtain ⟨bytes, h1, h2, _⟩ :=
      poll_loop_shape PollInterval register_address test predicate hpredicate
        (Timeout / PollInterval) log
    exact ⟨bytes, h1, h2, reads_at_poll_trace _ _ _,
      (poll_trace_bounds PollInterval Timeout register_address bytes h2).2.2⟩
  · obtain ⟨bytes, hlen, hcases⟩ := construct_shape i2c log
    obtain ⟨hreads, _, hdelay⟩ := poll_trace_bounds 10 1000 0xD0 bytes hlen
    rcases hcases with ⟨hthrown, _, _⟩ | ⟨earlier, first, second, _, _, hret⟩
    · refine ⟨poll_trace 10 0xD0 bytes, by rw [hthrown], hreads, ?_, hdelay, bytes, [],
        by simp, by simp⟩
      intro ms hms
      exact delay_of_mem_poll_trace _ _ _ _ hms
    · refine ⟨_, by rw [hret], ?_, ?_, ?_, bytes, _, rfl, ?_⟩
      · rw [reads_at_append]
        have h0 : reads_at 0xD0 [Transaction.read BME280.address 0x88 26 first,
            Transaction.read BME280.address 0xE1 7 second,
            Transaction.write_byte BME280.address 0xF2 0x04,
            Transaction.write_byte BME280.address 0xF4 0x90] = 0 := rfl
        rw [h0]
        exact hreads
      · intro ms hms
        rcases List.mem_append.mp hms with h | h
        · exact delay_of_mem_poll_trace _ _ _ _ h
        · simp at h
      · rw [total_delay_append]
        have h0 : total_delay [Transaction.read BME280.address 0x88 26 first,
            Transaction.read BME280.address 0xE1 7 second,
            Transaction.write_byte BME280.address 0xF2 0x04,
            Transaction.write_byte BME280.address 0xF4 0x90] = 0 := rfl
        rw [h0]
        exact hdelay
      · intro t ht
        simp only [List.mem_cons, List.mem_singleton, List.not_mem_nil, or_false] at ht
        rcases ht with h | h | h | h <;> subst h <;> exact ⟨rfl, rfl⟩
  · obtain ⟨bytes, hlen, hcases⟩ := read_shape driver log
    obtain ⟨hreads, _, hdelay⟩ := poll_trace_bounds 1 100 0xF3 bytes hlen
    have hpre : ∀ c w : Byte, reads_at 0xF3 [Transaction.read_byte BME280.address 0xF4 c,
        Transaction.write_byte BME280.address 0xF4 w] = 0 := fun _ _ => rfl
    have hpre' : ∀ c w : Byte, total_delay [Transaction.read_byte BME280.address 0xF4 c,
        Transaction.write_byte BME280.address 0xF4 w] = 0 := fun _ _ => rfl
    rcases hcases with ⟨hthrown, _, _⟩ | ⟨earlier, last, raw, m, _, _, _, _, hret⟩
    · refine ⟨_, by rw [hthrown], ?_, ?_, ?_, _, _, bytes, [], (List.append_nil _).symm,
        by simp⟩
      · rw [reads_at_append, hpre]
        simpa using hreads
      · intro ms hms
        rcases List.mem_append.mp hms with h | h
        · simp at h
        · exact delay_of_mem_poll_trace _ _ _ _ h
      · rw [total_delay_append, hpre']
        simpa using hdelay
    · refine ⟨_, by rw [hret], ?_, ?_, ?_, _, _, bytes, _, rfl, ?_⟩
      · rw [reads_at_append, reads_at_append, hpre]
        have h0 : reads_at 0xF3 [Transaction.read BME280.address 0xF7 8 raw] = 0 := rfl
        rw [h0]
        simpa using hreads
      · intro ms hms
        rcases List.mem_append.mp hms with h | h
        · rcases List.mem_append.mp h with h | h
          · simp at h
          · exact delay_of_mem_poll_trace _ _ _ _ h
        · simp at h
      · rw [total_delay_append, total_delay_append, hpre']
        have h0 : total_delay [Transaction.read BME280.address 0xF7 8 raw] = 0 := rfl
        rw [h0]
        simpa using hdelay
      · intro t ht
        simp only [List.mem_singleton] at ht
        subst ht
        exact ⟨rfl, rfl⟩

set_option maxRecDepth 100000 in
/-- Over a bus without the chip the construction uses its whole budget: exactly 100
probes of 0xD0 and 99 delays of 10 ms, 990 ms in total. -/
theorem bounded_polling_witness :
    reads_at 0xD0 (BME280Driver.construct absent_device_bus []).2 = 100 ∧
      total_delay (BME280Driver.construct absent_device_bus []).2 = 990 ∧
      reads_at 0xD0 (BME280Driver.construct absent_device_bus []).2 ≤ 100 ∧
      total_delay (BME280Driver.construct absent_device_bus []).2 ≤ 1000 := by
  obtain ⟨trace, htrace, hreads, _, hdelay, _⟩ :=
    (bounded_polling absent_device_bus ⟨absent_device_bus, scenario1_callibration⟩ []).2.1
  rw [List.nil_append] at htrace
  rw [← htrace] at hreads hdelay
  exact ⟨by decide, by decide, hreads, hdelay⟩

/-! ## Raw sample and register map -/

theorem shiftLeft_or_eq_add (a b i : Nat) (h : b < 2 ^ i) :
    (a <<< i) ||| b = a * 2 ^ i + b := by
  rw [Nat.shiftLeft_eq, Nat.mul_comm, ← Nat.mul_add_lt_is_or h]

theorem count20_eq (a b c : Nat) (hb : b < 256) (hc : c < 256) :
    (a <<< 12) ||| (b <<< 4) ||| (c >>> 4) = a * 4096 + b * 16 + c / 16 := by
  have h1 : c >>> 4 < 2 ^ 4 := by rw [Nat.shiftRight_eq_div_pow]; omega
  have h2 : b <<< 4 ||| c >>> 4 < 2 ^ 12 :=
    Nat.or_lt_two_pow (by rw [Nat.shiftLeft_eq]; omega) (by omega)
  rw [Nat.or_assoc, shiftLeft_or_eq_add _ _ _ h2, shiftLeft_or_eq_add _ _ _ h1,
    Nat.shiftRight_eq_div_pow]
  omega

/-- C13: for every raw sample `to_real_values` works on the pressure count
`r0*4096 + r1*16 + r2 div 16`, the temperature count `r3*4096 + r4*16 + r5 div 16` and
the humidity count `r6*256 + r7`; the first two lie in [0, 1048575] and the third in
[0, 65535], and the reading returned is computed from exactly these counts. -/
theorem raw_sample_layout (c : BME280.CallibrationData) (regs : BME280.RawData) :
    BME280.pressure_raw regs =
        ((regs.pressure_msb.val * 4096 + regs.pressure_lsb.val * 16 +
          regs.pressure_xlsb.val / 16 : Nat) : Int) ∧
      BME280.temperature_raw regs =
        ((regs.temperature_msb.val * 4096 + regs.temperature_lsb.val * 16 +
          regs.temperature_xlsb.val / 16 : Nat) : Int) ∧
      BME280.humidity_raw regs =
        ((regs.humidity_msb.val * 256 + regs.humidity_lsb.val : Nat) : Int) ∧
      (0 ≤ BME280.pressure_raw regs ∧ BME280.pressure_raw regs ≤ 1048575) ∧
      (0 ≤ BME280.temperature_raw regs ∧ BME280.temperature_raw regs ≤ 1048575) ∧
      (0 ≤ BME280.humidity_raw regs ∧ BME280.humidity_raw regs ≤ 65535) ∧
      ∃ measurement, BME280.to_real_values c regs = some measurement ∧
        measurement.temperature =
          BME280.convert_temperature
            (BME280.calculate_fine_temperature (BME280.temperature_raw regs) c) ∧
        BME280.convert_pressure (BME280.pressure_raw regs)
          (BME280.calculate_fine_temperature (BME280.temperature_raw regs) c) c =
            some measurement.pressure ∧
        measurement.humidity =
          BME280.convert_humidity (BME280.humidity_raw regs)
            (BME280.calculate_fine_temperature (BME280.temperature_raw regs) c) c := by
  have hp : BME280.pressure_raw regs =
      ((regs.pressure_msb.val * 4096 + regs.pressure_lsb.val * 16 +
        regs.pressure_xlsb.val / 16 : Nat) : Int) := by
    unfold BME280.pressure_raw
    rw [count20_eq _ _ _ regs.pressure_lsb.isLt regs.pressure_xlsb.isLt]
  have ht : BME280.temperature_raw regs =
      ((regs.temperature_msb.val * 4096 + regs.temperature_lsb.val * 16 +
        regs.temperature_xlsb.val / 16 : Nat) : Int) := by
    unfold BME280.temperature_raw
    rw [count20_eq _ _ _ regs.temperature_lsb.isLt regs.temperature_xlsb.isLt]
  have hh : BME280.humidity_raw regs =
      ((regs.humidity_msb.val * 256 + regs.humidity_lsb.val : Nat) : Int) := by
    unfold BME280.humidity_raw
    rw [shiftLeft_or_eq_add _ _ 8 regs.humidity_lsb.isLt]
    rfl
  have b0 := regs.pressure_msb.isLt
  have b1 := regs.pressure_lsb.isLt
  have b2 := regs.pressure_xlsb.isLt
  have b3 := regs.temperature_msb.isLt
  have b4 := regs.temperature_lsb.isLt
  have b5 := regs.temperature_xlsb.isLt
  have b6 := regs.humidity_msb.isLt
  have b7 := regs.humidity_lsb.isLt
  obtain ⟨pressure, hpressure, hm⟩ := to_real_values_some c regs
  refine ⟨hp, ht, hh, ?_, ?_, ?_, _, hm, rfl, hpressure, rfl⟩
  · rw [hp]; omega
  · rw [ht]; omega
  · rw [hh]; omega

/-- C14: for every calibration and every raw sample `to_real_values` returns a
reading; the division of the pressure computation, the only operation without a value
(exactly when its divisor is zero), is performed only when `var1` is non-zero, and a
zero `var1` gives the pressure 0 instead. -/
theorem conversion_never_fails (c : BME280.CallibrationData) (regs : BME280.RawData) :
    ∃ measurement, BME280.to_real_values c regs = some measurement ∧
      (BME280.convert_pressure.var1
          (BME280.calculate_fine_temperature (BME280.temperature_raw regs) c) c = 0 →
        measurement.pressure = 0) ∧
      (BME280.convert_pressure.var1
          (BME280.calculate_fine_temperature (BME280.temperature_raw regs) c) c ≠ 0 →
        ∃ p,
          BME280.convert_pressure.p (BME280.pressure_raw regs)
            (BME280.convert_pressure.var1
              (BME280.calculate_fine_temperature (BME280.temperature_raw regs) c) c)
            (BME280.convert_pressure.var2
              (BME280.calculate_fine_temperature (BME280.temperature_raw regs) c) c) c =
              some p ∧
          measurement.pressure = (p : ℚ) / 256) ∧
      (∀ a b : Int, sdiv64 a b = none ↔ b = 0) := by
  obtain ⟨pressure, hpressure, hm⟩ := to_real_values_some c regs
  refine ⟨_, hm, ?_, ?_, ?_⟩
  · intro hzero
    have h0 : BME280.convert_pressure (BME280.pressure_raw regs)
        (BME280.calculate_fine_temperature (BME280.temperature_raw regs) c) c = some 0 := by
      unfold BME280.convert_pressure
      simp only [hzero, if_true]
    rw [h0] at hpressure
    exact (Option.some.inj hpressure).symm
  · intro hne
    obtain ⟨p, hp⟩ := convert_pressure_p_some (BME280.pressure_raw regs) _
      (BME280.convert_pressure.var2
        (BME280.calculate_fine_temperature (BME280.temperature_raw regs) c) c) c hne
    refine ⟨p, hp, ?_⟩
    have h1 : BME280.convert_pressure (BME280.pressure_raw regs)
        (BME280.calculate_fine_temperature (BME280.temperature_raw regs) c) c =
          some ((p : ℚ) / 256) := by
      unfold BME280.convert_pressure
      simp only [hne, if_false, hp]
      rfl
    rw [h1] at hpressure
    exact (Option.some.inj hpressure).symm
  · intro a b
    unfold sdiv64
    constructor
    · intro h
      by_contra hb
      simp [hb] at h
    · intro hb
      simp [hb]

/-- C19: the raw-data base address `data_beg` is the pressure-MSB address 0xF7, the
eight data registers have the addresses `data_beg + 0 .. data_beg + 7` in the order of
the fields of `RawData`, and byte `i` of the burst read lands in field `i`. -/
theorem register_map_consistency :
    to_u_type .data_beg = to_u_type .pressure_msb ∧
      to_u_type .data_beg = 0xF7 ∧
      [BME280.RegisterAddress.pressure_msb, .pressure_lsb, .pressure_xlsb, .temperature_msb,
          .temperature_lsb, .temperature_xlsb, .humidity_msb, .humidity_lsb].map
          (fun register => (to_u_type register).val) =
        (List.range 8).map (fun i => (to_u_type .data_beg).val + i) ∧
      ∀ r0 r1 r2 r3 r4 r5 r6 r7 : Byte,
        BME280.RawData.of_mapped_region [r0, r1, r2, r3, r4, r5, r6, r7] =
          { pressure_msb := r0, pressure_lsb := r1, pressure_xlsb := r2,
            temperature_msb := r3, temperature_lsb := r4, temperature_xlsb := r5,
            humidity_msb := r6, humidity_lsb := r7 } :=
  ⟨rfl, rfl, by decide, fun _ _ _ _ _ _ _ _ => rfl⟩

/-- C20: whenever `get_callibration_data` returns a calibration and the block it read
at 0xE1 was the seven bytes `b0 .. b6`, then `dig_H4` and `dig_H5` lie in [0, 4095]; a
top bit set in `b3` (resp. `b5`) yields a value of 2048 or more, not a negative one. -/
theorem nibble_packed_constants_nonnegative (i2c : I2CMaster) (log trace : Log)
    (c : BME280.CallibrationData) (b0 b1 b2 b3 b4 b5 b6 : Byte)
    (hreturned : get_callibration_data i2c log = (Outcome.returned c, log ++ trace))
    (hread : Transaction.read BME280.address 0xE1 7 [b0, b1, b2, b3, b4, b5, b6] ∈ trace) :
    (0 ≤ c.dig_H4 ∧ c.dig_H4 ≤ 4095) ∧ (0 ≤ c.dig_H5 ∧ c.dig_H5 ≤ 4095) ∧
      (128 ≤ b3.val → 2048 ≤ c.dig_H4) ∧ (128 ≤ b5.val → 2048 ≤ c.dig_H5) ∧
      c.dig_H4 = (b3.val : Int) * 16 + ((b4.val % 16 : Nat) : Int) ∧
      c.dig_H5 = (b5.val : Int) * 16 + ((b4.val / 16 : Nat) : Int) := by
  obtain ⟨polls, first, second, hpolls, _, htrace, hc⟩ :=
    get_callibration_data_returned i2c log trace c hreturned
  rw [htrace] at hread
  have hsecond : second = [b0, b1, b2, b3, b4, b5, b6] := by
    rcases callibration_read_of_mem polls first second hpolls _ _ _ hread with ⟨h, _⟩ | ⟨_, h⟩
    · exact absurd h (by decide)
    · exact h.symm
  subst hsecond
  subst hc
  have h3 := b3.isLt
  have h4 := b4.isLt
  have h5 := b5.isLt
  have hlow : b4.val &&& 0x0F = b4.val % 16 := Nat.and_pow_two_sub_one_eq_mod b4.val 4
  have hlow_lt : b4.val &&& 0x0F < 2 ^ 4 := by rw [hlow]; omega
  have hhigh : b4.val >>> 4 = b4.val / 16 := Nat.shiftRight_eq_div_pow b4.val 4
  have hhigh_lt : b4.val >>> 4 < 2 ^ 4 := by rw [hhigh]; omega
  have hH4 : (callibration_of_blocks first [b0, b1, b2, b3, b4, b5, b6]).dig_H4 =
      (b3.val : Int) * 16 + ((b4.val % 16 : Nat) : Int) := by
    show int16_t (((b3.val <<< 4) ||| (b4.val &&& 0x0F) : Nat) : Int) = _
    rw [shiftLeft_or_eq_add _ _ 4 hlow_lt, hlow]
    rw [int16_t_of_small _ (by omega) (by omega)]
    push_cast
    rfl
  have hH5 : (callibration_of_blocks first [b0, b1, b2, b3, b4, b5, b6]).dig_H5 =
      (b5.val : Int) * 16 + ((b4.val / 16 : Nat) : Int) := by
    show int16_t (((b5.val <<< 4) ||| (b4.val >>> 4) : Nat) : Int) = _
    rw [shiftLeft_or_eq_add _ _ 4 hhigh_lt, hhigh]
    rw [int16_t_of_small _ (by omega) (by omega)]
    push_cast
    rfl
  rw [hH4, hH5]
  refine ⟨⟨by omega, by omega⟩, ⟨by omega, by omega⟩, fun h => by omega, fun h => by omega,
    rfl, rfl⟩

/-- The decode over a chip whose bytes 3 and 5 of the second block are 0xFF and 0x83:
`dig_H4 = 0xFF0` and `dig_H5 = 0x832`. -/
theorem nibble_packed_constants_nonnegative_witness :
    ∃ c log',
      get_callibration_data high_nibble_bus [] = (Outcome.returned c, log') ∧
      c.dig_H4 = 0xFF0 ∧ c.dig_H5 = 0x832 ∧ 2048 ≤ c.dig_H4 ∧ 2048 ≤ c.dig_H5 := by
  have h := nibble_packed_constants_nonnegative high_nibble_bus []
    [Transaction.read_byte 0xEC 0xD0 0x60,
      Transaction.read 0xEC 0x88 26
        [0x32, 0x70, 0xd0, 0x68, 0x32, 0x00, 0x3a, 0x8e, 0x1b, 0xd6, 0xd0, 0x0b, 0x15,
          0x24, 0x64, 0xff, 0xf9, 0xff, 0x0c, 0x30, 0x20, 0xd1, 0x88, 0x13, 0x00, 0x4b],
      Transaction.read 0xEC 0xE1 7 [0x4c, 0x01, 0x00, 0xff, 0x20, 0x83, 0x1e]]
    { scenario1_callibration with dig_H4 := 0xFF0, dig_H5 := 0x832 }
    0x4c 0x01 0x00 0xff 0x20 0x83 0x1e rfl (by decide)
  exact ⟨_, _, rfl, rfl, rfl, h.2.2.1 (by decide), h.2.2.2.1 (by decide)⟩

set_option maxRecDepth 100000 in
theorem or_forced_mode_bits :
    ∀ c : Byte,
      (c.val ||| 1) % 256 = c.val ||| 1 ∧ (c.val ||| 1) &&& 1 = 1 ∧
        (c.val ||| 1) &&& 2 = c.val &&& 2 ∧ (c.val &&& 2 = 0 → (c.val ||| 1) &&& 3 = 1) := by
  decide

/-- C17 as amended: for every byte `c` read from the measurement-control register
0xF4, the byte written back is `w = c | 0x01`: bit 0, the forced-mode bit, is set and
bit 1 is that of `c`; the mode field of `w` is forced mode, `(w & 0b11) = 0b01`,
whenever bit 1 of `c` is clear (mode field sleep or forced). -/
theorem one_shot_sets_forced_mode_bit (i2c : I2CMaster) (log : Log) :
    ∃ c w,
      c = i2c.read_byte log BME280.address 0xF4 ∧
      start_one_shot_measurement i2c log =
        log ++ [Transaction.read_byte BME280.address 0xF4 c,
          Transaction.write_byte BME280.address 0xF4 w] ∧
      w.val = c.val ||| BME280.ControlMeasurement.forced_mode.val ∧
      w.val &&& 0b01 = 0b01 ∧
      w.val &&& 0b10 = c.val &&& 0b10 ∧
      (c.val &&& 0b10 = 0 → w.val &&& 0b11 = BME280.ControlMeasurement.forced_mode.val) := by
  have hc := or_forced_mode_bits (i2c.read_byte log BME280.address 0xF4)
  refine ⟨i2c.read_byte log BME280.address 0xF4,
    unsigned_char ((i2c.read_byte log BME280.address 0xF4).val ||| 1), rfl,
    start_one_shot_measurement_trace i2c log, ?_, ?_, ?_, ?_⟩
  · exact hc.1
  · show ((i2c.read_byte log BME280.address 0xF4).val ||| 1) % 256 &&& 1 = 1
    rw [hc.1]; exact hc.2.1
  · show ((i2c.read_byte log BME280.address 0xF4).val ||| 1) % 256 &&& 2 = _
    rw [hc.1]; exact hc.2.2.1
  · intro h
    show ((i2c.read_byte log BME280.address 0xF4).val ||| 1) % 256 &&& 3 = 1
    rw [hc.1]; exact hc.2.2.2 h

/-- C17 fails as stated: over a chip whose measurement-control register reads 0x93
(mode bits 11), the byte written back is 0x93, whose mode field is 0b11, not 0b01. -/
theorem one_shot_forced_mode_counterexample :
    start_one_shot_measurement normal_mode_bus [] =
        [Transaction.read_byte BME280.address 0xF4 0x93,
          Transaction.write_byte BME280.address 0xF4 0x93] ∧
      (0x93 : Byte).val &&& 0b11 = BME280.ControlMeasurement.normal_mode.val ∧
      (0x93 : Byte).val &&& 0b11 ≠ 0b01 := by
  decide

/-! ## Overflow -/

theorem convert_humidity_eq_reference (adc_H t_fine : Int) (c : BME280.CallibrationData)
    (hno : humidity_no_overflow adc_H t_fine c) :
    BME280.convert_humidity.v_x1_u32r adc_H t_fine c = reference_humidity adc_H t_fine c := by
  obtain ⟨h1, h2, h3, h4, h5, h6, h7, h8, h9, h10, h11, h12, h13, h14, h15, h16, h17, h18⟩ :=
    hno
  unfold reference_humidity_unclamped at h18
  unfold reference_humidity reference_humidity_unclamped
  unfold BME280.convert_humidity.v_x1_u32r
  simp only [mul32, sub32, shl32, add32, int32_t_of_in_int32 _ h1, int32_t_of_in_int32 _ h2,
    int32_t_of_in_int32 _ h3, int32_t_of_in_int32 _ h4, int32_t_of_in_int32 _ h5,
    int32_t_of_in_int32 _ h6, int32_t_of_in_int32 _ h7, int32_t_of_in_int32 _ h8,
    int32_t_of_in_int32 _ h9, int32_t_of_in_int32 _ h10, int32_t_of_in_int32 _ h11,
    int32_t_of_in_int32 _ h12, int32_t_of_in_int32 _ h13, int32_t_of_in_int32 _ h14,
    int32_t_of_in_int32 _ h15, int32_t_of_in_int32 _ h16, int32_t_of_in_int32 _ h17,
    int32_t_of_in_int32 _ h18]

theorem int64_t_of_in_int64 (x : Int) (h : in_int64 x) : int64_t x = x := by
  unfold in_int64 at h; unfold int64_t; omega

theorem shl64_one_47 : shl64 1 47 = 2 ^ 47 := by decide

theorem convert_pressure_var2_eq_reference (adc_P t_fine : Int) (c : BME280.CallibrationData)
    (hno : pressure_no_overflow adc_P t_fine c) :
    BME280.convert_pressure.var2 t_fine c = reference_pressure_var2 t_fine c := by
  obtain ⟨h1, h2, h3, h4, h5, h6, h7, h8, _⟩ := hno
  unfold reference_pressure_var2 at h8 ⊢
  unfold BME280.convert_pressure.var2
  simp only [mul64, sub64, shl64, add64, int64_t_of_in_int64 _ h1, int64_t_of_in_int64 _ h2,
    int64_t_of_in_int64 _ h3, int64_t_of_in_int64 _ h4, int64_t_of_in_int64 _ h5,
    int64_t_of_in_int64 _ h6, int64_t_of_in_int64 _ h7, int64_t_of_in_int64 _ h8]

theorem convert_pressure_var1_eq_reference (adc_P t_fine : Int) (c : BME280.CallibrationData)
    (hno : pressure_no_overflow adc_P t_fine c) :
    BME280.convert_pressure.var1 t_fine c = reference_pressure_var1 t_fine c := by
  obtain ⟨h1, h2, _, _, _, _, _, _, h9, h10, h11, h12, h13, h14, _⟩ := hno
  unfold reference_pressure_var1
  unfold BME280.convert_pressure.var1
  rw [shl64_one_47]
  simp only [mul64, sub64, shl64, add64, int64_t_of_in_int64 _ h1, int64_t_of_in_int64 _ h2,
    int64_t_of_in_int64 _ h9, int64_t_of_in_int64 _ h10, int64_t_of_in_int64 _ h11,
    int64_t_of_in_int64 _ h12, int64_t_of_in_int64 _ h13, int64_t_of_in_int64 _ h14]

theorem convert_pressure_p_eq_reference (adc_P t_fine : Int) (c : BME280.CallibrationData)
    (hno : pressure_no_overflow adc_P t_fine c)
    (hvar1 : reference_pressure_var1 t_fine c ≠ 0) :
    BME280.convert_pressure.p adc_P (reference_pressure_var1 t_fine c)
        (reference_pressure_var2 t_fine c) c =
      some (reference_pressure_p adc_P t_fine c) := by
  obtain ⟨_, _, _, _, _, _, _, _, _, _, _, _, _, _, hafter⟩ := hno
  obtain ⟨h1, h2, h3, h4, h5, h6, h7, h8, h9, h10, h11, h12⟩ := hafter hvar1
  unfold reference_pressure_p at h12 ⊢
  unfold reference_pressure_quotient at h5 h6 h7 h8 h9 h10 h12 ⊢
  unfold BME280.convert_pressure.p
  simp only [sdiv64, hvar1, if_false, mul64, sub64, sub32, shl64, add64,
    int32_t_of_in_int32 _ h1, int64_t_of_in_int64 _ h2,
    int64_t_of_in_int64 _ h3, int64_t_of_in_int64 _ h4, int64_t_of_in_int64 _ h5,
    int64_t_of_in_int64 _ h6, int64_t_of_in_int64 _ h7, int64_t_of_in_int64 _ h8,
    int64_t_of_in_int64 _ h9, int64_t_of_in_int64 _ h10, int64_t_of_in_int64 _ h11,
    int64_t_of_in_int64 _ h12]

/-- Wrapped and unbounded arithmetic agree where nothing overflows: for every calibration
and raw sample for which no intermediate, taken in unbounded integers, leaves the range
of its type (`no_overflow`), `to_real_values` returns exactly the reading of the
manufacturer's formulas computed in unbounded integer arithmetic. -/
theorem fixed_point_math_without_overflow (c : BME280.CallibrationData)
    (regs : BME280.RawData) (hno : no_overflow c regs) :
    BME280.to_real_values c regs = some (reference_to_real_values c regs) ∧
      BME280.calculate_fine_temperature (BME280.temperature_raw regs) c =
        reference_t_fine (BME280.temperature_raw regs) c.dig_T1 c.dig_T2 c.dig_T3 ∧
      BME280.convert_humidity.v_x1_u32r (BME280.humidity_raw regs)
          (BME280.calculate_fine_temperature (BME280.temperature_raw regs) c) c =
        reference_humidity (BME280.humidity_raw regs)
          (reference_t_fine (BME280.temperature_raw regs) c.dig_T1 c.dig_T2 c.dig_T3) c ∧
      BME280.convert_pressure.var1
          (BME280.calculate_fine_temperature (BME280.temperature_raw regs) c) c =
        reference_pressure_var1
          (reference_t_fine (BME280.temperature_raw regs) c.dig_T1 c.dig_T2 c.dig_T3) c ∧
      BME280.convert_pressure.var2
          (BME280.calculate_fine_temperature (BME280.temperature_raw regs) c) c =
        reference_pressure_var2
          (reference_t_fine (BME280.temperature_raw regs) c.dig_T1 c.dig_T2 c.dig_T3) c := by
  obtain ⟨htemperature, hhumidity, hpressure⟩ := hno
  obtain ⟨hfine, hT⟩ := calculate_fine_temperature_eq_reference _ c htemperature
  have hh := convert_humidity_eq_reference _ _ c hhumidity
  have hv1 := convert_pressure_var1_eq_reference _ _ c hpressure
  have hv2 := convert_pressure_var2_eq_reference _ _ c hpressure
  refine ⟨?_, hfine, by rw [hfine, hh], by rw [hfine, hv1], by rw [hfine, hv2]⟩
  unfold BME280.to_real_values reference_to_real_values
  simp only []
  rw [hfine]
  have hcp : BME280.convert_pressure (BME280.pressure_raw regs)
      (reference_t_fine (BME280.temperature_raw regs) c.dig_T1 c.dig_T2 c.dig_T3) c =
        some (if reference_pressure_var1
            (reference_t_fine (BME280.temperature_raw regs) c.dig_T1 c.dig_T2 c.dig_T3) c = 0
          then 0
          else
            ((reference_pressure_p (BME280.pressure_raw regs)
              (reference_t_fine (BME280.temperature_raw regs) c.dig_T1 c.dig_T2 c.dig_T3) c :
                Int) : ℚ) / 256) := by
    unfold BME280.convert_pressure
    simp only []
    rw [hv1, hv2]
    by_cases hzero : reference_pressure_var1
        (reference_t_fine (BME280.temperature_raw regs) c.dig_T1 c.dig_T2 c.dig_T3) c = 0
    · simp only [hzero, if_true]
    · simp only [hzero, if_false]
      rw [convert_pressure_p_eq_reference _ _ c hpressure hzero]
      rfl
  rw [hcp]
  simp only [BME280.convert_temperature, BME280.convert_humidity, hT, hh]

/-- Both documented scenarios are free of overflow, and `to_real_values` returns there
the readings of the unbounded formulas: 20.56 degrees, 98456.1875 Pa, 54.42 % and
21.43 degrees, 100819.57 Pa, 47.33 %. -/
theorem fixed_point_math_without_overflow_witness :
    (BME280.to_real_values scenario1_callibration
          (BME280.RawData.of_mapped_region [0x4e, 0xba, 0xc0, 0x7f, 0xe3, 0x00, 0x8e, 0x1a]) =
        some (reference_to_real_values scenario1_callibration
          (BME280.RawData.of_mapped_region
            [0x4e, 0xba, 0xc0, 0x7f, 0xe3, 0x00, 0x8e, 0x1a])) ∧
      reference_to_real_values scenario1_callibration
          (BME280.RawData.of_mapped_region [0x4e, 0xba, 0xc0, 0x7f, 0xe3, 0x00, 0x8e, 0x1a]) =
        ⟨((2056 : Int) : ℚ) / 100, ((25204784 : Int) : ℚ) / 256,
          ((55730 : Int) : ℚ) / 1024⟩) ∧
    (BME280.to_real_values scenario2_callibration
          (BME280.RawData.of_mapped_region [0x51, 0xe9, 0x05, 0x7f, 0x92, 0x0b, 0x74, 0x15]) =
        some (reference_to_real_values scenario2_callibration
          (BME280.RawData.of_mapped_region
            [0x51, 0xe9, 0x05, 0x7f, 0x92, 0x0b, 0x74, 0x15])) ∧
      reference_to_real_values scenario2_callibration
          (BME280.RawData.of_mapped_region [0x51, 0xe9, 0x05, 0x7f, 0x92, 0x0b, 0x74, 0x15]) =
        ⟨((2143 : Int) : ℚ) / 100, ((25809811 : Int) : ℚ) / 256,
          ((48469 : Int) : ℚ) / 1024⟩) := by
  refine ⟨⟨(fixed_point_math_without_overflow scenario1_callibration _ ?_).1, ?_⟩,
    ⟨(fixed_point_math_without_overflow scenario2_callibration _ ?_).1, ?_⟩⟩
  · unfold no_overflow temperature_no_overflow humidity_no_overflow pressure_no_overflow
      in_int32 in_int64
    refine ⟨?_, ?_, ?_⟩
    · and_intros
      all_goals decide
    · and_intros
      all_goals decide
    · and_intros
      all_goals decide
  · unfold reference_to_real_values
    have h : reference_pressure_var1 (reference_t_fine (BME280.temperature_raw
        (BME280.RawData.of_mapped_region [0x4e, 0xba, 0xc0, 0x7f, 0xe3, 0x00, 0x8e, 0x1a]))
        scenario1_callibration.dig_T1 scenario1_callibration.dig_T2
        scenario1_callibration.dig_T3) scenario1_callibration ≠ 0 := by decide
    rw [if_neg h]
    rfl
  · unfold no_overflow temperature_no_overflow humidity_no_overflow pressure_no_overflow
      in_int32 in_int64
    refine ⟨?_, ?_, ?_⟩
    · and_intros
      all_goals decide
    · and_intros
      all_goals decide
    · and_intros
      all_goals decide
  · unfold reference_to_real_values
    have h : reference_pressure_var1 (reference_t_fine (BME280.temperature_raw
        (BME280.RawData.of_mapped_region [0x51, 0xe9, 0x05, 0x7f, 0x92, 0x0b, 0x74, 0x15]))
        scenario2_callibration.dig_T1 scenario2_callibration.dig_T2
        scenario2_callibration.dig_T3) scenario2_callibration ≠ 0 := by decide
    rw [if_neg h]
    rfl

/-- C15 fails as stated: the calibration decoded from the scenario-1 first block and
the second block `4c 01 00 ff 20 83 1e` has `dig_H4 = 4080`, whose shift `dig_H4 << 20`
leaves the 32-bit range; on the scenario-1 raw sample the wrapped computation returns
the humidity 100 where unbounded integer arithmetic gives 0. -/
theorem fixed_point_math_overflow_counterexample :
    ∃ c log',
      get_callibration_data high_nibble_bus [] = (Outcome.returned c, log') ∧
      c.dig_H4 = 4080 ∧
      ¬ in_int32 (c.dig_H4 * 2 ^ 20) ∧
      shl32 c.dig_H4 20 ≠ c.dig_H4 * 2 ^ 20 ∧
      BME280.convert_humidity.v_x1_u32r 36378 105269 c = 419430400 ∧
      reference_humidity 36378 105269 c = 0 ∧
      BME280.humidity_raw
        (BME280.RawData.of_mapped_region [0x4e, 0xba, 0xc0, 0x7f, 0xe3, 0x00, 0x8e, 0x1a]) =
          36378 ∧
      BME280.calculate_fine_temperature
        (BME280.temperature_raw
          (BME280.RawData.of_mapped_region [0x4e, 0xba, 0xc0, 0x7f, 0xe3, 0x00, 0x8e, 0x1a]))
        c = 105269 := by
  refine ⟨{ scenario1_callibration with dig_H4 := 4080, dig_H5 := 2098 }, _, rfl, rfl, ?_, ?_,
    ?_, ?_, ?_, ?_⟩
  · unfold in_int32; decide
  · decide
  · decide
  · decide
  · decide
  · decide

/-! ## Unused bits of the raw sample -/

set_option maxRecDepth 100000 in
theorem high_nibble_eq_div : ∀ x : Byte, x.val &&& 0xF0 = x.val / 16 * 16 := by
  decide

theorem shiftRight_eq_of_high_nibble_eq (x y : Byte)
    (h : x.val &&& 0xF0 = y.val &&& 0xF0) : x.val >>> 4 = y.val >>> 4 := by
  rw [high_nibble_eq_div x, high_nibble_eq_div y] at h
  rw [Nat.shiftRight_eq_div_pow, Nat.shiftRight_eq_div_pow]
  omega

/-- C21: for every calibration and any two raw samples that agree in every bit except
possibly the low 4 bits of byte 2 (`pressure_xlsb`) and of byte 5
(`temperature_xlsb`), `to_real_values` returns the same result, temperature, pressure
and humidity alike. -/
theorem low_nibbles_do_not_influence (c : BME280.CallibrationData)
    (regs regs' : BME280.RawData)
    (h0 : regs'.pressure_msb = regs.pressure_msb)
    (h1 : regs'.pressure_lsb = regs.pressure_lsb)
    (h2 : regs'.pressure_xlsb.val &&& 0xF0 = regs.pressure_xlsb.val &&& 0xF0)
    (h3 : regs'.temperature_msb = regs.temperature_msb)
    (h4 : regs'.temperature_lsb = regs.temperature_lsb)
    (h5 : regs'.temperature_xlsb.val &&& 0xF0 = regs.temperature_xlsb.val &&& 0xF0)
    (h6 : regs'.humidity_msb = regs.humidity_msb)
    (h7 : regs'.humidity_lsb = regs.humidity_lsb) :
    BME280.to_real_values c regs' = BME280.to_real_values c regs ∧
      BME280.pressure_raw regs' = BME280.pressure_raw regs ∧
      BME280.temperature_raw regs' = BME280.temperature_raw regs ∧
      BME280.humidity_raw regs' = BME280.humidity_raw regs := by
  have hp : BME280.pressure_raw regs' = BME280.pressure_raw regs := by
    unfold BME280.pressure_raw
    rw [h0, h1, shiftRight_eq_of_high_nibble_eq _ _ h2]
  have ht : BME280.temperature_raw regs' = BME280.temperature_raw regs := by
    unfold BME280.temperature_raw
    rw [h3, h4, shiftRight_eq_of_high_nibble_eq _ _ h5]
  have hh : BME280.humidity_raw regs' = BME280.humidity_raw regs := by
    unfold BME280.humidity_raw
    rw [h6, h7]
  refine ⟨?_, hp, ht, hh⟩
  unfold BME280.to_real_values
  rw [hp, ht, hh]

/-- The raw sample of scenario 1 with the low nibbles of bytes 2 and 5 turned from 0
into 0xF converts to the same reading. -/
theorem low_nibbles_do_not_influence_witness :
    BME280.to_real_values scenario1_callibration
        (BME280.RawData.of_mapped_region [0x4e, 0xba, 0xcf, 0x7f, 0xe3, 0x0f, 0x8e, 0x1a]) =
      BME280.to_real_values scenario1_callibration
        (BME280.RawData.of_mapped_region [0x4e, 0xba, 0xc0, 0x7f, 0xe3, 0x00, 0x8e, 0x1a]) :=
  (low_nibbles_do_not_influence scenario1_callibration
    (BME280.RawData.of_mapped_region [0x4e, 0xba, 0xc0, 0x7f, 0xe3, 0x00, 0x8e, 0x1a])
    (BME280.RawData.of_mapped_region [0x4e, 0xba, 0xcf, 0x7f, 0xe3, 0x0f, 0x8e, 0x1a])
    rfl rfl (by decide) rfl rfl (by decide) rfl rfl).1

/-! ## Monotone temperature -/

theorem reference_t_fine_scenario1 (a : Int) :
    reference_t_fine a 28722 26832 50 =
      ((a / 8 - 28722 * 2) * 26832) / 2048 +
        ((((a / 16 - 28722) * (a / 16 - 28722)) / 4096) * 50) / 16384 := by
  unfold reference_t_fine
  simp only [shr_eq_div]
  norm_num

theorem reference_t_fine_scenario1_step (a : Int) (h0 : 0 ≤ a) (h1 : a < 1048575) :
    reference_t_fine a 28722 26832 50 ≤ reference_t_fine (a + 1) 28722 26832 50 := by
  rw [reference_t_fine_scenario1, reference_t_fine_scenario1]
  have hs : 0 ≤ (a / 16 - 28722) * (a / 16 - 28722) := mul_self_nonneg _
  by_cases hc : (a + 1) / 16 = a / 16
  · rw [hc]
    omega
  · have hc' : (a + 1) / 16 = a / 16 + 1 := by omega
    have hsq : ((a + 1) / 16 - 28722) * ((a + 1) / 16 - 28722) =
        (a / 16 - 28722) * (a / 16 - 28722) + 2 * (a / 16 - 28722) + 1 := by
      rw [hc']; ring
    rw [hsq]
    generalize (a / 16 - 28722) * (a / 16 - 28722) = s at hs ⊢
    omega

theorem reference_t_fine_scenario1_monotone (a b : Int) (h0 : 0 ≤ a) (hab : a ≤ b)
    (hb : b ≤ 1048575) :
    reference_t_fine a 28722 26832 50 ≤ reference_t_fine b 28722 26832 50 := by
  revert hb
  refine Int.le_induction
    (P := fun n => n ≤ 1048575 →
      reference_t_fine a 28722 26832 50 ≤ reference_t_fine n 28722 26832 50) ?_ ?_ b hab
  · intro _
    exact le_refl _
  · intro n hn ih hn1
    exact le_trans (ih (by omega)) (reference_t_fine_scenario1_step n (by omega) (by omega))

theorem temperature_no_overflow_scenario1 (c : BME280.CallibrationData)
    (hT1 : c.dig_T1 = 28722) (hT2 : c.dig_T2 = 26832) (hT3 : c.dig_T3 = 50)
    (a : Int) (h0 : 0 ≤ a) (h1 : a ≤ 1048575) : temperature_no_overflow a c := by
  have hl : -28722 ≤ a / 16 - 28722 := by omega
  have hu : a / 16 - 28722 ≤ 36813 := by omega
  have hs0 : 0 ≤ (a / 16 - 28722) * (a / 16 - 28722) := mul_self_nonneg _
  have hs1 : (a / 16 - 28722) * (a / 16 - 28722) ≤ 1355196969 := by nlinarith
  unfold temperature_no_overflow
  rw [hT1, hT2, hT3, reference_t_fine_scenario1]
  simp only [shr_eq_div, in_int32]
  norm_num
  generalize (a / 16 - 28722) * (a / 16 - 28722) = s at hs0 hs1 ⊢
  omega

/-- C22: for a calibration with `dig_T1 = 28722`, `dig_T2 = 26832`, `dig_T3 = 50` (that
of scenario 1) and all raw temperature counts `a <= b` in [0, 1048575], the integer
result `(t_fine * 5 + 128) >> 8` in hundredths of a degree computed for `a` is at most
the one computed for `b`, so is the temperature returned, and no 32-bit intermediate
overflows for either count. -/
theorem temperature_monotone_scenario1 (c : BME280.CallibrationData)
    (hT1 : c.dig_T1 = 28722) (hT2 : c.dig_T2 = 26832) (hT3 : c.dig_T3 = 50)
    (a b : Int) (h0 : 0 ≤ a) (hab : a ≤ b) (hb : b ≤ 1048575) :
    BME280.convert_temperature.T (BME280.calculate_fine_temperature a c) ≤
        BME280.convert_temperature.T (BME280.calculate_fine_temperature b c) ∧
      BME280.convert_temperature (BME280.calculate_fine_temperature a c) ≤
        BME280.convert_temperature (BME280.calculate_fine_temperature b c) ∧
      BME280.calculate_fine_temperature a c ≤ BME280.calculate_fine_temperature b c ∧
      temperature_no_overflow a c ∧ temperature_no_overflow b c := by
  have hnoa := temperature_no_overflow_scenario1 c hT1 hT2 hT3 a h0 (le_trans hab hb)
  have hnob := temperature_no_overflow_scenario1 c hT1 hT2 hT3 b (le_trans h0 hab) hb
  obtain ⟨hfa, hTa⟩ := calculate_fine_temperature_eq_reference a c hnoa
  obtain ⟨hfb, hTb⟩ := calculate_fine_temperature_eq_reference b c hnob
  have hmono := reference_t_fine_scenario1_monotone a b h0 hab hb
  have hT : BME280.convert_temperature.T (BME280.calculate_fine_temperature a c) ≤
      BME280.convert_temperature.T (BME280.calculate_fine_temperature b c) := by
    rw [hfa, hfb, hTa, hTb, hT1, hT2, hT3, shr_eq_div, shr_eq_div]
    omega
  refine ⟨hT, ?_, ?_, hnoa, hnob⟩
  · unfold BME280.convert_temperature
    have hq : ((BME280.convert_temperature.T (BME280.calculate_fine_temperature a c) : Int) : ℚ) ≤
        ((BME280.convert_temperature.T (BME280.calculate_fine_temperature b c) : Int) : ℚ) := by
      exact_mod_cast hT
    exact div_le_div_of_nonneg_right hq (by norm_num)
  · rw [hfa, hfb, hT1, hT2, hT3]
    exact hmono

/-- The two ends of the range for the calibration of scenario 1: the count 0 gives
-146.87 degrees and the count 1048575 gives 188.60 degrees. -/
theorem temperature_monotone_scenario1_witness :
    BME280.convert_temperature.T (BME280.calculate_fine_temperature 0 scenario1_callibration) =
        -14687 ∧
      BME280.convert_temperature.T
        (BME280.calculate_fine_temperature 1048575 scenario1_callibration) = 18860 ∧
      BME280.convert_temperature.T (BME280.calculate_fine_temperature 0 scenario1_callibration) ≤
        BME280.convert_temperature.T
          (BME280.calculate_fine_temperature 1048575 scenario1_callibration) :=
  ⟨by decide, by decide,
    (temperature_monotone_scenario1 scenario1_callibration rfl rfl rfl 0 1048575
      (by decide) (by decide) (by decide)).1⟩


/-! ## Overflow-free documented calibrations -/

theorem tdiv_bounds (N D d L U : Int) (hd : 0 < d) (hD : d ≤ D) (hL : 0 ≤ L) (hU : 0 ≤ U)
    (hN0 : -L ≤ N) (hN1 : N ≤ U) : -(L / d) ≤ Int.tdiv N D ∧ Int.tdiv N D ≤ U / d := by
  have hD0 : 0 < D := lt_of_lt_of_le hd hD
  have key : ∀ n B : Int, 0 ≤ n → n ≤ B → 0 ≤ n / D ∧ n / D ≤ B / d := by
    intro n B hn hB
    have h0 : 0 ≤ n / D := Int.ediv_nonneg hn (le_of_lt hD0)
    refine ⟨h0, Int.le_ediv_of_mul_le hd ?_⟩
    have h1 : n / D * D ≤ n := Int.ediv_mul_le n (ne_of_gt hD0)
    have h2 : n / D * d ≤ n / D * D := Int.mul_le_mul_of_nonneg_left hD h0
    omega
  by_cases hN : 0 ≤ N
  · rw [Int.tdiv_eq_ediv hN (le_of_lt hD0)]
    have h := key N U hN hN1
    have hL' : 0 ≤ L / d := Int.ediv_nonneg hL (le_of_lt hd)
    omega
  · have hneg : Int.tdiv N D = -(Int.tdiv (-N) D) := by
      rw [Int.neg_tdiv, neg_neg]
    rw [hneg, Int.tdiv_eq_ediv (by omega) (le_of_lt hD0)]
    have h := key (-N) L (by omega) (by omega)
    have hU' : 0 ≤ U / d := Int.ediv_nonneg hU (le_of_lt hd)
    omega

theorem raw_counts_bounds (regs : BME280.RawData) :
    (0 ≤ BME280.pressure_raw regs ∧ BME280.pressure_raw regs ≤ 1048575) ∧
      (0 ≤ BME280.temperature_raw regs ∧ BME280.temperature_raw regs ≤ 1048575) ∧
      (0 ≤ BME280.humidity_raw regs ∧ BME280.humidity_raw regs ≤ 65535) := by
  have b0 := regs.pressure_msb.isLt
  have b1 := regs.pressure_lsb.isLt
  have b2 := regs.pressure_xlsb.isLt
  have b3 := regs.temperature_msb.isLt
  have b4 := regs.temperature_lsb.isLt
  have b5 := regs.temperature_xlsb.isLt
  have b6 := regs.humidity_msb.isLt
  have b7 := regs.humidity_lsb.isLt
  refine ⟨?_, ?_, ?_⟩
  · unfold BME280.pressure_raw
    rw [count20_eq _ _ _ b1 b2]
    omega
  · unfold BME280.temperature_raw
    rw [count20_eq _ _ _ b4 b5]
    omega
  · unfold BME280.humidity_raw
    rw [shiftLeft_or_eq_add _ _ 8 b7]
    have h : (2 : Nat) ^ 8 = 256 := by norm_num
    rw [h]
    omega

theorem reference_t_fine_scenario2 (a : Int) :
    reference_t_fine a 28390 26319 50 =
      ((a / 8 - 28390 * 2) * 26319) / 2048 +
        ((((a / 16 - 28390) * (a / 16 - 28390)) / 4096) * 50) / 16384 := by
  unfold reference_t_fine
  simp only [shr_eq_div]
  norm_num

theorem temperature_no_overflow_scenario2 (c : BME280.CallibrationData)
    (hT1 : c.dig_T1 = 28390) (hT2 : c.dig_T2 = 26319) (hT3 : c.dig_T3 = 50)
    (a : Int) (h0 : 0 ≤ a) (h1 : a ≤ 1048575) : temperature_no_overflow a c := by
  have hl : -28390 ≤ a / 16 - 28390 := by omega
  have hu : a / 16 - 28390 ≤ 37145 := by omega
  have hs0 : 0 ≤ (a / 16 - 28390) * (a / 16 - 28390) := mul_self_nonneg _
  have hs1 : (a / 16 - 28390) * (a / 16 - 28390) ≤ 1379751025 := by nlinarith
  unfold temperature_no_overflow
  rw [hT1, hT2, hT3, reference_t_fine_scenario2]
  simp only [shr_eq_div, in_int32]
  norm_num
  generalize (a / 16 - 28390) * (a / 16 - 28390) = s at hs0 hs1 ⊢
  omega

theorem reference_t_fine_scenario1_bounds (a : Int) (h0 : 0 ≤ a) (h1 : a ≤ 1048575) :
    -752607 ≤ reference_t_fine a 28722 26832 50 ∧
      reference_t_fine a 28722 26832 50 ≤ 965637 := by
  have hl : -28722 ≤ a / 16 - 28722 := by omega
  have hu : a / 16 - 28722 ≤ 36813 := by omega
  have hs0 : 0 ≤ (a / 16 - 28722) * (a / 16 - 28722) := mul_self_nonneg _
  have hs1 : (a / 16 - 28722) * (a / 16 - 28722) ≤ 1355196969 := by nlinarith
  rw [reference_t_fine_scenario1]
  generalize (a / 16 - 28722) * (a / 16 - 28722) = s at hs0 hs1 ⊢
  omega

theorem reference_t_fine_scenario2_bounds (a : Int) (h0 : 0 ≤ a) (h1 : a ≤ 1048575) :
    -729684 ≤ reference_t_fine a 28390 26319 50 ∧
      reference_t_fine a 28390 26319 50 ≤ 955746 := by
  have hl : -28390 ≤ a / 16 - 28390 := by omega
  have hu : a / 16 - 28390 ≤ 37145 := by omega
  have hs0 : 0 ≤ (a / 16 - 28390) * (a / 16 - 28390) := mul_self_nonneg _
  have hs1 : (a / 16 - 28390) * (a / 16 - 28390) ≤ 1379751025 := by nlinarith
  rw [reference_t_fine_scenario2]
  generalize (a / 16 - 28390) * (a / 16 - 28390) = s at hs0 hs1 ⊢
  omega

theorem humidity_no_overflow_scenario1 (c : BME280.CallibrationData)
    (hH1 : c.dig_H1 = 75) (hH2 : c.dig_H2 = 332) (hH3 : c.dig_H3 = 0)
    (hH4 : c.dig_H4 = 400) (hH5 : c.dig_H5 = 50) (hH6 : c.dig_H6 = 30)
    (adc_H t_fine : Int) (hH0 : 0 ≤ adc_H) (hH : adc_H ≤ 65535)
    (ht0 : -752607 ≤ t_fine) (ht : t_fine ≤ 965637) :
    humidity_no_overflow adc_H t_fine c := by
  unfold humidity_no_overflow reference_humidity_unclamped
  rw [hH1, hH2, hH3, hH4, hH5, hH6]
  simp only [shr_eq_div, in_int32]
  have hb : (t_fine - 76800) * 30 / 2 ^ 10 * ((t_fine - 76800) * 0 / 2 ^ 11 + 32768) =
      32768 * ((t_fine - 76800) * 30 / 2 ^ 10) := by
    rw [show (t_fine - 76800) * 0 / 2 ^ 11 + 32768 = 32768 by omega]
    ring
  rw [hb]
  have hA0 : -14156 ≤
      (adc_H * 2 ^ 14 - 400 * 2 ^ 20 - 50 * (t_fine - 76800) + 16384) / 2 ^ 15 := by
    omega
  have hA1 : (adc_H * 2 ^ 14 - 400 * 2 ^ 20 - 50 * (t_fine - 76800) + 16384) / 2 ^ 15 ≤
      21233 := by
    omega
  have hB0 : 26739 ≤
      ((32768 * ((t_fine - 76800) * 30 / 2 ^ 10) / 2 ^ 10 + 2097152) * 332 + 8192) / 2 ^ 14 := by
    omega
  have hB1 : ((32768 * ((t_fine - 76800) * 30 / 2 ^ 10) / 2 ^ 10 + 2097152) * 332 + 8192) / 2 ^ 14 ≤
      59381 := by
    omega
  generalize (adc_H * 2 ^ 14 - 400 * 2 ^ 20 - 50 * (t_fine - 76800) + 16384) / 2 ^ 15 = A
    at hA0 hA1 ⊢
  generalize ((32768 * ((t_fine - 76800) * 30 / 2 ^ 10) / 2 ^ 10 + 2097152) * 332 + 8192) / 2 ^ 14 = B
    at hB0 hB1 ⊢
  have hM0 : -840597436 ≤ A * B := by nlinarith
  have hM1 : A * B ≤ 1260836773 := by nlinarith
  generalize A * B = M at hM0 hM1 ⊢
  have hQ0 : -25653 ≤ M / 2 ^ 15 := by omega
  have hQ1 : M / 2 ^ 15 ≤ 38477 := by omega
  generalize M / 2 ^ 15 = Q at hQ0 hQ1 ⊢
  have hQQ0 : 0 ≤ Q * Q := mul_self_nonneg Q
  have hQQ1 : Q * Q ≤ 1480479529 := by nlinarith
  generalize Q * Q = QQ at hQQ0 hQQ1 ⊢
  omega

theorem pressure_no_overflow_scenario1 (c : BME280.CallibrationData)
    (hP1 : c.dig_P1 = 36410) (hP2 : c.dig_P2 = -10725) (hP3 : c.dig_P3 = 3024)
    (hP4 : c.dig_P4 = 9237) (hP5 : c.dig_P5 = -156) (hP6 : c.dig_P6 = -7)
    (hP7 : c.dig_P7 = 12300) (hP8 : c.dig_P8 = -12000) (hP9 : c.dig_P9 = 5000)
    (adc_P t_fine : Int) (hP0 : 0 ≤ adc_P) (hP : adc_P ≤ 1048575)
    (ht0 : -752607 ≤ t_fine) (ht : t_fine ≤ 965637) :
    pressure_no_overflow adc_P t_fine c := by
  unfold pressure_no_overflow reference_pressure_p reference_pressure_quotient
    reference_pressure_var1 reference_pressure_var2
  rw [hP1, hP2, hP3, hP4, hP5, hP6, hP7, hP8, hP9]
  simp only [shr_eq_div, in_int32, in_int64]
  have hW0 : 0 ≤ (t_fine - 128000) * (t_fine - 128000) := mul_self_nonneg _
  have hW1 : (t_fine - 128000) * (t_fine - 128000) ≤ 775468688449 := by nlinarith
  generalize (t_fine - 128000) * (t_fine - 128000) = W at hW0 hW1 ⊢
  have hD0 : 440570415 ≤
      (2 ^ 47 + (W * 3024 / 2 ^ 8 + (t_fine - 128000) * -10725 * 2 ^ 12)) * 36410 / 2 ^ 33 := by
    omega
  generalize (2 ^ 47 + (W * 3024 / 2 ^ 8 + (t_fine - 128000) * -10725 * 2 ^ 12)) * 36410 / 2 ^ 33 = D
    at hD0 ⊢
  have hN0 : -1048077285785600000 ≤
      ((1048576 - adc_P) * 2 ^ 31 -
        (W * -7 + (t_fine - 128000) * -156 * 2 ^ 17 + 9237 * 2 ^ 35)) * 3125 := by
    omega
  have hN1 : ((1048576 - adc_P) * 2 ^ 31 -
        (W * -7 + (t_fine - 128000) * -156 * 2 ^ 17 + 9237 * 2 ^ 35)) * 3125 ≤
        6115545466468621875 := by
    omega
  have hX := tdiv_bounds
    (((1048576 - adc_P) * 2 ^ 31 -
        (W * -7 + (t_fine - 128000) * -156 * 2 ^ 17 + 9237 * 2 ^ 35)) * 3125)
    D 440570415 1048077285785600000 6115545466468621875 (by norm_num) hD0 (by norm_num)
    (by norm_num) hN0 hN1
  generalize Int.tdiv
    (((1048576 - adc_P) * 2 ^ 31 -
        (W * -7 + (t_fine - 128000) * -156 * 2 ^ 17 + 9237 * 2 ^ 35)) * 3125)
    D = X at hX ⊢
  have hY0 : -290395 ≤ X / 2 ^ 13 := by omega
  have hY1 : X / 2 ^ 13 ≤ 1694454 := by omega
  generalize X / 2 ^ 13 = Y at hY0 hY1 ⊢
  have hYY0 : 0 ≤ 5000 * Y * Y := by nlinarith [mul_self_nonneg Y]
  have hYY1 : 5000 * Y * Y ≤ 14355871790580000 := by nlinarith
  generalize 5000 * Y * Y = YY at hYY0 hYY1 ⊢
  omega

theorem no_overflow_scenario1 (regs : BME280.RawData) :
    no_overflow scenario1_callibration regs := by
  obtain ⟨⟨hP0, hP1⟩, ⟨hT0, hT1⟩, ⟨hH0, hH1⟩⟩ := raw_counts_bounds regs
  obtain ⟨ht0, ht1⟩ := reference_t_fine_scenario1_bounds _ hT0 hT1
  exact ⟨temperature_no_overflow_scenario1 _ rfl rfl rfl _ hT0 hT1,
    humidity_no_overflow_scenario1 _ rfl rfl rfl rfl rfl rfl _ _ hH0 hH1 ht0 ht1,
    pressure_no_overflow_scenario1 _ rfl rfl rfl rfl rfl rfl rfl rfl rfl _ _ hP0 hP1 ht0 ht1⟩

theorem humidity_no_overflow_scenario2 (c : BME280.CallibrationData)
    (hH1 : c.dig_H1 = 75) (hH2 : c.dig_H2 = 358) (hH3 : c.dig_H3 = 0)
    (hH4 : c.dig_H4 = 330) (hH5 : c.dig_H5 = 0) (hH6 : c.dig_H6 = 30)
    (adc_H t_fine : Int) (hH0 : 0 ≤ adc_H) (hH : adc_H ≤ 65535)
    (ht0 : -729684 ≤ t_fine) (ht : t_fine ≤ 955746) :
    humidity_no_overflow adc_H t_fine c := by
  unfold humidity_no_overflow reference_humidity_unclamped
  rw [hH1, hH2, hH3, hH4, hH5, hH6]
  simp only [shr_eq_div, in_int32]
  have hb : (t_fine - 76800) * 30 / 2 ^ 10 * ((t_fine - 76800) * 0 / 2 ^ 11 + 32768) =
      32768 * ((t_fine - 76800) * 30 / 2 ^ 10) := by
    rw [show (t_fine - 76800) * 0 / 2 ^ 11 + 32768 = 32768 by omega]
    ring
  rw [hb]
  have hA0 : -10560 ≤
      (adc_H * 2 ^ 14 - 330 * 2 ^ 20 - 0 * (t_fine - 76800) + 16384) / 2 ^ 15 := by
    omega
  have hA1 : (adc_H * 2 ^ 14 - 330 * 2 ^ 20 - 0 * (t_fine - 76800) + 16384) / 2 ^ 15 ≤
      22208 := by
    omega
  have hB0 : 29303 ≤
      ((32768 * ((t_fine - 76800) * 30 / 2 ^ 10) / 2 ^ 10 + 2097152) * 358 + 8192) / 2 ^ 14 := by
    omega
  have hB1 : ((32768 * ((t_fine - 76800) * 30 / 2 ^ 10) / 2 ^ 10 + 2097152) * 358 + 8192) / 2 ^ 14 ≤
      63829 := by
    omega
  generalize (adc_H * 2 ^ 14 - 330 * 2 ^ 20 - 0 * (t_fine - 76800) + 16384) / 2 ^ 15 = A
    at hA0 hA1 ⊢
  generalize ((32768 * ((t_fine - 76800) * 30 / 2 ^ 10) / 2 ^ 10 + 2097152) * 358 + 8192) / 2 ^ 14 = B
    at hB0 hB1 ⊢
  have hM0 : -674034240 ≤ A * B := by nlinarith
  have hM1 : A * B ≤ 1417514432 := by nlinarith
  generalize A * B = M at hM0 hM1 ⊢
  have hQ0 : -20570 ≤ M / 2 ^ 15 := by omega
  have hQ1 : M / 2 ^ 15 ≤ 43259 := by omega
  generalize M / 2 ^ 15 = Q at hQ0 hQ1 ⊢
  have hQQ0 : 0 ≤ Q * Q := mul_self_nonneg Q
  have hQQ1 : Q * Q ≤ 1871341081 := by nlinarith
  generalize Q * Q = QQ at hQQ0 hQQ1 ⊢
  omega

theorem pressure_no_overflow_scenario2 (c : BME280.CallibrationData)
    (hP1 : c.dig_P1 = 37115) (hP2 : c.dig_P2 = -10921) (hP3 : c.dig_P3 = 3024)
    (hP4 : c.dig_P4 = 6890) (hP5 : c.dig_P5 = -133) (hP6 : c.dig_P6 = -7)
    (hP7 : c.dig_P7 = 9900) (hP8 : c.dig_P8 = -10230) (hP9 : c.dig_P9 = 4285)
    (adc_P t_fine : Int) (hP0 : 0 ≤ adc_P) (hP : adc_P ≤ 1048575)
    (ht0 : -729684 ≤ t_fine) (ht : t_fine ≤ 955746) :
    pressure_no_overflow adc_P t_fine c := by
  unfold pressure_no_overflow reference_pressure_p reference_pressure_quotient
    reference_pressure_var1 reference_pressure_var2
  rw [hP1, hP2, hP3, hP4, hP5, hP6, hP7, hP8, hP9]
  simp only [shr_eq_div, in_int32, in_int64]
  have hW0 : 0 ≤ (t_fine - 128000) * (t_fine - 128000) := mul_self_nonneg _
  have hW1 : (t_fine - 128000) * (t_fine - 128000) ≤ 735621843856 := by nlinarith
  generalize (t_fine - 128000) * (t_fine - 128000) = W at hW0 hW1 ⊢
  have hD0 : 448107238 ≤
      (2 ^ 47 + (W * 3024 / 2 ^ 8 + (t_fine - 128000) * -10921 * 2 ^ 12)) * 37115 / 2 ^ 33 := by
    omega
  generalize (2 ^ 47 + (W * 3024 / 2 ^ 8 + (t_fine - 128000) * -10921 * 2 ^ 12)) * 37115 / 2 ^ 33 = D
    at hD0 ⊢
  have hN0 : -786525285580800000 ≤
      ((1048576 - adc_P) * 2 ^ 31 -
        (W * -7 + (t_fine - 128000) * -133 * 2 ^ 17 + 6890 * 2 ^ 35)) * 3125 := by
    omega
  have hN1 : ((1048576 - adc_P) * 2 ^ 31 -
        (W * -7 + (t_fine - 128000) * -133 * 2 ^ 17 + 6890 * 2 ^ 35)) * 3125 ≤
        6358250982157550000 := by
    omega
  have hX := tdiv_bounds
    (((1048576 - adc_P) * 2 ^ 31 -
        (W * -7 + (t_fine - 128000) * -133 * 2 ^ 17 + 6890 * 2 ^ 35)) * 3125)
    D 448107238 786525285580800000 6358250982157550000 (by norm_num) hD0 (by norm_num)
    (by norm_num) hN0 hN1
  generalize Int.tdiv
    (((1048576 - adc_P) * 2 ^ 31 -
        (W * -7 + (t_fine - 128000) * -133 * 2 ^ 17 + 6890 * 2 ^ 35)) * 3125)
    D = X at hX ⊢
  have hY0 : -214260 ≤ X / 2 ^ 13 := by omega
  have hY1 : X / 2 ^ 13 ≤ 1732071 := by omega
  generalize X / 2 ^ 13 = Y at hY0 hY1 ⊢
  have hYY0 : 0 ≤ 4285 * Y * Y := by nlinarith [mul_self_nonneg Y]
  have hYY1 : 4285 * Y * Y ≤ 12855299731640685 := by nlinarith
  generalize 4285 * Y * Y = YY at hYY0 hYY1 ⊢
  omega

theorem no_overflow_scenario2 (regs : BME280.RawData) :
    no_overflow scenario2_callibration regs := by
  obtain ⟨⟨hP0, hP1⟩, ⟨hT0, hT1⟩, ⟨hH0, hH1⟩⟩ := raw_counts_bounds regs
  obtain ⟨ht0, ht1⟩ := reference_t_fine_scenario2_bounds _ hT0 hT1
  exact ⟨temperature_no_overflow_scenario2 _ rfl rfl rfl _ hT0 hT1,
    humidity_no_overflow_scenario2 _ rfl rfl rfl rfl rfl rfl _ _ hH0 hH1 ht0 ht1,
    pressure_no_overflow_scenario2 _ rfl rfl rfl rfl rfl rfl rfl rfl rfl _ _ hP0 hP1 ht0 ht1⟩

/-- C15 as amended: for the calibration of either documented scenario and for every
8-byte raw sample, every signed 32-bit intermediate of the fine-temperature, temperature
and humidity computations and every signed 64-bit intermediate of the pressure
computation, taken in unbounded integers, lies in the range of its type (`no_overflow`),
and `to_real_values` returns exactly the reading of the manufacturer's formulas computed
in unbounded integer arithmetic; so do the fine temperature, the humidity value and the
two terms of the pressure formula. -/
theorem documented_calibrations_never_overflow (c : BME280.CallibrationData)
    (regs : BME280.RawData)
    (hc : c = scenario1_callibration ∨ c = scenario2_callibration) :
    no_overflow c regs ∧
      BME280.to_real_values c regs = some (reference_to_real_values c regs) ∧
      BME280.calculate_fine_temperature (BME280.temperature_raw regs) c =
        reference_t_fine (BME280.temperature_raw regs) c.dig_T1 c.dig_T2 c.dig_T3 ∧
      BME280.convert_humidity.v_x1_u32r (BME280.humidity_raw regs)
          (BME280.calculate_fine_temperature (BME280.temperature_raw regs) c) c =
        reference_humidity (BME280.humidity_raw regs)
          (reference_t_fine (BME280.temperature_raw regs) c.dig_T1 c.dig_T2 c.dig_T3) c ∧
      BME280.convert_pressure.var1
          (BME280.calculate_fine_temperature (BME280.temperature_raw regs) c) c =
        reference_pressure_var1
          (reference_t_fine (BME280.temperature_raw regs) c.dig_T1 c.dig_T2 c.dig_T3) c ∧
      BME280.convert_pressure.var2
          (BME280.calculate_fine_temperature (BME280.temperature_raw regs) c) c =
        reference_pressure_var2
          (reference_t_fine (BME280.temperature_raw regs) c.dig_T1 c.dig_T2 c.dig_T3) c := by
  have hno : no_overflow c regs := by
    rcases hc with rfl | rfl
    · exact no_overflow_scenario1 regs
    · exact no_overflow_scenario2 regs
  exact ⟨hno, fixed_point_math_without_overflow c regs hno⟩

/-- The raw sample of all-ones bytes carries the largest counts, 1048575, 1048575 and
65535; with the calibration the driver decodes in scenario 1 it is free of overflow and
reads 188.60 degrees, -28030.66 Pa and 100 %. -/
theorem documented_calibrations_never_overflow_witness :
    (get_callibration_data scenario1_bus []).1 = Outcome.returned scenario1_callibration ∧
      BME280.pressure_raw
          (BME280.RawData.of_mapped_region [0xff, 0xff, 0xff, 0xff, 0xff, 0xff, 0xff, 0xff]) =
        1048575 ∧
      BME280.temperature_raw
          (BME280.RawData.of_mapped_region [0xff, 0xff, 0xff, 0xff, 0xff, 0xff, 0xff, 0xff]) =
        1048575 ∧
      BME280.humidity_raw
          (BME280.RawData.of_mapped_region [0xff, 0xff, 0xff, 0xff, 0xff, 0xff, 0xff, 0xff]) =
        65535 ∧
      no_overflow scenario1_callibration
        (BME280.RawData.of_mapped_region [0xff, 0xff, 0xff, 0xff, 0xff, 0xff, 0xff, 0xff]) ∧
      BME280.to_real_values scenario1_callibration
          (BME280.RawData.of_mapped_region [0xff, 0xff, 0xff, 0xff, 0xff, 0xff, 0xff, 0xff]) =
        some (reference_to_real_values scenario1_callibration
          (BME280.RawData.of_mapped_region
            [0xff, 0xff, 0xff, 0xff, 0xff, 0xff, 0xff, 0xff])) ∧
      reference_to_real_values scenario1_callibration
          (BME280.RawData.of_mapped_region [0xff, 0xff, 0xff, 0xff, 0xff, 0xff, 0xff, 0xff]) =
        ⟨((18860 : Int) : ℚ) / 100, ((-7175849 : Int) : ℚ) / 256,
          ((102400 : Int) : ℚ) / 1024⟩ := by
  have h := documented_calibrations_never_overflow scenario1_callibration
    (BME280.RawData.of_mapped_region [0xff, 0xff, 0xff, 0xff, 0xff, 0xff, 0xff, 0xff])
    (Or.inl rfl)
  refine ⟨rfl, by decide, by decide, by decide, h.1, h.2.1, ?_⟩
  unfold reference_to_real_values
  have hvar1 : reference_pressure_var1 (reference_t_fine (BME280.temperature_raw
      (BME280.RawData.of_mapped_region [0xff, 0xff, 0xff, 0xff, 0xff, 0xff, 0xff, 0xff]))
      scenario1_callibration.dig_T1 scenario1_callibration.dig_T2
      scenario1_callibration.dig_T3) scenario1_callibration ≠ 0 := by decide
  rw [if_neg hvar1]
  rfl

end jungles
